import Mathlib

/-!
# Register access and PCI capability discovery of tnvme (`registers.cpp`)

A shallow embedding of `Registers::Read`, `Registers::Write`,
`Registers::FormatRegister` and `Registers::DiscoverPciCapabilities`, and a
model of the timed wait of `CQ` (`Queues/cq.h`).

* Machine integers are natural numbers; wrap-around is written out
  (`% 2 ^ 32` for `unsigned int`, `% 2 ^ 64` for `unsigned long long`).
* The kernel driver reached through `ioctl` is an oracle `Device`; every
  `ioctl` issued is appended to `Registers.calls`, which plays the part of
  a call-count spy.
* The header `registers.h` (register tables, enums, `REGMASK`, `STS_CL`) is
  not part of the sources at hand: the tables live in the state, the enum
  values used by discovery are the fields of `RegLayout`.
* `LOG_NRM`, `LOG_ERR` and `LOG_DBG` have no effect on any value computed and
  are left out.
-/

namespace Tnvme

/-! ## Data model -/

/-- Specification revision tag (`enum SpecRev`), by enum value. -/
abbrev SpecRev := Nat

/-- Modelled from the spec: the `PciCapabilities` enum of the absent header
`registers.h`; "a small closed set: power-management, MSI, MSI-X,
PCI-Express, advanced-error-reporting", and `PCICAP_FENCE` for a register that
no capability owns. -/
inductive PciCapabilities where
  | PCICAP_PMCAP
  | PCICAP_MSICAP
  | PCICAP_MSIXCAP
  | PCICAP_PXCAP
  | PCICAP_AERCAP
  | PCICAP_FENCE
  deriving DecidableEq, Repr

open PciCapabilities

/-- Space selector of a driver request (`enum nvme_io_space`). -/
inductive nvme_io_space where
  | NVMEIO_PCI_HDR
  | NVMEIO_BAR01
  | NVMEIO_FENCE
  deriving DecidableEq, Repr

open nvme_io_space

/-- One row of `mPciSpcMetrics` (`PciSpcType`): the fields the code reads. -/
structure PciSpcType where
  cap : PciCapabilities
  specRev : SpecRev
  offset : Nat
  size : Nat
  desc : String
  deriving DecidableEq, Repr

/-- One row of `mCtlSpcMetrics` (`CtlSpcType`). -/
structure CtlSpcType where
  specRev : SpecRev
  offset : Nat
  size : Nat
  desc : String
  deriving DecidableEq, Repr

/-- A driver request: `ioctl(mFd, NVME_IOCTL_READ_GENERIC | WRITE_GENERIC, &io)`
with `struct rw_generic io = { type, offset, nBytes, buffer }`. For a write,
`data` is the `nBytes` bytes the buffer holds; for a read it is empty. -/
structure IoCall where
  isWrite : Bool
  type : nvme_io_space
  offset : Nat
  nBytes : Nat
  data : List Nat
  deriving DecidableEq, Repr

/-- The device behind the driver. Its answer to a request may depend on all
requests issued before (`List IoCall`): `rc` is the value `ioctl` returns,
`data h io i` is byte `i` delivered into the buffer by a successful read. -/
structure Device where
  rc : List IoCall → IoCall → Int
  data : List IoCall → IoCall → Nat → Nat

/-- The enum values and bit masks of `registers.h` that discovery names. -/
structure RegLayout where
  PCISPC_STS : Nat
  PCISPC_CAP : Nat
  PCISPC_PID : Nat
  PCISPC_MID : Nat
  PCISPC_MXID : Nat
  PCISPC_PXID : Nat
  PCISPC_AERID : Nat
  PCISPC_AERUCES : Nat
  PCISPC_AERTLP : Nat
  PCISPC_FENCE : Nat
  STS_CL : Nat

/-- State of a `Registers` object together with the static tables it mutates
and the log of driver requests issued so far. -/
structure Registers where
  mSpecRev : SpecRev
  mPciSpcMetrics : Nat → PciSpcType
  mCtlSpcMetrics : Nat → CtlSpcType
  mPciCap : List PciCapabilities
  calls : List IoCall

/-- Result of a `Read` or `Write`: the state afterwards, the `bool` returned
and the content of the caller's `value` afterwards. -/
structure Access where
  st : Registers
  ok : Bool
  value : Nat

/-! ## Constants and integer helpers -/

/-- `INT_MAX` of `<limits.h>`, the "offset unknown" sentinel. -/
def INT_MAX : Nat := 2147483647

/-- Modelled from the spec: `MAX_SUPPORTED_REG_SIZE` of the absent header,
"the maximum supported register width (8 bytes)". -/
def MAX_SUPPORTED_REG_SIZE : Nat := 8

/-- Modelled from the spec: the macro `REGMASK(value, size)` of the absent
header, which "masks the raw result to exactly `size` bytes (values must be
zero above the requested width)". -/
def REGMASK (value size : Nat) : Nat := value % 2 ^ (8 * size)

/-- The little-endian integer formed by the first `n` bytes of `bytes`. -/
def leValue : Nat → (Nat → Nat) → Nat
  | 0, _ => 0
  | n + 1, bytes => bytes 0 % 256 + 256 * leValue n (fun i => bytes (i + 1))

/-- Storing `n ≤ 8` bytes at the address of an `unsigned long long` on the
little-endian host: the low `n` bytes are replaced, the others are kept. -/
def storeLE (value n : Nat) (bytes : Nat → Nat) : Nat :=
  value / 256 ^ n * 256 ^ n + leValue n bytes

/-- The first `n` bytes of an `unsigned long long` in memory order. -/
def bytesLE (value : Nat) (n : Nat) : List Nat :=
  (List.range n).map (fun i => value / 256 ^ i % 256)

/-! ## The driver call -/

/-- Outcome of one `ioctl`: state with the request logged, return code and
the content of the buffer variable afterwards. -/
structure IoResult where
  st : Registers
  rc : Int
  buf : Nat

/-- The `ioctl(mFd, NVME_IOCTL_READ_GENERIC, &io)` call whose buffer is the
address of the 64-bit variable `buf`. A failing call leaves `buf` alone. -/
def ioctlRead (dev : Device) (st : Registers) (io : IoCall) (buf : Nat) : IoResult :=
  let rc := dev.rc st.calls io
  { st := { st with calls := st.calls ++ [io] }
    rc := rc
    buf := if rc < 0 then buf else storeLE buf io.nBytes (dev.data st.calls io) }

/-- The `ioctl(mFd, NVME_IOCTL_WRITE_GENERIC, &io)` call; the driver only
reads the buffer. -/
def ioctlWrite (dev : Device) (st : Registers) (io : IoCall) (buf : Nat) : IoResult :=
  { st := { st with calls := st.calls ++ [io] }
    rc := dev.rc st.calls io
    buf := buf }

/-! ## `Registers::Read` and `Registers::Write` -/

namespace Registers

/-- `Registers::Read(nvme_io_space, unsigned int, unsigned int,
unsigned long long &, const char *)`. -/
def Read (dev : Device) (st : Registers) (regSpc : nvme_io_space) (rsize roffset : Nat)
    (value : Nat) (_rdesc : String) : Access :=
  let io : IoCall :=
    { isWrite := false, type := regSpc, offset := roffset, nBytes := rsize, data := [] }
  if roffset = INT_MAX then
    { st := st, ok := false, value := value }
  else if rsize > MAX_SUPPORTED_REG_SIZE then
    { st := st, ok := false, value := value }
  else
    let r := ioctlRead dev st io value
    if r.rc < 0 then
      { st := r.st, ok := false, value := r.buf }
    else
      { st := r.st, ok := true, value := REGMASK r.buf rsize }

/-- `Registers::Write(nvme_io_space, unsigned int, unsigned int,
unsigned long long &, const char *)`. -/
def Write (dev : Device) (st : Registers) (regSpc : nvme_io_space) (rsize roffset : Nat)
    (value : Nat) (_rdesc : String) : Access :=
  let io : IoCall :=
    { isWrite := true, type := regSpc, offset := roffset, nBytes := rsize,
      data := bytesLE value rsize }
  if roffset = INT_MAX then
    { st := st, ok := false, value := value }
  else if rsize > MAX_SUPPORTED_REG_SIZE then
    { st := st, ok := false, value := value }
  else
    let r := ioctlWrite dev st io value
    if r.rc < 0 then
      { st := r.st, ok := false, value := r.buf }
    else
      { st := r.st, ok := true, value := REGMASK r.buf rsize }

/-- `Registers::Read(PciSpc reg, unsigned long long &value)`. -/
def ReadPciSpc (dev : Device) (st : Registers) (reg : Nat) (value : Nat) : Access :=
  if (st.mPciSpcMetrics reg).specRev ≠ st.mSpecRev then
    { st := st, ok := false, value := value }
  else
    Read dev st NVMEIO_PCI_HDR (st.mPciSpcMetrics reg).size (st.mPciSpcMetrics reg).offset
      value (st.mPciSpcMetrics reg).desc

/-- `Registers::Read(CtlSpc reg, unsigned long long &value)`; the revision
test reads `mPciSpcMetrics[reg]`, as the source does. -/
def ReadCtlSpc (dev : Device) (st : Registers) (reg : Nat) (value : Nat) : Access :=
  if (st.mPciSpcMetrics reg).specRev ≠ st.mSpecRev then
    { st := st, ok := false, value := value }
  else
    Read dev st NVMEIO_BAR01 (st.mCtlSpcMetrics reg).size (st.mCtlSpcMetrics reg).offset
      value (st.mCtlSpcMetrics reg).desc

/-- `Registers::Write(PciSpc reg, unsigned long long value)`. -/
def WritePciSpc (dev : Device) (st : Registers) (reg : Nat) (value : Nat) : Access :=
  if (st.mPciSpcMetrics reg).specRev ≠ st.mSpecRev then
    { st := st, ok := false, value := value }
  else
    Write dev st NVMEIO_PCI_HDR (st.mPciSpcMetrics reg).size (st.mPciSpcMetrics reg).offset
      value (st.mPciSpcMetrics reg).desc

/-- `Registers::Write(CtlSpc reg, unsigned long long value)`; the revision
test reads `mPciSpcMetrics[reg]`, as the source does. -/
def WriteCtlSpc (dev : Device) (st : Registers) (reg : Nat) (value : Nat) : Access :=
  if (st.mPciSpcMetrics reg).specRev ≠ st.mSpecRev then
    { st := st, ok := false, value := value }
  else
    Write dev st NVMEIO_BAR01 (st.mCtlSpcMetrics reg).size (st.mCtlSpcMetrics reg).offset
      value (st.mCtlSpcMetrics reg).desc

end Registers

/-! ## `Registers::DiscoverPciCapabilities` -/

/-- Which `return` (or the end of the function body) ended a discovery run;
`outOfFuel` marks a walk cut off because the bound on loop iterations given
to the embedding was used up. -/
inductive DiscoverExit where
  | stsReadFailed
  | noCapList
  | capReadFailed
  | hdrReadFailed
  | unknownCapId
  | extReadFailed
  | unknownExtCapId
  | completed
  | outOfFuel
  deriving DecidableEq, Repr

/-- State left by a discovery run and the exit it took. -/
structure Discovery where
  st : Registers
  exit : DiscoverExit

/-- The assignment `mPciSpcMetrics[i].offset = off`. -/
def setOffset (tbl : Nat → PciSpcType) (i off : Nat) : Nat → PciSpcType :=
  Function.update tbl i { tbl i with offset := off }

/-- The value `mPciSpcMetrics[i-1].offset + mPciSpcMetrics[i-1].size`
in `unsigned int` arithmetic. -/
def nextOffset (tbl : Nat → PciSpcType) (i : Nat) : Nat :=
  ((tbl (i - 1)).offset + (tbl (i - 1)).size) % 2 ^ 32

/-- The loop `for (int i = capIdx+1; i < PCISPC_FENCE; i++)` with its `if`
on the owning capability: `n` iterations are left, `i` is the loop variable. -/
def fixupFrom (kind : PciCapabilities) : Nat → Nat → (Nat → PciSpcType) → (Nat → PciSpcType)
  | 0, _, tbl => tbl
  | n + 1, i, tbl =>
    fixupFrom kind n (i + 1)
      (if (tbl i).cap = kind then setOffset tbl i (nextOffset tbl i) else tbl)

/-- The loop `for (int i = PCISPC_AERUCES; i <= PCISPC_AERTLP; i++)`:
`n` iterations are left, `i` is the loop variable. -/
def chainFrom : Nat → Nat → (Nat → PciSpcType) → (Nat → PciSpcType)
  | 0, _, tbl => tbl
  | n + 1, i, tbl => chainFrom n (i + 1) (setOffset tbl i (nextOffset tbl i))

/-- The `switch (capId)` of the list walk: the capability pushed and the
value given to `capIdx`, or `none` for the `default:` branch. -/
def decodeCapId (L : RegLayout) (capId : Nat) : Option (PciCapabilities × Nat) :=
  if capId = 0x01 then some (PCICAP_PMCAP, L.PCISPC_PID)
  else if capId = 0x05 then some (PCICAP_MSICAP, L.PCISPC_MID)
  else if capId = 0x10 then some (PCICAP_PXCAP, L.PCISPC_PXID)
  else if capId = 0x11 then some (PCICAP_MSIXCAP, L.PCISPC_MXID)
  else none

/-- Body of one `case` of the switch followed by the fix-up loop: push the
capability, set the anchor register offset, chain the registers after it. -/
def recordCap (L : RegLayout) (st : Registers) (kind : PciCapabilities) (capIdx capOffset : Nat) :
    Registers :=
  { st with
    mPciCap := st.mPciCap ++ [kind]
    mPciSpcMetrics :=
      fixupFrom kind (L.PCISPC_FENCE - (capIdx + 1)) (capIdx + 1)
        (setOffset st.mPciSpcMetrics capIdx capOffset) }

/-- The request `io = { NVMEIO_PCI_HDR, offset, 4, &nextCap }` of discovery. -/
def hdrRequest (offset : Nat) : IoCall :=
  { isWrite := false, type := NVMEIO_PCI_HDR, offset := offset, nBytes := 4, data := [] }

/-- Lines 353-377: the probe of the extended capability at offset 0x100. -/
def probeExtended (L : RegLayout) (dev : Device) (st : Registers) (nextCap : Nat) : Discovery :=
  let r := ioctlRead dev st (hdrRequest 0x100) nextCap
  if r.rc < 0 then
    { st := r.st, exit := DiscoverExit.extReadFailed }
  else
    let capId := REGMASK r.buf 2
    let capOffset := REGMASK (r.buf >>> 20) 2
    if capId = 0x0001 then
      { st :=
          { r.st with
            mPciCap := r.st.mPciCap ++ [PCICAP_AERCAP]
            mPciSpcMetrics :=
              chainFrom (L.PCISPC_AERTLP + 1 - L.PCISPC_AERUCES) L.PCISPC_AERUCES
                (setOffset r.st.mPciSpcMetrics L.PCISPC_AERID capOffset) }
        exit := DiscoverExit.completed }
    else
      { st := r.st, exit := DiscoverExit.unknownExtCapId }

/-- The `while (REGMASK((nextCap >> 8), 1))` loop followed by the extended
probe; `fuel` bounds the number of loop iterations. -/
def capWalk (L : RegLayout) (dev : Device) (fuel : Nat) (st : Registers) (nextCap : Nat) :
    Discovery :=
  if REGMASK (nextCap >>> 8) 1 = 0 then
    probeExtended L dev st nextCap
  else
    match fuel with
    | 0 => { st := st, exit := DiscoverExit.outOfFuel }
    | fuel + 1 =>
      let r := ioctlRead dev st (hdrRequest (REGMASK (nextCap >>> 8) 1)) nextCap
      if r.rc < 0 then
        { st := r.st, exit := DiscoverExit.hdrReadFailed }
      else
        match decodeCapId L (REGMASK r.buf 1) with
        | none => { st := r.st, exit := DiscoverExit.unknownCapId }
        | some (kind, capIdx) =>
          capWalk L dev fuel (recordCap L r.st kind capIdx (REGMASK (nextCap >>> 8) 1)) r.buf

namespace Registers

/-- `Registers::DiscoverPciCapabilities()`. The locals `work` and `nextCap`
are not initialised by the source, so their first content is an argument. -/
def DiscoverPciCapabilities (L : RegLayout) (dev : Device) (fuel : Nat) (st : Registers)
    (work nextCap : Nat) : Discovery :=
  let r1 := ReadPciSpc dev { st with mPciCap := [] } L.PCISPC_STS work
  if r1.ok = false then
    { st := r1.st, exit := DiscoverExit.stsReadFailed }
  else if r1.value &&& L.STS_CL = 0 then
    { st := r1.st, exit := DiscoverExit.noCapList }
  else
    let r2 := ReadPciSpc dev r1.st L.PCISPC_CAP nextCap
    if r2.ok = false then
      { st := r2.st, exit := DiscoverExit.capReadFailed }
    else
      capWalk L dev fuel r2.st ((r2.value <<< 8) % 2 ^ 64)

end Registers

/-! ## A concrete session used to evaluate the definitions

The rows follow the PCI header and capability structures of the NVMe 1.0
register map; every capability-owned row starts with the "unknown" offset. -/

/-- Short form of a configuration-space row valid for revision 0. -/
def row (cap : PciCapabilities) (offset size : Nat) (desc : String) : PciSpcType :=
  { cap := cap, specRev := 0, offset := offset, size := size, desc := desc }

/-- Rows of the sample configuration-space table, in enum order. -/
def sampleRows : List PciSpcType :=
  [ row PCICAP_FENCE 0x00 4 "ID", row PCICAP_FENCE 0x04 2 "CMD", row PCICAP_FENCE 0x06 2 "STS",
    row PCICAP_FENCE 0x08 1 "RID", row PCICAP_FENCE 0x09 3 "CC", row PCICAP_FENCE 0x10 4 "BAR0",
    row PCICAP_FENCE 0x14 4 "BAR1", row PCICAP_FENCE 0x34 1 "CAP",
    row PCICAP_PMCAP INT_MAX 2 "PID", row PCICAP_PMCAP INT_MAX 2 "PC",
    row PCICAP_PMCAP INT_MAX 2 "PMCS",
    row PCICAP_MSICAP INT_MAX 2 "MID", row PCICAP_MSICAP INT_MAX 2 "MC",
    row PCICAP_MSICAP INT_MAX 4 "MA", row PCICAP_MSICAP INT_MAX 4 "MUA",
    row PCICAP_MSICAP INT_MAX 2 "MD",
    row PCICAP_MSIXCAP INT_MAX 2 "MXID", row PCICAP_MSIXCAP INT_MAX 2 "MXC",
    row PCICAP_MSIXCAP INT_MAX 4 "MTAB", row PCICAP_MSIXCAP INT_MAX 4 "MPBA",
    row PCICAP_PXCAP INT_MAX 2 "PXID", row PCICAP_PXCAP INT_MAX 2 "PXCAP",
    row PCICAP_PXCAP INT_MAX 4 "PXDCAP", row PCICAP_PXCAP INT_MAX 2 "PXDC",
    row PCICAP_PXCAP INT_MAX 2 "PXDS",
    row PCICAP_AERCAP INT_MAX 4 "AERID", row PCICAP_AERCAP INT_MAX 4 "AERUCES",
    row PCICAP_AERCAP INT_MAX 4 "AERUCEM", row PCICAP_AERCAP INT_MAX 4 "AERUCESEV",
    row PCICAP_AERCAP INT_MAX 4 "AERCS", row PCICAP_AERCAP INT_MAX 4 "AERCEM",
    row PCICAP_AERCAP INT_MAX 4 "AERCC", row PCICAP_AERCAP INT_MAX 16 "AERTLP" ]

/-- The sample configuration-space table; beyond its last row it repeats a
row that no capability owns. -/
def sampleTable : Nat → PciSpcType :=
  fun i => sampleRows.getD i (row PCICAP_FENCE 0 0 "")

/-- Enum values matching `sampleRows`; `STS_CL` is bit 4 of the status
register. -/
def sampleLayout : RegLayout :=
  { PCISPC_STS := 2, PCISPC_CAP := 7, PCISPC_PID := 8, PCISPC_MID := 11, PCISPC_MXID := 16,
    PCISPC_PXID := 20, PCISPC_AERID := 25, PCISPC_AERUCES := 26, PCISPC_AERTLP := 32,
    PCISPC_FENCE := 33, STS_CL := 0x10 }

/-- Rows of the sample control-space table; `VS` is tagged with revision 1. -/
def sampleCtlRows : List CtlSpcType :=
  [ { specRev := 0, offset := 0x00, size := 8, desc := "CAP" },
    { specRev := 1, offset := 0x08, size := 4, desc := "VS" },
    { specRev := 0, offset := 0x0c, size := 4, desc := "INTMS" },
    { specRev := 0, offset := 0x10, size := 4, desc := "INTMC" },
    { specRev := 0, offset := 0x14, size := 4, desc := "CC" },
    { specRev := 0, offset := 0x1c, size := 4, desc := "CSTS" } ]

/-- The sample control-space table. -/
def sampleCtlTable : Nat → CtlSpcType :=
  fun i => sampleCtlRows.getD i { specRev := 0, offset := 0, size := 0, desc := "" }

/-- A session of revision `rev` over the sample tables, nothing issued yet. -/
def sampleSession (rev : SpecRev) : Registers :=
  { mSpecRev := rev, mPciSpcMetrics := sampleTable, mCtlSpcMetrics := sampleCtlTable,
    mPciCap := [], calls := [] }

/-- Configuration-space content given as address/byte pairs, 0 elsewhere. -/
def memOf (l : List (Nat × Nat)) : Nat → Nat :=
  fun a => (l.lookup a).getD 0

/-- A device that answers every request with success and serves reads from
a fixed memory image. -/
def configDevice (mem : Nat → Nat) : Device :=
  { rc := fun _ _ => 0, data := fun _ io i => mem (io.offset + i) }

/-- A device that fails every request. -/
def deadDevice : Device :=
  { rc := fun _ _ => -1, data := fun _ _ _ => 0 }

/-! ## Vocabulary of the statements -/

/-- The five capability kinds. -/
def capKinds : List PciCapabilities :=
  [PCICAP_PMCAP, PCICAP_MSICAP, PCICAP_MSIXCAP, PCICAP_PXCAP, PCICAP_AERCAP]

/-- The anchor register of a capability kind: the register whose offset
discovery sets to the offset of the capability itself. -/
def anchorOf (L : RegLayout) : PciCapabilities → Nat
  | PCICAP_PMCAP => L.PCISPC_PID
  | PCICAP_MSICAP => L.PCISPC_MID
  | PCICAP_MSIXCAP => L.PCISPC_MXID
  | PCICAP_PXCAP => L.PCISPC_PXID
  | PCICAP_AERCAP => L.PCISPC_AERID
  | PCICAP_FENCE => L.PCISPC_FENCE

/-- Every anchor register is a row of the table owned by its own kind, and
the rows `PCISPC_AERUCES .. PCISPC_AERTLP` are rows owned by the
error-reporting capability. -/
def AnchorsOwned (L : RegLayout) (tbl : Nat → PciSpcType) : Prop :=
  (∀ K ∈ capKinds, anchorOf L K < L.PCISPC_FENCE ∧ (tbl (anchorOf L K)).cap = K) ∧
  L.PCISPC_AERTLP < L.PCISPC_FENCE ∧
  ∀ i, i < L.PCISPC_FENCE → L.PCISPC_AERUCES ≤ i → i ≤ L.PCISPC_AERTLP →
    (tbl i).cap = PCICAP_AERCAP

instance (L : RegLayout) (tbl : Nat → PciSpcType) : Decidable (AnchorsOwned L tbl) := by
  unfold AnchorsOwned
  infer_instance

/-- The registers of each capability kind are contiguous: they form one run
of rows that starts at the anchor register of the kind. -/
def Contiguous (L : RegLayout) (tbl : Nat → PciSpcType) : Prop :=
  AnchorsOwned L tbl ∧
  ∀ K ∈ capKinds, ∀ i, i < L.PCISPC_FENCE → (tbl i).cap = K → i ≠ anchorOf L K →
    anchorOf L K < i ∧ (tbl (i - 1)).cap = K

instance (L : RegLayout) (tbl : Nat → PciSpcType) : Decidable (Contiguous L tbl) := by
  unfold Contiguous
  infer_instance

/-- The table describes registers of a 4 KiB configuration space: at most
4096 rows, none larger than 4096 bytes. -/
def FitsConfigSpace (L : RegLayout) (tbl : Nat → PciSpcType) : Prop :=
  L.PCISPC_FENCE ≤ 4096 ∧ ∀ i, i < L.PCISPC_FENCE → (tbl i).size ≤ 4096

instance (L : RegLayout) (tbl : Nat → PciSpcType) : Decidable (FitsConfigSpace L tbl) := by
  unfold FitsConfigSpace
  infer_instance

/-- Every capability-owned row of the table has the "unknown" offset. -/
def AllUnknown (L : RegLayout) (tbl : Nat → PciSpcType) : Prop :=
  ∀ i, i < L.PCISPC_FENCE → (tbl i).cap ≠ PCICAP_FENCE → (tbl i).offset = INT_MAX

instance (L : RegLayout) (tbl : Nat → PciSpcType) : Decidable (AllUnknown L tbl) := by
  unfold AllUnknown
  infer_instance

/-- The device answers the 4-byte header read at offset `o`, whatever was
requested before, with success, ID byte `id` and next-pointer byte `nxt`. -/
def HeaderAt (dev : Device) (o id nxt : Nat) : Prop :=
  ∀ h : List IoCall, 0 ≤ dev.rc h (hdrRequest o) ∧
    dev.data h (hdrRequest o) 0 % 256 = id ∧ dev.data h (hdrRequest o) 1 % 256 = nxt

/-- Offset of the first header of a list of `(offset, ID)` headers, `q` for
the empty list. -/
def firstPtr : List (Nat × Nat) → Nat → Nat
  | [], q => q
  | (o, _) :: _, _ => o

/-- The device holds the headers `hdrs`, given as `(offset, ID)` pairs, as a
linked list: each header sits at a non-zero one-byte offset, its next pointer
is the offset of the header after it, and the last next pointer is `q`. -/
def CapChain (dev : Device) : List (Nat × Nat) → Nat → Prop
  | [], _ => True
  | (o, id) :: rest, q =>
    0 < o ∧ o < 256 ∧ HeaderAt dev o id (firstPtr rest q) ∧ CapChain dev rest q

/-- The capability kind a recognised ID byte stands for. -/
def capOfId (L : RegLayout) (id : Nat) : PciCapabilities :=
  match decodeCapId L id with
  | some (kind, _) => kind
  | none => PCICAP_FENCE

/-- The state after the list walk has processed the headers `hdrs` one after
the other: per header one logged read, then `recordCap`. -/
def recordChain (L : RegLayout) (st : Registers) : List (Nat × Nat) → Registers
  | [] => st
  | (o, id) :: rest =>
    match decodeCapId L id with
    | some (kind, capIdx) =>
      recordChain L
        (recordCap L { st with calls := st.calls ++ [hdrRequest o] } kind capIdx o) rest
    | none => st

/-- The first access of discovery: `Read(PCISPC_STS, work)` after
`mPciCap.clear()`. -/
def statusRead (L : RegLayout) (dev : Device) (st : Registers) (work : Nat) : Access :=
  Registers.ReadPciSpc dev { st with mPciCap := [] } L.PCISPC_STS work

/-- The second access of discovery: `Read(PCISPC_CAP, nextCap)`. -/
def capPtrRead (L : RegLayout) (dev : Device) (st : Registers) (work nextCap : Nat) : Access :=
  Registers.ReadPciSpc dev (statusRead L dev st work).st L.PCISPC_CAP nextCap

/-- The request a symbolic access to configuration-space register `reg`
hands to the driver for a read. -/
def pciReadRequest (st : Registers) (reg : Nat) : IoCall :=
  { isWrite := false, type := NVMEIO_PCI_HDR, offset := (st.mPciSpcMetrics reg).offset,
    nBytes := (st.mPciSpcMetrics reg).size, data := [] }

/-- A device with the capability list PMCAP (0x40) → MSICAP (0x50) → end and
an error-reporting header `0x00010001` at 0x100. -/
def pmMsiDevice : Device :=
  configDevice (memOf [(0x06, 0x10), (0x34, 0x40), (0x40, 0x01), (0x41, 0x50), (0x50, 0x05),
    (0x51, 0x00), (0x100, 0x01), (0x101, 0x00), (0x102, 0x01), (0x103, 0x00)])

/-- A device whose list is PMCAP (0x40) followed by a header with the
vendor-specific ID 0x09 at 0x50. -/
def vendorCapDevice : Device :=
  configDevice (memOf [(0x06, 0x10), (0x34, 0x40), (0x40, 0x01), (0x41, 0x50), (0x50, 0x09),
    (0x51, 0x60), (0x60, 0x05), (0x100, 0x01), (0x102, 0x01)])

/-- A device with the capabilities-list bit set, capability pointer 0 and an
error-reporting header `0x00010001` at 0x100. -/
def aerOnlyDevice : Device :=
  configDevice (memOf [(0x06, 0x10), (0x34, 0x00), (0x100, 0x01), (0x101, 0x00), (0x102, 0x01),
    (0x103, 0x00)])

/-- A device with the capabilities-list bit set, capability pointer 0 and
nothing at 0x100. -/
def bareDevice : Device :=
  configDevice (memOf [(0x06, 0x10), (0x34, 0x00)])

/-- A device with capability pointer 0 whose error-reporting header at 0x100
is `0x14010001`: ID 0x0001, version 1, next extended capability at 0x140. -/
def aerLinkedDevice : Device :=
  configDevice (memOf [(0x06, 0x10), (0x34, 0x00), (0x100, 0x01), (0x101, 0x00), (0x102, 0x01),
    (0x103, 0x14)])

/-- The registers of kind `K` are resolved from the capability offset `o`:
the anchor register has offset `o`, and every other register of the kind has
the offset of the row before it plus the size of the row before it. -/
def ResolvedAt (L : RegLayout) (tbl : Nat → PciSpcType) (K : PciCapabilities) (o : Nat) : Prop :=
  (tbl (anchorOf L K)).offset = o ∧
  ∀ i, i < L.PCISPC_FENCE → (tbl i).cap = K → i ≠ anchorOf L K →
    (tbl i).offset = (tbl (i - 1)).offset + (tbl (i - 1)).size

instance (L : RegLayout) (tbl : Nat → PciSpcType) (K : PciCapabilities) (o : Nat) :
    Decidable (ResolvedAt L tbl K o) := by
  unfold ResolvedAt
  infer_instance

/-- A device whose status register reads 0 (capabilities-list bit clear)
although its pointer register holds 0x40 and a PMCAP header with next pointer
0 sits there. -/
def quietListDevice : Device :=
  configDevice (memOf [(0x34, 0x40), (0x40, 0x01), (0x41, 0x00)])

/-! ## The raw-buffer overloads -/

/-- Result of a raw-buffer `Read` or `Write`: the state afterwards, the
`bool` returned and the bytes of the caller's buffer afterwards. -/
structure RawAccess where
  st : Registers
  ok : Bool
  buf : List Nat

/-- Outcome of one `ioctl` whose buffer is a byte array of the caller. -/
structure RawIoResult where
  st : Registers
  rc : Int
  buf : List Nat

/-- The `ioctl(mFd, NVME_IOCTL_READ_GENERIC, &io)` call on a byte array: a
successful call stores `io.nBytes` bytes at the start of the array, a failing
call leaves it alone. -/
def ioctlReadBytes (dev : Device) (st : Registers) (io : IoCall) (buf : List Nat) :
    RawIoResult :=
  let rc := dev.rc st.calls io
  { st := { st with calls := st.calls ++ [io] }
    rc := rc
    buf := if rc < 0 then buf
      else (List.range io.nBytes).map (fun i => dev.data st.calls io i % 256)
        ++ buf.drop io.nBytes }

/-- The `ioctl(mFd, NVME_IOCTL_WRITE_GENERIC, &io)` call on a byte array. -/
def ioctlWriteBytes (dev : Device) (st : Registers) (io : IoCall) (buf : List Nat) :
    RawIoResult :=
  { st := { st with calls := st.calls ++ [io] }
    rc := dev.rc st.calls io
    buf := buf }

namespace Registers

/-- `Registers::Read(nvme_io_space, unsigned int, unsigned int,
unsigned char *)`. -/
def ReadRaw (dev : Device) (st : Registers) (regSpc : nvme_io_space) (rsize roffset : Nat)
    (value : List Nat) : RawAccess :=
  let io : IoCall :=
    { isWrite := false, type := regSpc, offset := roffset, nBytes := rsize, data := [] }
  let r := ioctlReadBytes dev st io value
  if r.rc < 0 then
    { st := r.st, ok := false, buf := r.buf }
  else
    { st := r.st, ok := true, buf := r.buf }

/-- `Registers::Write(nvme_io_space, unsigned int, unsigned int,
unsigned char *)`. -/
def WriteRaw (dev : Device) (st : Registers) (regSpc : nvme_io_space) (rsize roffset : Nat)
    (value : List Nat) : RawAccess :=
  let io : IoCall :=
    { isWrite := true, type := regSpc, offset := roffset, nBytes := rsize,
      data := value.take rsize }
  let r := ioctlWriteBytes dev st io value
  if r.rc < 0 then
    { st := r.st, ok := false, buf := r.buf }
  else
    { st := r.st, ok := true, buf := r.buf }

end Registers

/-- The device has fixed contents: its answer to a request does not depend
on the requests issued before. -/
def StaticDevice (dev : Device) : Prop :=
  ∀ (h h2 : List IoCall) (io : IoCall), dev.rc h io = dev.rc h2 io ∧ dev.data h io = dev.data h2 io

/-- Two tables describe the same registers: they agree on owning
capability, size, revision and description of every row (offsets may
differ). -/
def SameShape (t t2 : Nat → PciSpcType) : Prop :=
  ∀ j, (t2 j).cap = (t j).cap ∧ (t2 j).size = (t j).size ∧ (t2 j).specRev = (t j).specRev ∧
    (t2 j).desc = (t j).desc

/-- Two runs, from tables `tA` and `tB`, have reached tables `oA` and `oB`
in which every row was either written to the same content by both runs or
left as it was by both. -/
def RowsAgree (tA tB oA oB : Nat → PciSpcType) : Prop :=
  ∀ j, oA j = oB j ∨ (oA j = tA j ∧ oB j = tB j)

/-! ## Formatting (`Registers::FormatRegister`)

C strings and `std::string` values are lists of characters. -/

/-- The upper-case hexadecimal digit of a nibble, as `printf("%X")` prints
it. -/
def hexChar (d : Nat) : Char :=
  if d < 10 then Char.ofNat (48 + d) else Char.ofNat (55 + d)

/-- The base-16 digits of `v`, most significant first and without leading
zeros (none for 0); `fuel` bounds their number. -/
def hexDigits : Nat → Nat → List Nat
  | 0, _ => []
  | fuel + 1, v => if v = 0 then [] else hexDigits fuel (v / 16) ++ [v % 16]

/-- The `printf` conversions `%0<w>llX` and `%0<w>X` applied to a value
below `2 ^ 64`: at least one digit, padded with zeros on the left up to a
width of `w`. -/
def printfHex (w v : Nat) : List Char :=
  let ds := if hexDigits 16 v = [] then [0] else hexDigits 16 v
  (List.replicate (w - ds.length) 0 ++ ds).map hexChar

/-- What `snprintf(buffer, sizeof(buffer), ...)` leaves in `char buffer[80]`
when the formatted text is `s`: at most 79 characters. -/
def snprintf80 (s : List Char) : List Char :=
  s.take 79

/-- The text `regFmt[regSize]` formats from a description and a value:
`"%s = 0x"` for index 0, `"%s = 0x%0<2n>llX"` for index `n` in 1..8. -/
def regFmt (regSize : Nat) (regDesc : List Char) (value : Nat) : List Char :=
  if regSize = 0 then regDesc ++ " = 0x".toList
  else regDesc ++ " = 0x".toList ++ printfHex (2 * regSize) value

/-- The marker appended to a truncated value. -/
def truncatedMarker : List Char :=
  "(TRUNCATED VALUE)".toList

namespace Registers

/-- `Registers::FormatRegister(unsigned int regSize, const char *regDesc,
unsigned long long regValue)`. -/
def FormatRegister (regSize : Nat) (regDesc : List Char) (regValue : Nat) : List Char :=
  let truncated := decide (regSize > MAX_SUPPORTED_REG_SIZE)
  let regSize := if regSize > MAX_SUPPORTED_REG_SIZE then MAX_SUPPORTED_REG_SIZE else regSize
  let buffer := snprintf80 (regFmt regSize regDesc (REGMASK regValue regSize))
  if truncated then buffer ++ truncatedMarker else buffer

end Registers

/-- Exactly `w` base-16 digits, most significant first: the digits of
`v % 16 ^ w`, padded with zeros. -/
def fixedDigits : Nat → Nat → List Nat
  | 0, _ => []
  | w + 1, v => fixedDigits w (v / 16) ++ [v % 16]

/-- Exactly `w` upper-case hexadecimal digits for `v % 16 ^ w`. -/
def fixedHex (w v : Nat) : List Char :=
  (fixedDigits w v).map hexChar

/-- The upper-case hexadecimal digits. -/
def upperHexDigits : List Char :=
  "0123456789ABCDEF".toList

/-- The number a string of upper-case hexadecimal digits denotes. -/
def hexValue (cs : List Char) : Nat :=
  cs.foldl (fun acc c => 16 * acc + upperHexDigits.indexOf c) 0

/-- A description of 80 characters, longer than the format buffer. -/
def longDesc : List Char :=
  List.replicate 80 (Char.ofNat 65)

/-! ## Waiting for completions (`CQ::ReapInquiryWaitSpecify`)

`cq.cpp` is not among the sources; only the declarations of `cq.h` are. The
wall clock and the device are oracles: `clock k` is the time in milliseconds
read at poll `k`, `count k` the number of unconsumed entries `ReapInquiry`
reports at poll `k`. -/

/-- Modelled from the spec: `CQ::CalcTimeout(ms, initial)` of the absent
`cq.cpp`, "compute elapsed wall-clock time since a captured start instant
each poll iteration; expire exactly when elapsed ≥ timeoutMs"; `now` is the
clock reading of the poll. -/
def CalcTimeout (ms initial now : Nat) : Bool :=
  decide (ms ≤ now - initial)

/-- What a wait returns: the `bool`, the last count observed, and, for the
statements, the time elapsed at the return. -/
structure WaitResult where
  available : Bool
  numCE : Nat
  elapsed : Nat
  deriving DecidableEq, Repr

/-- Modelled from the spec: `CQ::ReapInquiryWaitSpecify(ms, numTil, ...)` of
the absent `cq.cpp`, which "blocks the calling thread, re-polling ReapInquiry
on an internal cadence", "waits until `count ≥ numTil`" and "returns `false`
on timeout". `k` is the index of the next poll, `fuel` bounds the number of
polls, `none` stands for a wait that is still polling. -/
def ReapInquiryWaitSpecify (clock count : Nat → Nat) (ms numTil initial : Nat) :
    Nat → Nat → Option WaitResult
  | 0, _ => none
  | fuel + 1, k =>
    if numTil ≤ count k then
      some { available := true, numCE := count k, elapsed := clock k - initial }
    else if CalcTimeout ms initial (clock k) then
      some { available := false, numCE := count k, elapsed := clock k - initial }
    else
      ReapInquiryWaitSpecify clock count ms numTil initial fuel (k + 1)

/-- The `switch (regSpc)` of the raw-buffer `FormatRegister`: the label
left in the buffer. -/
def spaceLabel (regSpc : nvme_io_space) : List Char :=
  match regSpc with
  | NVMEIO_PCI_HDR => snprintf80 "PCI space register...".toList
  | NVMEIO_BAR01 => snprintf80 "ctrl\x27r space register...".toList
  | NVMEIO_FENCE => snprintf80 "unknown space register".toList

/-- The loop `for (i = 0, j = 0; j < rsize; i++, j++)` of the raw-buffer
`FormatRegister`: `n` iterations are left, `i` and `j` are the loop variables
and `value j` is the byte `tmp` points to. The `i = -1` of the body and the
`i++` that follows it are taken together as a reset to 0. -/
def dumpLoop (roffset : Nat) (value : Nat → Nat) : Nat → Nat → Nat → List Char → List Char
  | 0, _, _, result => result
  | n + 1, i, j, result =>
    dumpLoop roffset value n (if i ≥ 15 then 0 else i + 1) (j + 1)
      ((if i = 0 then
          result ++ snprintf80
            ("\n    0x".toList ++ printfHex 8 ((roffset + j) % 2 ^ 32) ++ ": 0x".toList)
        else result)
        ++ snprintf80 (printfHex 2 (value j % 256) ++ " ".toList))

namespace Registers

/-- `Registers::FormatRegister(nvme_io_space regSpc, unsigned int rsize,
unsigned int roffset, unsigned char *value)`. -/
def FormatRegisterRaw (regSpc : nvme_io_space) (rsize roffset : Nat) (value : Nat → Nat) :
    List Char :=
  dumpLoop roffset value rsize 0 0 (spaceLabel regSpc)

end Registers

/-- The bytes `value j .. value (j + c - 1)`, each as two upper-case
hexadecimal digits followed by one space. -/
def dumpBytes (value : Nat → Nat) : Nat → Nat → List Char
  | 0, _ => []
  | c + 1, j => fixedHex 2 (value j % 256) ++ " ".toList ++ dumpBytes value c (j + 1)

/-- Dump line `k` of a buffer of `n` bytes: a line break, the offset of the
first byte of the line as eight hexadecimal digits, then the bytes
`16 k .. min (16 k + 15) (n - 1)`. -/
def dumpLine (roffset : Nat) (value : Nat → Nat) (n k : Nat) : List Char :=
  "\n    0x".toList ++ fixedHex 8 ((roffset + 16 * k) % 2 ^ 32) ++ ": 0x".toList
    ++ dumpBytes value (min 16 (n - 16 * k)) (16 * k)

/-! ## Theorems -/

/-! ### Integer helpers -/

theorem leValue_lt (n : Nat) (bytes : Nat → Nat) : leValue n bytes < 256 ^ n := by
  induction n generalizing bytes with
  | zero => simp [leValue]
  | succ n ih =>
    have h := ih (fun i => bytes (i + 1))
    have hb : bytes 0 % 256 < 256 := Nat.mod_lt _ (by decide)
    simp only [leValue, pow_succ]
    omega

theorem two_pow_eight_mul (n : Nat) : 2 ^ (8 * n) = 256 ^ n := by
  rw [pow_mul]
  norm_num

theorem REGMASK_storeLE (value n : Nat) (bytes : Nat → Nat) :
    REGMASK (storeLE value n bytes) n = leValue n bytes := by
  unfold REGMASK storeLE
  rw [two_pow_eight_mul, Nat.mul_add_mod_of_lt (leValue_lt n bytes)]

theorem REGMASK_lt (value n : Nat) : REGMASK value n < 2 ^ (8 * n) :=
  Nat.mod_lt _ (Nat.pow_pos (by decide))

/-! ### Symbolic access: the revision gate -/

open Registers

/-- C1: for a configuration-space register whose recorded revision differs
from the session revision, the symbolic `Read` and `Write` both return failure
and leave the whole state, hence the log of device calls, as it was: no device
call is issued. -/
theorem pciSpc_revision_mismatch_no_call (dev : Device) (st : Registers) (reg value : Nat)
    (hrev : (st.mPciSpcMetrics reg).specRev ≠ st.mSpecRev) :
    (ReadPciSpc dev st reg value).ok = false ∧
    (ReadPciSpc dev st reg value).st.calls = st.calls ∧
    (WritePciSpc dev st reg value).ok = false ∧
    (WritePciSpc dev st reg value).st.calls = st.calls := by
  simp [ReadPciSpc, WritePciSpc, hrev]

/-- Witness of C1: the status register (revision 0) accessed in a session
of revision 1 over a device that would answer. -/
theorem pciSpc_revision_mismatch_no_call_witness :
    ((sampleSession 1).mPciSpcMetrics 2).specRev ≠ (sampleSession 1).mSpecRev ∧
    ((ReadPciSpc (configDevice (memOf [])) (sampleSession 1) 2 0).ok = false ∧
     (ReadPciSpc (configDevice (memOf [])) (sampleSession 1) 2 0).st.calls
       = (sampleSession 1).calls ∧
     (WritePciSpc (configDevice (memOf [])) (sampleSession 1) 2 0).ok = false ∧
     (WritePciSpc (configDevice (memOf [])) (sampleSession 1) 2 0).st.calls
       = (sampleSession 1).calls) :=
  ⟨by decide, pciSpc_revision_mismatch_no_call _ _ 2 0 (by decide)⟩

/-- C2, the code at a failing input: in a session of revision 0 the
control-space register `VS` (index 1) is tagged with revision 1, while row 1
of the configuration-space table is tagged with revision 0. The symbolic
`Read` and `Write` of `VS` both succeed and each issues one device call. -/
theorem ctlSpc_revision_gate_reads_pci_table :
    ((sampleSession 0).mCtlSpcMetrics 1).specRev ≠ (sampleSession 0).mSpecRev ∧
    (ReadCtlSpc (configDevice (memOf [])) (sampleSession 0) 1 0).ok = true ∧
    (ReadCtlSpc (configDevice (memOf [])) (sampleSession 0) 1 0).st.calls
      = [{ isWrite := false, type := NVMEIO_BAR01, offset := 8, nBytes := 4, data := [] }] ∧
    (WriteCtlSpc (configDevice (memOf [])) (sampleSession 0) 1 0).ok = true ∧
    (WriteCtlSpc (configDevice (memOf [])) (sampleSession 0) 1 0).st.calls
      = [{ isWrite := true, type := NVMEIO_BAR01, offset := 8, nBytes := 4,
           data := [0, 0, 0, 0] }] := by
  decide

/-! ### Offset/size access -/

/-- C3: with the "unknown" offset or a size above 8 bytes the offset/size
`Read` and `Write` return failure, issue no device call (the state and its
call log are unchanged) and hand the caller's value back unchanged, for every
space, description and value. -/
theorem unknown_offset_or_oversize_fails (dev : Device) (st : Registers)
    (regSpc : nvme_io_space) (rsize roffset value : Nat) (rdesc : String)
    (h : roffset = INT_MAX ∨ rsize > 8) :
    (Read dev st regSpc rsize roffset value rdesc).ok = false ∧
    (Read dev st regSpc rsize roffset value rdesc).st.calls = st.calls ∧
    (Read dev st regSpc rsize roffset value rdesc).value = value ∧
    (Write dev st regSpc rsize roffset value rdesc).ok = false ∧
    (Write dev st regSpc rsize roffset value rdesc).st.calls = st.calls ∧
    (Write dev st regSpc rsize roffset value rdesc).value = value := by
  unfold Read Write MAX_SUPPORTED_REG_SIZE
  rcases h with h | h
  · simp [h]
  · by_cases ho : roffset = INT_MAX <;> simp [ho, h]

/-- Witness of C3: a 9-byte access at offset 0 of the control space. -/
theorem unknown_offset_or_oversize_fails_witness :
    ((0 : Nat) = INT_MAX ∨ 9 > 8) ∧
    ((Read (configDevice (memOf [])) (sampleSession 0) NVMEIO_BAR01 9 0 77 "x").ok = false ∧
     (Read (configDevice (memOf [])) (sampleSession 0) NVMEIO_BAR01 9 0 77 "x").st.calls
       = (sampleSession 0).calls ∧
     (Read (configDevice (memOf [])) (sampleSession 0) NVMEIO_BAR01 9 0 77 "x").value = 77 ∧
     (Write (configDevice (memOf [])) (sampleSession 0) NVMEIO_BAR01 9 0 77 "x").ok = false ∧
     (Write (configDevice (memOf [])) (sampleSession 0) NVMEIO_BAR01 9 0 77 "x").st.calls
       = (sampleSession 0).calls ∧
     (Write (configDevice (memOf [])) (sampleSession 0) NVMEIO_BAR01 9 0 77 "x").value = 77) :=
  ⟨by decide, unknown_offset_or_oversize_fails _ _ _ 9 0 77 "x" (by decide)⟩

/-- C4: for every size `s ≤ 8` (so for 1, 2, 4 and 8), every prior
content `value` of the caller's variable and every device whose read of `s`
bytes succeeds, the offset/size `Read` succeeds and returns a value below
`2 ^ (8 * s)` equal to the little-endian integer of the `s` bytes
delivered. -/
theorem read_masks_to_size (dev : Device) (st : Registers) (regSpc : nvme_io_space)
    (s roffset value : Nat) (rdesc : String)
    (hs : s ≤ 8) (hoff : roffset ≠ INT_MAX)
    (hrc : 0 ≤ dev.rc st.calls
      { isWrite := false, type := regSpc, offset := roffset, nBytes := s, data := [] }) :
    (Read dev st regSpc s roffset value rdesc).ok = true ∧
    (Read dev st regSpc s roffset value rdesc).value < 2 ^ (8 * s) ∧
    (Read dev st regSpc s roffset value rdesc).value
      = leValue s (dev.data st.calls
          { isWrite := false, type := regSpc, offset := roffset, nBytes := s, data := [] }) := by
  have hs' : ¬ s > MAX_SUPPORTED_REG_SIZE := by unfold MAX_SUPPORTED_REG_SIZE; omega
  have hrc' : ¬ dev.rc st.calls
      { isWrite := false, type := regSpc, offset := roffset, nBytes := s, data := [] } < 0 := by
    omega
  simp only [Read, ioctlRead, hoff, hs', hrc', if_false, REGMASK_storeLE]
  exact ⟨trivial, by rw [two_pow_eight_mul]; exact leValue_lt _ _, trivial⟩

/-- Witness of C4: a 2-byte read of bytes `0x34 0x12` into a variable that
held `0xFFFFFFFFFFFFFFFF`. -/
theorem read_masks_to_size_witness :
    (2 ≤ 8 ∧ (6 : Nat) ≠ INT_MAX ∧
      0 ≤ (configDevice (memOf [(6, 0x34), (7, 0x12)])).rc (sampleSession 0).calls
        { isWrite := false, type := NVMEIO_PCI_HDR, offset := 6, nBytes := 2, data := [] }) ∧
    ((Read (configDevice (memOf [(6, 0x34), (7, 0x12)])) (sampleSession 0) NVMEIO_PCI_HDR 2 6
        0xFFFFFFFFFFFFFFFF "STS").ok = true ∧
     (Read (configDevice (memOf [(6, 0x34), (7, 0x12)])) (sampleSession 0) NVMEIO_PCI_HDR 2 6
        0xFFFFFFFFFFFFFFFF "STS").value < 2 ^ (8 * 2) ∧
     (Read (configDevice (memOf [(6, 0x34), (7, 0x12)])) (sampleSession 0) NVMEIO_PCI_HDR 2 6
        0xFFFFFFFFFFFFFFFF "STS").value
       = leValue 2 ((configDevice (memOf [(6, 0x34), (7, 0x12)])).data (sampleSession 0).calls
          { isWrite := false, type := NVMEIO_PCI_HDR, offset := 6, nBytes := 2, data := [] })) :=
  ⟨⟨by decide, by decide, by decide⟩,
   read_masks_to_size _ _ NVMEIO_PCI_HDR 2 6 0xFFFFFFFFFFFFFFFF "STS" (by decide) (by decide)
     (by decide)⟩

/-! ### Table updates -/

theorem setOffset_same (tbl : Nat → PciSpcType) (i off : Nat) :
    setOffset tbl i off i = { tbl i with offset := off } := by
  simp [setOffset]

theorem setOffset_ne (tbl : Nat → PciSpcType) (i off j : Nat) (h : j ≠ i) :
    setOffset tbl i off j = tbl j := by
  simp [setOffset, Function.update_noteq h]

theorem setOffset_fields (tbl : Nat → PciSpcType) (i off j : Nat) :
    (setOffset tbl i off j).cap = (tbl j).cap ∧ (setOffset tbl i off j).size = (tbl j).size ∧
    (setOffset tbl i off j).specRev = (tbl j).specRev ∧
    (setOffset tbl i off j).desc = (tbl j).desc := by
  by_cases h : j = i
  · subst h; simp [setOffset_same]
  · simp [setOffset_ne _ _ _ _ h]

theorem fixupFrom_fields (kind : PciCapabilities) (n i : Nat) (tbl : Nat → PciSpcType) (j : Nat) :
    (fixupFrom kind n i tbl j).cap = (tbl j).cap ∧
    (fixupFrom kind n i tbl j).size = (tbl j).size ∧
    (fixupFrom kind n i tbl j).specRev = (tbl j).specRev ∧
    (fixupFrom kind n i tbl j).desc = (tbl j).desc := by
  induction n generalizing i tbl with
  | zero => simp [fixupFrom]
  | succ n ih =>
    simp only [fixupFrom]
    split
    · have h := setOffset_fields tbl i (nextOffset tbl i) j
      have h2 := ih (i + 1) (setOffset tbl i (nextOffset tbl i))
      exact ⟨h2.1.trans h.1, h2.2.1.trans h.2.1, h2.2.2.1.trans h.2.2.1,
        h2.2.2.2.trans h.2.2.2⟩
    · exact ih (i + 1) tbl

theorem fixupFrom_outside (kind : PciCapabilities) (n i : Nat) (tbl : Nat → PciSpcType) (j : Nat)
    (h : j < i ∨ i + n ≤ j) : fixupFrom kind n i tbl j = tbl j := by
  induction n generalizing i tbl with
  | zero => simp [fixupFrom]
  | succ n ih =>
    simp only [fixupFrom]
    split
    · rw [ih (i + 1) _ (by omega), setOffset_ne _ _ _ _ (by omega)]
    · exact ih (i + 1) tbl (by omega)

theorem fixupFrom_other (kind : PciCapabilities) (n i : Nat) (tbl : Nat → PciSpcType) (j : Nat)
    (h : (tbl j).cap ≠ kind) : fixupFrom kind n i tbl j = tbl j := by
  induction n generalizing i tbl with
  | zero => simp [fixupFrom]
  | succ n ih =>
    simp only [fixupFrom]
    split
    · rename_i hc
      have hji : j ≠ i := fun e => h (e ▸ hc)
      rw [ih (i + 1) _ (by rw [(setOffset_fields tbl i _ j).1]; exact h),
        setOffset_ne _ _ _ _ hji]
    · exact ih (i + 1) tbl h

theorem fixupFrom_offset (kind : PciCapabilities) (n i : Nat) (tbl : Nat → PciSpcType) (j : Nat)
    (hi : 0 < i) (hij : i ≤ j) (hjn : j < i + n) (hc : (tbl j).cap = kind) :
    (fixupFrom kind n i tbl j).offset = nextOffset (fixupFrom kind n i tbl) j := by
  induction n generalizing i tbl with
  | zero => omega
  | succ n ih =>
    simp only [fixupFrom]
    by_cases hji : j = i
    · subst hji
      rw [if_pos hc]
      unfold nextOffset
      rw [fixupFrom_outside kind n (j + 1) _ j (by omega),
        fixupFrom_outside kind n (j + 1) _ (j - 1) (by omega), setOffset_same,
        setOffset_ne _ _ _ _ (by omega : j - 1 ≠ j)]
    · split
      · exact ih (i + 1) _ (by omega) (by omega) (by omega)
          (by rw [(setOffset_fields tbl i _ j).1]; exact hc)
      · exact ih (i + 1) tbl (by omega) (by omega) (by omega) hc

theorem chainFrom_fields (n i : Nat) (tbl : Nat → PciSpcType) (j : Nat) :
    (chainFrom n i tbl j).cap = (tbl j).cap ∧ (chainFrom n i tbl j).size = (tbl j).size ∧
    (chainFrom n i tbl j).specRev = (tbl j).specRev ∧
    (chainFrom n i tbl j).desc = (tbl j).desc := by
  induction n generalizing i tbl with
  | zero => simp [chainFrom]
  | succ n ih =>
    simp only [chainFrom]
    have h := setOffset_fields tbl i (nextOffset tbl i) j
    have h2 := ih (i + 1) (setOffset tbl i (nextOffset tbl i))
    exact ⟨h2.1.trans h.1, h2.2.1.trans h.2.1, h2.2.2.1.trans h.2.2.1, h2.2.2.2.trans h.2.2.2⟩

theorem chainFrom_outside (n i : Nat) (tbl : Nat → PciSpcType) (j : Nat)
    (h : j < i ∨ i + n ≤ j) : chainFrom n i tbl j = tbl j := by
  induction n generalizing i tbl with
  | zero => simp [chainFrom]
  | succ n ih =>
    simp only [chainFrom]
    rw [ih (i + 1) _ (by omega), setOffset_ne _ _ _ _ (by omega)]

theorem chainFrom_offset (n i : Nat) (tbl : Nat → PciSpcType) (j : Nat)
    (hi : 0 < i) (hij : i ≤ j) (hjn : j < i + n) :
    (chainFrom n i tbl j).offset = nextOffset (chainFrom n i tbl) j := by
  induction n generalizing i tbl with
  | zero => omega
  | succ n ih =>
    simp only [chainFrom]
    by_cases hji : j = i
    · subst hji
      unfold nextOffset
      rw [chainFrom_outside n (j + 1) _ j (by omega),
        chainFrom_outside n (j + 1) _ (j - 1) (by omega), setOffset_same,
        setOffset_ne _ _ _ _ (by omega : j - 1 ≠ j)]
    · exact ih (i + 1) _ (by omega) (by omega) (by omega)

/-! ### What an access does to the state -/

theorem Read_frame (dev : Device) (st : Registers) (regSpc : nvme_io_space)
    (rsize roffset value : Nat) (rdesc : String) :
    (Read dev st regSpc rsize roffset value rdesc).st.mPciSpcMetrics = st.mPciSpcMetrics ∧
    (Read dev st regSpc rsize roffset value rdesc).st.mCtlSpcMetrics = st.mCtlSpcMetrics ∧
    (Read dev st regSpc rsize roffset value rdesc).st.mPciCap = st.mPciCap ∧
    (Read dev st regSpc rsize roffset value rdesc).st.mSpecRev = st.mSpecRev := by
  by_cases h1 : roffset = INT_MAX
  · simp [Read, h1]
  · by_cases h2 : rsize > MAX_SUPPORTED_REG_SIZE
    · simp [Read, h1, h2]
    · by_cases h3 : dev.rc st.calls
          { isWrite := false, type := regSpc, offset := roffset, nBytes := rsize, data := [] } < 0
      · simp [Read, ioctlRead, h1, h2, h3]
      · simp [Read, ioctlRead, h1, h2, h3]

theorem Read_ok_calls (dev : Device) (st : Registers) (regSpc : nvme_io_space)
    (rsize roffset value : Nat) (rdesc : String)
    (h : (Read dev st regSpc rsize roffset value rdesc).ok = true) :
    (Read dev st regSpc rsize roffset value rdesc).st.calls = st.calls ++
      [{ isWrite := false, type := regSpc, offset := roffset, nBytes := rsize, data := [] }] := by
  by_cases h1 : roffset = INT_MAX
  · simp [Read, h1] at h
  · by_cases h2 : rsize > MAX_SUPPORTED_REG_SIZE
    · simp [Read, h1, h2] at h
    · by_cases h3 : dev.rc st.calls
          { isWrite := false, type := regSpc, offset := roffset, nBytes := rsize, data := [] } < 0
      · simp [Read, ioctlRead, h1, h2, h3]
      · simp [Read, ioctlRead, h1, h2, h3]

theorem ReadPciSpc_frame (dev : Device) (st : Registers) (reg value : Nat) :
    (ReadPciSpc dev st reg value).st.mPciSpcMetrics = st.mPciSpcMetrics ∧
    (ReadPciSpc dev st reg value).st.mCtlSpcMetrics = st.mCtlSpcMetrics ∧
    (ReadPciSpc dev st reg value).st.mPciCap = st.mPciCap ∧
    (ReadPciSpc dev st reg value).st.mSpecRev = st.mSpecRev := by
  unfold ReadPciSpc
  split
  · simp
  · exact Read_frame _ _ _ _ _ _ _

theorem ReadPciSpc_ok_calls (dev : Device) (st : Registers) (reg value : Nat)
    (h : (ReadPciSpc dev st reg value).ok = true) :
    (ReadPciSpc dev st reg value).st.calls = st.calls ++
      [{ isWrite := false, type := NVMEIO_PCI_HDR, offset := (st.mPciSpcMetrics reg).offset,
         nBytes := (st.mPciSpcMetrics reg).size, data := [] }] := by
  unfold ReadPciSpc at h ⊢
  split
  · rename_i h1; simp [h1] at h
  · rename_i h1
    rw [if_neg h1] at h
    exact Read_ok_calls _ _ _ _ _ _ _ h

/-! ### Discovery: the status gate -/

/-- C9: when the status register is read successfully and its
"capabilities list present" bit is clear, discovery returns at line 285: the
capability list is empty, both register tables are what they were, and the
log of device calls has grown by exactly the one read of the status
register. -/
theorem status_bit_clear_stops (L : RegLayout) (dev : Device) (fuel : Nat) (st : Registers)
    (work nextCap : Nat)
    (hok : (ReadPciSpc dev { st with mPciCap := [] } L.PCISPC_STS work).ok = true)
    (hbit : (ReadPciSpc dev { st with mPciCap := [] } L.PCISPC_STS work).value &&& L.STS_CL = 0) :
    (DiscoverPciCapabilities L dev fuel st work nextCap).exit = DiscoverExit.noCapList ∧
    (DiscoverPciCapabilities L dev fuel st work nextCap).st.mPciCap = [] ∧
    (DiscoverPciCapabilities L dev fuel st work nextCap).st.mPciSpcMetrics
      = st.mPciSpcMetrics ∧
    (DiscoverPciCapabilities L dev fuel st work nextCap).st.mCtlSpcMetrics
      = st.mCtlSpcMetrics ∧
    (DiscoverPciCapabilities L dev fuel st work nextCap).st.calls = st.calls ++
      [{ isWrite := false, type := NVMEIO_PCI_HDR,
         offset := (st.mPciSpcMetrics L.PCISPC_STS).offset,
         nBytes := (st.mPciSpcMetrics L.PCISPC_STS).size, data := [] }] := by
  have hf := ReadPciSpc_frame dev { st with mPciCap := [] } L.PCISPC_STS work
  have hc := ReadPciSpc_ok_calls dev { st with mPciCap := [] } L.PCISPC_STS work hok
  simp only [DiscoverPciCapabilities, hok, hbit, if_true, Bool.true_eq_false, if_false]
  exact ⟨trivial, hf.2.2.1, hf.1, hf.2.1, hc⟩

/-- Witness of C9: the sample session over a device whose status register
reads 0x0000. -/
theorem status_bit_clear_stops_witness :
    ((ReadPciSpc (configDevice (memOf [(0x34, 0x40)]))
        { sampleSession 0 with mPciCap := [] } sampleLayout.PCISPC_STS 0).ok = true ∧
     (ReadPciSpc (configDevice (memOf [(0x34, 0x40)]))
        { sampleSession 0 with mPciCap := [] } sampleLayout.PCISPC_STS 0).value
        &&& sampleLayout.STS_CL = 0) ∧
    ((DiscoverPciCapabilities sampleLayout (configDevice (memOf [(0x34, 0x40)])) 8
        (sampleSession 0) 0 0).exit = DiscoverExit.noCapList ∧
     (DiscoverPciCapabilities sampleLayout (configDevice (memOf [(0x34, 0x40)])) 8
        (sampleSession 0) 0 0).st.mPciCap = [] ∧
     (DiscoverPciCapabilities sampleLayout (configDevice (memOf [(0x34, 0x40)])) 8
        (sampleSession 0) 0 0).st.mPciSpcMetrics = (sampleSession 0).mPciSpcMetrics ∧
     (DiscoverPciCapabilities sampleLayout (configDevice (memOf [(0x34, 0x40)])) 8
        (sampleSession 0) 0 0).st.mCtlSpcMetrics = (sampleSession 0).mCtlSpcMetrics ∧
     (DiscoverPciCapabilities sampleLayout (configDevice (memOf [(0x34, 0x40)])) 8
        (sampleSession 0) 0 0).st.calls = (sampleSession 0).calls ++
       [{ isWrite := false, type := NVMEIO_PCI_HDR,
          offset := ((sampleSession 0).mPciSpcMetrics sampleLayout.PCISPC_STS).offset,
          nBytes := ((sampleSession 0).mPciSpcMetrics sampleLayout.PCISPC_STS).size,
          data := [] }]) :=
  ⟨⟨by decide, by decide⟩,
   status_bit_clear_stops sampleLayout _ 8 (sampleSession 0) 0 0 (by decide) (by decide)⟩

/-! ### The list walk -/

theorem header_id_byte (buf : Nat) (bytes : Nat → Nat) :
    REGMASK (storeLE buf 4 bytes) 1 = bytes 0 % 256 := by
  simp only [REGMASK, storeLE, leValue]
  norm_num
  omega

theorem header_next_byte (buf : Nat) (bytes : Nat → Nat) :
    REGMASK (storeLE buf 4 bytes >>> 8) 1 = bytes 1 % 256 := by
  simp only [REGMASK, storeLE, leValue, Nat.shiftRight_eq_div_pow]
  norm_num
  omega

theorem capWalk_done (L : RegLayout) (dev : Device) (fuel : Nat) (st : Registers) (nextCap : Nat)
    (h : REGMASK (nextCap >>> 8) 1 = 0) :
    capWalk L dev fuel st nextCap = probeExtended L dev st nextCap := by
  unfold capWalk
  rw [if_pos h]

theorem capWalk_header (L : RegLayout) (dev : Device) (fuel : Nat) (st : Registers)
    (nextCap : Nat) (kind : PciCapabilities) (capIdx : Nat)
    (hptr : REGMASK (nextCap >>> 8) 1 ≠ 0)
    (hrc : 0 ≤ dev.rc st.calls (hdrRequest (REGMASK (nextCap >>> 8) 1)))
    (hid : decodeCapId L (dev.data st.calls (hdrRequest (REGMASK (nextCap >>> 8) 1)) 0 % 256)
      = some (kind, capIdx)) :
    capWalk L dev (fuel + 1) st nextCap =
      capWalk L dev fuel
        (recordCap L { st with calls := st.calls ++ [hdrRequest (REGMASK (nextCap >>> 8) 1)] }
          kind capIdx (REGMASK (nextCap >>> 8) 1))
        (storeLE nextCap 4 (dev.data st.calls (hdrRequest (REGMASK (nextCap >>> 8) 1)))) := by
  have hrc' : ¬ dev.rc st.calls (hdrRequest (REGMASK (nextCap >>> 8) 1)) < 0 := by omega
  rw [capWalk]
  simp only [hptr, if_false, ioctlRead, hrc']
  have hn : (hdrRequest (REGMASK (nextCap >>> 8) 1)).nBytes = 4 := rfl
  rw [hn, header_id_byte, hid]

theorem capWalk_unknown_id (L : RegLayout) (dev : Device) (fuel : Nat) (st : Registers)
    (nextCap : Nat)
    (hptr : REGMASK (nextCap >>> 8) 1 ≠ 0)
    (hrc : 0 ≤ dev.rc st.calls (hdrRequest (REGMASK (nextCap >>> 8) 1)))
    (hid : decodeCapId L (dev.data st.calls (hdrRequest (REGMASK (nextCap >>> 8) 1)) 0 % 256)
      = none) :
    capWalk L dev (fuel + 1) st nextCap =
      { st := { st with calls := st.calls ++ [hdrRequest (REGMASK (nextCap >>> 8) 1)] }
        exit := DiscoverExit.unknownCapId } := by
  have hrc' : ¬ dev.rc st.calls (hdrRequest (REGMASK (nextCap >>> 8) 1)) < 0 := by omega
  rw [capWalk]
  simp only [hptr, if_false, ioctlRead, hrc']
  have hn : (hdrRequest (REGMASK (nextCap >>> 8) 1)).nBytes = 4 := rfl
  rw [hn, header_id_byte, hid]

theorem capWalk_chain (L : RegLayout) (dev : Device) (q : Nat) (hdrs : List (Nat × Nat)) :
    ∀ (fuel : Nat) (st : Registers) (nextCap : Nat),
      CapChain dev hdrs q →
      (∀ h ∈ hdrs, (decodeCapId L h.2).isSome = true) →
      REGMASK (nextCap >>> 8) 1 = firstPtr hdrs q →
      ∃ nextCap2, REGMASK (nextCap2 >>> 8) 1 = q ∧
        capWalk L dev (fuel + hdrs.length) st nextCap
          = capWalk L dev fuel (recordChain L st hdrs) nextCap2 := by
  induction hdrs with
  | nil =>
    intro fuel st nextCap _ _ hp
    exact ⟨nextCap, hp, rfl⟩
  | cons hd rest ih =>
    obtain ⟨o, id⟩ := hd
    intro fuel st nextCap hch hrec hp
    obtain ⟨ho0, _, hhdr, hrest⟩ := hch
    simp only [firstPtr] at hp
    obtain ⟨hrc, hidb, hnxt⟩ := hhdr st.calls
    have hsome := hrec (o, id) (List.mem_cons_self _ _)
    obtain ⟨⟨kind, capIdx⟩, hdec⟩ := Option.isSome_iff_exists.mp hsome
    have hdec2 : decodeCapId L id = some (kind, capIdx) := hdec
    have hstep := capWalk_header L dev (fuel + rest.length) st nextCap kind capIdx
      (by rw [hp]; omega) (by rw [hp]; exact hrc) (by rw [hp, hidb]; exact hdec2)
    rw [hp] at hstep
    obtain ⟨nc2, hq, hwalk⟩ := ih fuel
      (recordCap L { st with calls := st.calls ++ [hdrRequest o] } kind capIdx o)
      (storeLE nextCap 4 (dev.data st.calls (hdrRequest o))) hrest
      (fun h hh => hrec h (List.mem_cons_of_mem _ hh))
      (by rw [header_next_byte]; exact hnxt)
    refine ⟨nc2, hq, ?_⟩
    have hl : fuel + ((o, id) :: rest).length = fuel + rest.length + 1 := by
      simp only [List.length_cons]; omega
    rw [hl, hstep, hwalk]
    simp only [recordChain, hdec2]

theorem shifted_pointer (v : Nat) (hv : v < 256) :
    REGMASK (((v <<< 8) % 2 ^ 64) >>> 8) 1 = v := by
  simp only [REGMASK, Nat.shiftLeft_eq, Nat.shiftRight_eq_div_pow]
  norm_num
  omega

theorem firstPtr_lt (dev : Device) (hdrs : List (Nat × Nat)) (q : Nat)
    (hch : CapChain dev hdrs q) (hq : q < 256) : firstPtr hdrs q < 256 := by
  cases hdrs with
  | nil => exact hq
  | cons hd rest => exact hch.2.1

theorem decodeCapId_none (L : RegLayout) (id : Nat)
    (hid : id ≠ 0x01 ∧ id ≠ 0x05 ∧ id ≠ 0x10 ∧ id ≠ 0x11) : decodeCapId L id = none := by
  simp [decodeCapId, hid.1, hid.2.1, hid.2.2.1, hid.2.2.2]

theorem discover_walk (L : RegLayout) (dev : Device) (fuel : Nat) (st : Registers)
    (work nextCap : Nat)
    (hsts : (statusRead L dev st work).ok = true)
    (hbit : (statusRead L dev st work).value &&& L.STS_CL ≠ 0)
    (hcap : (capPtrRead L dev st work nextCap).ok = true) :
    DiscoverPciCapabilities L dev fuel st work nextCap =
      capWalk L dev fuel (capPtrRead L dev st work nextCap).st
        (((capPtrRead L dev st work nextCap).value <<< 8) % 2 ^ 64) := by
  unfold capPtrRead statusRead at *
  simp only [DiscoverPciCapabilities, hsts, hbit, hcap, if_false, Bool.true_eq_false]

theorem capPtrRead_state (L : RegLayout) (dev : Device) (st : Registers) (work nextCap : Nat)
    (hsts : (statusRead L dev st work).ok = true)
    (hcap : (capPtrRead L dev st work nextCap).ok = true) :
    (capPtrRead L dev st work nextCap).st.mPciSpcMetrics = st.mPciSpcMetrics ∧
    (capPtrRead L dev st work nextCap).st.mCtlSpcMetrics = st.mCtlSpcMetrics ∧
    (capPtrRead L dev st work nextCap).st.mPciCap = [] ∧
    (capPtrRead L dev st work nextCap).st.mSpecRev = st.mSpecRev ∧
    (capPtrRead L dev st work nextCap).st.calls
      = st.calls ++ [pciReadRequest st L.PCISPC_STS, pciReadRequest st L.PCISPC_CAP] := by
  have f1 := ReadPciSpc_frame dev { st with mPciCap := [] } L.PCISPC_STS work
  have c1 := ReadPciSpc_ok_calls dev { st with mPciCap := [] } L.PCISPC_STS work hsts
  have f2 := ReadPciSpc_frame dev (statusRead L dev st work).st L.PCISPC_CAP nextCap
  have c2 := ReadPciSpc_ok_calls dev (statusRead L dev st work).st L.PCISPC_CAP nextCap hcap
  unfold capPtrRead
  unfold statusRead at f2 c2 ⊢
  refine ⟨f2.1.trans f1.1, f2.2.1.trans f1.2.1, f2.2.2.1.trans f1.2.2.1,
    f2.2.2.2.trans f1.2.2.2, ?_⟩
  rw [c2, c1, f1.1]
  simp [pciReadRequest]

theorem recordCap_frame (L : RegLayout) (st : Registers) (kind : PciCapabilities)
    (capIdx capOffset : Nat) :
    (recordCap L st kind capIdx capOffset).mPciCap = st.mPciCap ++ [kind] ∧
    (recordCap L st kind capIdx capOffset).calls = st.calls ∧
    (recordCap L st kind capIdx capOffset).mCtlSpcMetrics = st.mCtlSpcMetrics ∧
    (recordCap L st kind capIdx capOffset).mSpecRev = st.mSpecRev :=
  ⟨rfl, rfl, rfl, rfl⟩

theorem recordChain_lists (L : RegLayout) (hdrs : List (Nat × Nat)) :
    ∀ st : Registers, (∀ h ∈ hdrs, (decodeCapId L h.2).isSome = true) →
      (recordChain L st hdrs).mPciCap = st.mPciCap ++ hdrs.map (fun h => capOfId L h.2) ∧
      (recordChain L st hdrs).calls = st.calls ++ hdrs.map (fun h => hdrRequest h.1) ∧
      (recordChain L st hdrs).mCtlSpcMetrics = st.mCtlSpcMetrics ∧
      (recordChain L st hdrs).mSpecRev = st.mSpecRev := by
  induction hdrs with
  | nil => intro st _; simp [recordChain]
  | cons hd rest ih =>
    obtain ⟨o, id⟩ := hd
    intro st hrec
    obtain ⟨⟨kind, capIdx⟩, hdec⟩ :=
      Option.isSome_iff_exists.mp (hrec (o, id) (List.mem_cons_self _ _))
    have hdec2 : decodeCapId L id = some (kind, capIdx) := hdec
    have h := ih (recordCap L { st with calls := st.calls ++ [hdrRequest o] } kind capIdx o)
      (fun h hh => hrec h (List.mem_cons_of_mem _ hh))
    simp only [recordChain, hdec2]
    refine ⟨?_, ?_, h.2.2.1, h.2.2.2⟩
    · rw [h.1]; simp [recordCap, capOfId, hdec2]
    · rw [h.2.1]; simp [recordCap]

theorem recordChain_table_congr (L : RegLayout) (hdrs : List (Nat × Nat)) :
    ∀ st st2 : Registers, st.mPciSpcMetrics = st2.mPciSpcMetrics →
      (recordChain L st hdrs).mPciSpcMetrics = (recordChain L st2 hdrs).mPciSpcMetrics := by
  induction hdrs with
  | nil => intro st st2 h; simpa [recordChain] using h
  | cons hd rest ih =>
    obtain ⟨o, id⟩ := hd
    intro st st2 h
    simp only [recordChain]
    cases hdec : decodeCapId L id with
    | none => simpa using h
    | some p =>
      obtain ⟨kind, capIdx⟩ := p
      simp only
      apply ih
      simp [recordCap, h]

/-- C7: the walk has processed the headers `hdrs` (all with recognised IDs)
and the next pointer `q` leads to a header, the k-th for
`k = hdrs.length + 1`, whose ID byte is none of 0x01, 0x05, 0x10, 0x11. Then
discovery returns at the `default:` branch: the capability list is exactly
the kinds of `hdrs`, the table is the one left by processing `hdrs`, and the
device calls are the status read, the pointer read, one read per header of
`hdrs` and the read of the k-th header, nothing after it. -/
theorem unknown_cap_id_stops_walk (L : RegLayout) (dev : Device) (fuel : Nat) (st : Registers)
    (work nextCap : Nat) (hdrs : List (Nat × Nat)) (q id : Nat)
    (hsts : (statusRead L dev st work).ok = true)
    (hbit : (statusRead L dev st work).value &&& L.STS_CL ≠ 0)
    (hcap : (capPtrRead L dev st work nextCap).ok = true)
    (hptr : (capPtrRead L dev st work nextCap).value = firstPtr hdrs q)
    (hchain : CapChain dev hdrs q)
    (hrec : ∀ h ∈ hdrs, (decodeCapId L h.2).isSome = true)
    (hq : 0 < q ∧ q < 256)
    (hbad : ∀ h, 0 ≤ dev.rc h (hdrRequest q) ∧ dev.data h (hdrRequest q) 0 % 256 = id)
    (hid : id ≠ 0x01 ∧ id ≠ 0x05 ∧ id ≠ 0x10 ∧ id ≠ 0x11)
    (hfuel : hdrs.length < fuel) :
    (DiscoverPciCapabilities L dev fuel st work nextCap).exit = DiscoverExit.unknownCapId ∧
    (DiscoverPciCapabilities L dev fuel st work nextCap).st.mPciCap
      = hdrs.map (fun h => capOfId L h.2) ∧
    (DiscoverPciCapabilities L dev fuel st work nextCap).st.mPciSpcMetrics
      = (recordChain L st hdrs).mPciSpcMetrics ∧
    (DiscoverPciCapabilities L dev fuel st work nextCap).st.calls
      = st.calls ++ [pciReadRequest st L.PCISPC_STS, pciReadRequest st L.PCISPC_CAP]
          ++ hdrs.map (fun h => hdrRequest h.1) ++ [hdrRequest q] := by
  obtain ⟨t1, _, t3, _, t5⟩ := capPtrRead_state L dev st work nextCap hsts hcap
  obtain ⟨fuel2, hf2⟩ : ∃ f, fuel = (f + 1) + hdrs.length := ⟨fuel - hdrs.length - 1, by omega⟩
  have hlt := firstPtr_lt dev hdrs q hchain hq.2
  obtain ⟨nc2, hq2, hwalk⟩ := capWalk_chain L dev q hdrs (fuel2 + 1)
    (capPtrRead L dev st work nextCap).st
    (((capPtrRead L dev st work nextCap).value <<< 8) % 2 ^ 64) hchain hrec
    (by rw [hptr]; exact shifted_pointer _ hlt)
  obtain ⟨l1, l2, _, _⟩ := recordChain_lists L hdrs (capPtrRead L dev st work nextCap).st hrec
  have hstop := capWalk_unknown_id L dev fuel2
    (recordChain L (capPtrRead L dev st work nextCap).st hdrs) nc2
    (by rw [hq2]; omega) (by rw [hq2]; exact (hbad _).1)
    (by rw [hq2, (hbad _).2]; exact decodeCapId_none L id hid)
  rw [discover_walk L dev fuel st work nextCap hsts hbit hcap, hf2, hwalk, hstop, hq2]
  refine ⟨rfl, ?_, ?_, ?_⟩
  · simp [l1, t3]
  · exact recordChain_table_congr L hdrs _ _ t1
  · simp [l2, t5]

/-- Witness of C7: PMCAP at 0x40 is followed by a header with ID 0x09 at
0x50. -/
theorem unknown_cap_id_stops_walk_witness :
    (DiscoverPciCapabilities sampleLayout vendorCapDevice 8 (sampleSession 0) 0 0).exit
      = DiscoverExit.unknownCapId ∧
    (DiscoverPciCapabilities sampleLayout vendorCapDevice 8 (sampleSession 0) 0 0).st.mPciCap
      = [(0x40, 0x01)].map (fun h => capOfId sampleLayout h.2) ∧
    (DiscoverPciCapabilities sampleLayout vendorCapDevice 8 (sampleSession 0) 0
        0).st.mPciSpcMetrics
      = (recordChain sampleLayout (sampleSession 0) [(0x40, 0x01)]).mPciSpcMetrics ∧
    (DiscoverPciCapabilities sampleLayout vendorCapDevice 8 (sampleSession 0) 0 0).st.calls
      = (sampleSession 0).calls
          ++ [pciReadRequest (sampleSession 0) sampleLayout.PCISPC_STS,
              pciReadRequest (sampleSession 0) sampleLayout.PCISPC_CAP]
          ++ [(0x40, 0x01)].map (fun h => hdrRequest h.1) ++ [hdrRequest 0x50] :=
  unknown_cap_id_stops_walk sampleLayout vendorCapDevice 8 (sampleSession 0) 0 0
    [(0x40, 0x01)] 0x50 0x09 (by decide) (by decide) (by decide) (by decide)
    ⟨by decide, by decide, fun _ => ⟨le_refl _, rfl, rfl⟩, trivial⟩
    (by decide) (by decide) (fun _ => ⟨le_refl _, rfl⟩) (by decide) (by decide)

/-! ### What one recorded capability does to the table -/

theorem decodeCapId_anchor (L : RegLayout) (id : Nat) (kind : PciCapabilities) (capIdx : Nat)
    (h : decodeCapId L id = some (kind, capIdx)) :
    capIdx = anchorOf L kind ∧ kind ∈ capKinds ∧ kind ≠ PCICAP_AERCAP := by
  unfold decodeCapId at h
  split at h
  · cases h; simp [anchorOf, capKinds]
  · split at h
    · cases h; simp [anchorOf, capKinds]
    · split at h
      · cases h; simp [anchorOf, capKinds]
      · split at h
        · cases h; simp [anchorOf, capKinds]
        · cases h

theorem recordCap_row_fields (L : RegLayout) (st : Registers) (kind : PciCapabilities)
    (capIdx capOffset j : Nat) :
    ((recordCap L st kind capIdx capOffset).mPciSpcMetrics j).cap = (st.mPciSpcMetrics j).cap ∧
    ((recordCap L st kind capIdx capOffset).mPciSpcMetrics j).size
      = (st.mPciSpcMetrics j).size ∧
    ((recordCap L st kind capIdx capOffset).mPciSpcMetrics j).specRev
      = (st.mPciSpcMetrics j).specRev ∧
    ((recordCap L st kind capIdx capOffset).mPciSpcMetrics j).desc
      = (st.mPciSpcMetrics j).desc := by
  have h1 := fixupFrom_fields kind (L.PCISPC_FENCE - (capIdx + 1)) (capIdx + 1)
    (setOffset st.mPciSpcMetrics capIdx capOffset) j
  have h2 := setOffset_fields st.mPciSpcMetrics capIdx capOffset j
  exact ⟨h1.1.trans h2.1, h1.2.1.trans h2.2.1, h1.2.2.1.trans h2.2.2.1,
    h1.2.2.2.trans h2.2.2.2⟩

theorem recordCap_row_other (L : RegLayout) (st : Registers) (kind : PciCapabilities)
    (capIdx capOffset j : Nat) (hc : (st.mPciSpcMetrics j).cap ≠ kind) (hj : j ≠ capIdx) :
    (recordCap L st kind capIdx capOffset).mPciSpcMetrics j = st.mPciSpcMetrics j := by
  show fixupFrom kind _ _ (setOffset st.mPciSpcMetrics capIdx capOffset) j = _
  rw [fixupFrom_other _ _ _ _ _ (by rw [(setOffset_fields _ _ _ _).1]; exact hc),
    setOffset_ne _ _ _ _ hj]

theorem recordCap_anchor_offset (L : RegLayout) (st : Registers) (kind : PciCapabilities)
    (capIdx capOffset : Nat) :
    ((recordCap L st kind capIdx capOffset).mPciSpcMetrics capIdx).offset = capOffset := by
  show (fixupFrom kind _ _ (setOffset st.mPciSpcMetrics capIdx capOffset) capIdx).offset = _
  rw [fixupFrom_outside _ _ _ _ _ (by omega), setOffset_same]

theorem recordCap_row_offset (L : RegLayout) (st : Registers) (kind : PciCapabilities)
    (capIdx capOffset j : Nat) (h1 : capIdx < j) (h2 : j < L.PCISPC_FENCE)
    (hc : (st.mPciSpcMetrics j).cap = kind) :
    ((recordCap L st kind capIdx capOffset).mPciSpcMetrics j).offset
      = nextOffset (recordCap L st kind capIdx capOffset).mPciSpcMetrics j := by
  show (fixupFrom kind _ _ (setOffset st.mPciSpcMetrics capIdx capOffset) j).offset = _
  exact fixupFrom_offset kind _ _ _ j (by omega) (by omega) (by omega)
    (by rw [(setOffset_fields _ _ _ _).1]; exact hc)

/-! ### The extended probe -/

theorem probeExtended_not_found (L : RegLayout) (dev : Device) (st : Registers) (nextCap : Nat)
    (h : dev.rc st.calls (hdrRequest 0x100) < 0 ∨
      REGMASK (storeLE nextCap 4 (dev.data st.calls (hdrRequest 0x100))) 2 ≠ 1) :
    (probeExtended L dev st nextCap).st = { st with calls := st.calls ++ [hdrRequest 0x100] } ∧
    ((probeExtended L dev st nextCap).exit = DiscoverExit.extReadFailed ∨
     (probeExtended L dev st nextCap).exit = DiscoverExit.unknownExtCapId) := by
  by_cases hrc : dev.rc st.calls (hdrRequest 0x100) < 0
  · simp [probeExtended, ioctlRead, hrc]
  · have hid : REGMASK (storeLE nextCap 4 (dev.data st.calls (hdrRequest 0x100))) 2 ≠ 1 := by
      rcases h with h | h
      · exact absurd h hrc
      · exact h
    have hn : (hdrRequest 0x100).nBytes = 4 := rfl
    simp [probeExtended, ioctlRead, hrc, hn, hid]

theorem probeExtended_found (L : RegLayout) (dev : Device) (st : Registers) (nextCap : Nat)
    (hrc : 0 ≤ dev.rc st.calls (hdrRequest 0x100))
    (hid : REGMASK (storeLE nextCap 4 (dev.data st.calls (hdrRequest 0x100))) 2 = 1) :
    (probeExtended L dev st nextCap).exit = DiscoverExit.completed ∧
    (probeExtended L dev st nextCap).st =
      { st with
        calls := st.calls ++ [hdrRequest 0x100]
        mPciCap := st.mPciCap ++ [PCICAP_AERCAP]
        mPciSpcMetrics :=
          chainFrom (L.PCISPC_AERTLP + 1 - L.PCISPC_AERUCES) L.PCISPC_AERUCES
            (setOffset st.mPciSpcMetrics L.PCISPC_AERID
              (REGMASK (storeLE nextCap 4 (dev.data st.calls (hdrRequest 0x100)) >>> 20) 2)) } := by
  have hrc' : ¬ dev.rc st.calls (hdrRequest 0x100) < 0 := by omega
  have hn : (hdrRequest 0x100).nBytes = 4 := rfl
  simp [probeExtended, ioctlRead, hrc', hn, hid]

theorem probeExtended_frame (L : RegLayout) (dev : Device) (st : Registers) (nextCap : Nat) :
    (probeExtended L dev st nextCap).st.calls = st.calls ++ [hdrRequest 0x100] ∧
    (probeExtended L dev st nextCap).st.mCtlSpcMetrics = st.mCtlSpcMetrics ∧
    (probeExtended L dev st nextCap).st.mSpecRev = st.mSpecRev ∧
    ((probeExtended L dev st nextCap).st.mPciCap = st.mPciCap ∨
     (probeExtended L dev st nextCap).st.mPciCap = st.mPciCap ++ [PCICAP_AERCAP]) ∧
    (∀ j, ((probeExtended L dev st nextCap).st.mPciSpcMetrics j).cap
        = (st.mPciSpcMetrics j).cap ∧
      ((probeExtended L dev st nextCap).st.mPciSpcMetrics j).size
        = (st.mPciSpcMetrics j).size ∧
      ((probeExtended L dev st nextCap).st.mPciSpcMetrics j).specRev
        = (st.mPciSpcMetrics j).specRev ∧
      ((probeExtended L dev st nextCap).st.mPciSpcMetrics j).desc
        = (st.mPciSpcMetrics j).desc) := by
  by_cases h : dev.rc st.calls (hdrRequest 0x100) < 0 ∨
      REGMASK (storeLE nextCap 4 (dev.data st.calls (hdrRequest 0x100))) 2 ≠ 1
  · rw [(probeExtended_not_found L dev st nextCap h).1]
    simp
  · have hrc : 0 ≤ dev.rc st.calls (hdrRequest 0x100) := by omega
    have hid : REGMASK (storeLE nextCap 4 (dev.data st.calls (hdrRequest 0x100))) 2 = 1 := by
      by_contra hne; exact h (Or.inr hne)
    rw [(probeExtended_found L dev st nextCap hrc hid).2]
    refine ⟨rfl, rfl, rfl, Or.inr rfl, fun j => ?_⟩
    have h1 := chainFrom_fields (L.PCISPC_AERTLP + 1 - L.PCISPC_AERUCES) L.PCISPC_AERUCES
      (setOffset st.mPciSpcMetrics L.PCISPC_AERID
        (REGMASK (storeLE nextCap 4 (dev.data st.calls (hdrRequest 0x100)) >>> 20) 2)) j
    have h2 := setOffset_fields st.mPciSpcMetrics L.PCISPC_AERID
      (REGMASK (storeLE nextCap 4 (dev.data st.calls (hdrRequest 0x100)) >>> 20) 2) j
    exact ⟨h1.1.trans h2.1, h1.2.1.trans h2.2.1, h1.2.2.1.trans h2.2.2.1,
      h1.2.2.2.trans h2.2.2.2⟩

theorem probeExtended_row_other (L : RegLayout) (dev : Device) (st : Registers) (nextCap : Nat)
    (hown : AnchorsOwned L st.mPciSpcMetrics) (j : Nat) (hj : j < L.PCISPC_FENCE)
    (hc : (st.mPciSpcMetrics j).cap ≠ PCICAP_AERCAP) :
    (probeExtended L dev st nextCap).st.mPciSpcMetrics j = st.mPciSpcMetrics j := by
  by_cases h : dev.rc st.calls (hdrRequest 0x100) < 0 ∨
      REGMASK (storeLE nextCap 4 (dev.data st.calls (hdrRequest 0x100))) 2 ≠ 1
  · rw [(probeExtended_not_found L dev st nextCap h).1]
  · have hrc : 0 ≤ dev.rc st.calls (hdrRequest 0x100) := by omega
    have hid : REGMASK (storeLE nextCap 4 (dev.data st.calls (hdrRequest 0x100))) 2 = 1 := by
      by_contra hne; exact h (Or.inr hne)
    rw [(probeExtended_found L dev st nextCap hrc hid).2]
    obtain ⟨hanch, _, haer⟩ := hown
    have hid2 : j ≠ L.PCISPC_AERID := by
      intro e
      have := (hanch PCICAP_AERCAP (by simp [capKinds])).2
      simp only [anchorOf] at this
      rw [← e] at this
      exact hc this
    have hout : j < L.PCISPC_AERUCES ∨
        L.PCISPC_AERUCES + (L.PCISPC_AERTLP + 1 - L.PCISPC_AERUCES) ≤ j := by
      by_contra hin
      exact hc (haer j hj (by omega) (by omega))
    show chainFrom _ _ _ j = _
    rw [chainFrom_outside _ _ _ _ hout, setOffset_ne _ _ _ _ hid2]

theorem probeExtended_row_unrecorded (L : RegLayout) (dev : Device) (st : Registers)
    (nextCap : Nat) (hown : AnchorsOwned L st.mPciSpcMetrics) (j : Nat)
    (hj : j < L.PCISPC_FENCE)
    (hc : (st.mPciSpcMetrics j).cap ∉ (probeExtended L dev st nextCap).st.mPciCap) :
    (probeExtended L dev st nextCap).st.mPciSpcMetrics j = st.mPciSpcMetrics j := by
  by_cases h : dev.rc st.calls (hdrRequest 0x100) < 0 ∨
      REGMASK (storeLE nextCap 4 (dev.data st.calls (hdrRequest 0x100))) 2 ≠ 1
  · rw [(probeExtended_not_found L dev st nextCap h).1]
  · have hrc : 0 ≤ dev.rc st.calls (hdrRequest 0x100) := by omega
    have hid : REGMASK (storeLE nextCap 4 (dev.data st.calls (hdrRequest 0x100))) 2 = 1 := by
      by_contra hne; exact h (Or.inr hne)
    apply probeExtended_row_other L dev st nextCap hown j hj
    intro e
    apply hc
    rw [(probeExtended_found L dev st nextCap hrc hid).2, e]
    simp

theorem AnchorsOwned_of_caps (L : RegLayout) (t t2 : Nat → PciSpcType)
    (h : ∀ j, (t2 j).cap = (t j).cap) (hown : AnchorsOwned L t) : AnchorsOwned L t2 := by
  obtain ⟨h1, h2, h3⟩ := hown
  refine ⟨fun K hK => ⟨(h1 K hK).1, ?_⟩, h2, fun i hi ha hb => ?_⟩
  · rw [h]; exact (h1 K hK).2
  · rw [h]; exact h3 i hi ha hb

theorem capWalk_out_of_fuel (L : RegLayout) (dev : Device) (st : Registers) (nextCap : Nat)
    (hptr : REGMASK (nextCap >>> 8) 1 ≠ 0) :
    capWalk L dev 0 st nextCap = { st := st, exit := DiscoverExit.outOfFuel } := by
  rw [capWalk]
  simp only [hptr, if_false]

theorem capWalk_read_failed (L : RegLayout) (dev : Device) (fuel : Nat) (st : Registers)
    (nextCap : Nat) (hptr : REGMASK (nextCap >>> 8) 1 ≠ 0)
    (hrc : dev.rc st.calls (hdrRequest (REGMASK (nextCap >>> 8) 1)) < 0) :
    capWalk L dev (fuel + 1) st nextCap =
      { st := { st with calls := st.calls ++ [hdrRequest (REGMASK (nextCap >>> 8) 1)] }
        exit := DiscoverExit.hdrReadFailed } := by
  rw [capWalk]
  simp only [hptr, if_false, ioctlRead, hrc, if_true]

/-- Everything the list walk and the extended probe leave alone. -/
theorem capWalk_frame (L : RegLayout) (dev : Device) :
    ∀ (fuel : Nat) (st : Registers) (nextCap : Nat), AnchorsOwned L st.mPciSpcMetrics →
      (∀ k ∈ st.mPciCap, k ∈ (capWalk L dev fuel st nextCap).st.mPciCap) ∧
      (capWalk L dev fuel st nextCap).st.mCtlSpcMetrics = st.mCtlSpcMetrics ∧
      (capWalk L dev fuel st nextCap).st.mSpecRev = st.mSpecRev ∧
      (∀ j, ((capWalk L dev fuel st nextCap).st.mPciSpcMetrics j).cap
          = (st.mPciSpcMetrics j).cap ∧
        ((capWalk L dev fuel st nextCap).st.mPciSpcMetrics j).size
          = (st.mPciSpcMetrics j).size ∧
        ((capWalk L dev fuel st nextCap).st.mPciSpcMetrics j).specRev
          = (st.mPciSpcMetrics j).specRev ∧
        ((capWalk L dev fuel st nextCap).st.mPciSpcMetrics j).desc
          = (st.mPciSpcMetrics j).desc) ∧
      (∀ j, j < L.PCISPC_FENCE →
        (st.mPciSpcMetrics j).cap ∉ (capWalk L dev fuel st nextCap).st.mPciCap →
        (capWalk L dev fuel st nextCap).st.mPciSpcMetrics j = st.mPciSpcMetrics j) := by
  intro fuel
  induction fuel with
  | zero =>
    intro st nextCap hown
    by_cases hptr : REGMASK (nextCap >>> 8) 1 = 0
    · rw [capWalk_done L dev 0 st nextCap hptr]
      obtain ⟨_, f2, f3, f4, f5⟩ := probeExtended_frame L dev st nextCap
      refine ⟨fun k hk => ?_, f2, f3, f5,
        fun j hj hc => probeExtended_row_unrecorded L dev st nextCap hown j hj hc⟩
      rcases f4 with e | e <;> rw [e] <;> simp [hk]
    · rw [capWalk_out_of_fuel L dev st nextCap hptr]
      simp
  | succ fuel ih =>
    intro st nextCap hown
    by_cases hptr : REGMASK (nextCap >>> 8) 1 = 0
    · rw [capWalk_done L dev (fuel + 1) st nextCap hptr]
      obtain ⟨_, f2, f3, f4, f5⟩ := probeExtended_frame L dev st nextCap
      refine ⟨fun k hk => ?_, f2, f3, f5,
        fun j hj hc => probeExtended_row_unrecorded L dev st nextCap hown j hj hc⟩
      rcases f4 with e | e <;> rw [e] <;> simp [hk]
    · by_cases hrc : dev.rc st.calls (hdrRequest (REGMASK (nextCap >>> 8) 1)) < 0
      · rw [capWalk_read_failed L dev fuel st nextCap hptr hrc]
        simp
      · cases hdec : decodeCapId L
            (dev.data st.calls (hdrRequest (REGMASK (nextCap >>> 8) 1)) 0 % 256) with
        | none =>
          rw [capWalk_unknown_id L dev fuel st nextCap hptr (by omega) hdec]
          simp
        | some p =>
          obtain ⟨kind, capIdx⟩ := p
          rw [capWalk_header L dev fuel st nextCap kind capIdx hptr (by omega) hdec]
          obtain ⟨ha, hk, _⟩ := decodeCapId_anchor L _ kind capIdx hdec
          have hfld := recordCap_row_fields L
            { st with calls := st.calls ++ [hdrRequest (REGMASK (nextCap >>> 8) 1)] }
            kind capIdx (REGMASK (nextCap >>> 8) 1)
          have hown2 : AnchorsOwned L (recordCap L
              { st with calls := st.calls ++ [hdrRequest (REGMASK (nextCap >>> 8) 1)] }
              kind capIdx (REGMASK (nextCap >>> 8) 1)).mPciSpcMetrics :=
            AnchorsOwned_of_caps L _ _ (fun j => (hfld j).1) hown
          obtain ⟨g1, g2, g3, g4, g5⟩ := ih _
            (storeLE nextCap 4 (dev.data st.calls (hdrRequest (REGMASK (nextCap >>> 8) 1))))
            hown2
          refine ⟨fun k hk2 => g1 k (by simp [recordCap, hk2]), g2, g3, fun j => ?_,
            fun j hj hc => ?_⟩
          · have a := g4 j
            have b := hfld j
            exact ⟨a.1.trans b.1, a.2.1.trans b.2.1, a.2.2.1.trans b.2.2.1,
              a.2.2.2.trans b.2.2.2⟩
          · have hkin := g1 kind (by simp [recordCap])
            have hne : (st.mPciSpcMetrics j).cap ≠ kind := fun e => hc (e ▸ hkin)
            have hja : j ≠ capIdx := by
              intro e
              apply hne
              rw [e, ha]
              exact (hown.1 kind hk).2
            rw [g5 j hj (by rw [(hfld j).1]; exact hc)]
            exact recordCap_row_other L _ kind capIdx _ j hne hja

/-- Everything a discovery run leaves alone, whatever exit it takes. -/
theorem discover_frame (L : RegLayout) (dev : Device) (fuel : Nat) (st : Registers)
    (work nextCap : Nat) (hown : AnchorsOwned L st.mPciSpcMetrics) :
    (DiscoverPciCapabilities L dev fuel st work nextCap).st.mCtlSpcMetrics
      = st.mCtlSpcMetrics ∧
    (DiscoverPciCapabilities L dev fuel st work nextCap).st.mSpecRev = st.mSpecRev ∧
    (∀ j, ((DiscoverPciCapabilities L dev fuel st work nextCap).st.mPciSpcMetrics j).cap
        = (st.mPciSpcMetrics j).cap ∧
      ((DiscoverPciCapabilities L dev fuel st work nextCap).st.mPciSpcMetrics j).size
        = (st.mPciSpcMetrics j).size ∧
      ((DiscoverPciCapabilities L dev fuel st work nextCap).st.mPciSpcMetrics j).specRev
        = (st.mPciSpcMetrics j).specRev ∧
      ((DiscoverPciCapabilities L dev fuel st work nextCap).st.mPciSpcMetrics j).desc
        = (st.mPciSpcMetrics j).desc) ∧
    (∀ j, j < L.PCISPC_FENCE →
      (st.mPciSpcMetrics j).cap
        ∉ (DiscoverPciCapabilities L dev fuel st work nextCap).st.mPciCap →
      (DiscoverPciCapabilities L dev fuel st work nextCap).st.mPciSpcMetrics j
        = st.mPciSpcMetrics j) := by
  have f1 := ReadPciSpc_frame dev { st with mPciCap := [] } L.PCISPC_STS work
  have f2 := ReadPciSpc_frame dev
    (ReadPciSpc dev { st with mPciCap := [] } L.PCISPC_STS work).st L.PCISPC_CAP nextCap
  have e1 : (ReadPciSpc dev { st with mPciCap := [] } L.PCISPC_STS work).st.mPciSpcMetrics
      = st.mPciSpcMetrics := f1.1
  have e2 : (ReadPciSpc dev (ReadPciSpc dev { st with mPciCap := [] } L.PCISPC_STS work).st
      L.PCISPC_CAP nextCap).st.mPciSpcMetrics = st.mPciSpcMetrics := f2.1.trans f1.1
  unfold DiscoverPciCapabilities
  simp only
  split
  · exact ⟨f1.2.1, f1.2.2.2, fun j => by rw [e1]; simp, fun j _ _ => by rw [e1]⟩
  · split
    · exact ⟨f1.2.1, f1.2.2.2, fun j => by rw [e1]; simp, fun j _ _ => by rw [e1]⟩
    · split
      · exact ⟨f2.2.1.trans f1.2.1, f2.2.2.2.trans f1.2.2.2, fun j => by rw [e2]; simp,
          fun j _ _ => by rw [e2]⟩
      · obtain ⟨_, g2, g3, g4, g5⟩ := capWalk_frame L dev fuel
          (ReadPciSpc dev (ReadPciSpc dev { st with mPciCap := [] } L.PCISPC_STS work).st
            L.PCISPC_CAP nextCap).st
          (((ReadPciSpc dev (ReadPciSpc dev { st with mPciCap := [] } L.PCISPC_STS work).st
            L.PCISPC_CAP nextCap).value <<< 8) % 2 ^ 64) (by rw [e2]; exact hown)
        rw [e2] at g4 g5
        exact ⟨g2.trans (f2.2.1.trans f1.2.1), g3.trans (f2.2.2.2.trans f1.2.2.2), g4, g5⟩

/-! ### Discovery: unresolved registers, pointer 0, the extended probe -/

theorem Read_unknown_offset (dev : Device) (st : Registers) (regSpc : nvme_io_space)
    (rsize value : Nat) (rdesc : String) :
    (Read dev st regSpc rsize INT_MAX value rdesc).ok = false ∧
    (Read dev st regSpc rsize INT_MAX value rdesc).st = st := by
  simp [Read]

theorem Write_unknown_offset (dev : Device) (st : Registers) (regSpc : nvme_io_space)
    (rsize value : Nat) (rdesc : String) :
    (Write dev st regSpc rsize INT_MAX value rdesc).ok = false ∧
    (Write dev st regSpc rsize INT_MAX value rdesc).st = st := by
  simp [Write]

/-- C10: start from a table whose capability-owned rows all have the
"unknown" offset (and whose anchor rows are owned by their kinds). After a
discovery run with any device, any bound on the walk and any exit, every
symbolic `Read` and `Write` of a register owned by a capability that is not in
the recorded list returns failure and leaves the log of device calls as it
was, whatever device is asked. -/
theorem unrecorded_capability_access_fails (L : RegLayout) (dev dev2 : Device) (fuel : Nat)
    (st : Registers) (work nextCap reg value : Nat)
    (hown : AnchorsOwned L st.mPciSpcMetrics) (hunk : AllUnknown L st.mPciSpcMetrics)
    (hreg : reg < L.PCISPC_FENCE)
    (hcap : ((DiscoverPciCapabilities L dev fuel st work nextCap).st.mPciSpcMetrics reg).cap
      ≠ PCICAP_FENCE)
    (hnot : ((DiscoverPciCapabilities L dev fuel st work nextCap).st.mPciSpcMetrics reg).cap
      ∉ (DiscoverPciCapabilities L dev fuel st work nextCap).st.mPciCap) :
    (ReadPciSpc dev2 (DiscoverPciCapabilities L dev fuel st work nextCap).st reg value).ok
      = false ∧
    (ReadPciSpc dev2 (DiscoverPciCapabilities L dev fuel st work nextCap).st reg value).st.calls
      = (DiscoverPciCapabilities L dev fuel st work nextCap).st.calls ∧
    (WritePciSpc dev2 (DiscoverPciCapabilities L dev fuel st work nextCap).st reg value).ok
      = false ∧
    (WritePciSpc dev2 (DiscoverPciCapabilities L dev fuel st work nextCap).st reg value).st.calls
      = (DiscoverPciCapabilities L dev fuel st work nextCap).st.calls := by
  obtain ⟨_, _, hfld, hrow⟩ := discover_frame L dev fuel st work nextCap hown
  rw [(hfld reg).1] at hcap hnot
  have hoff : ((DiscoverPciCapabilities L dev fuel st work nextCap).st.mPciSpcMetrics reg).offset
      = INT_MAX := by
    rw [hrow reg hreg hnot]
    exact hunk reg hreg hcap
  unfold ReadPciSpc WritePciSpc
  rw [hoff]
  split
  · simp
  · have r := Read_unknown_offset dev2 (DiscoverPciCapabilities L dev fuel st work nextCap).st
      NVMEIO_PCI_HDR
      ((DiscoverPciCapabilities L dev fuel st work nextCap).st.mPciSpcMetrics reg).size value
      ((DiscoverPciCapabilities L dev fuel st work nextCap).st.mPciSpcMetrics reg).desc
    have w := Write_unknown_offset dev2 (DiscoverPciCapabilities L dev fuel st work nextCap).st
      NVMEIO_PCI_HDR
      ((DiscoverPciCapabilities L dev fuel st work nextCap).st.mPciSpcMetrics reg).size value
      ((DiscoverPciCapabilities L dev fuel st work nextCap).st.mPciSpcMetrics reg).desc
    rw [r.1, r.2, w.1, w.2]
    simp

set_option maxRecDepth 4096 in
/-- Witness of C10: after discovery on the PMCAP → MSICAP device, register
`PXID` (row 20, owned by the PCI-Express capability, which the device does not
have) cannot be accessed. -/
theorem unrecorded_capability_access_fails_witness :
    (ReadPciSpc pmMsiDevice
      (DiscoverPciCapabilities sampleLayout pmMsiDevice 8 (sampleSession 0) 0 0).st 20 0).ok
      = false ∧
    (ReadPciSpc pmMsiDevice
      (DiscoverPciCapabilities sampleLayout pmMsiDevice 8 (sampleSession 0) 0 0).st 20
        0).st.calls
      = (DiscoverPciCapabilities sampleLayout pmMsiDevice 8 (sampleSession 0) 0 0).st.calls ∧
    (WritePciSpc pmMsiDevice
      (DiscoverPciCapabilities sampleLayout pmMsiDevice 8 (sampleSession 0) 0 0).st 20 0).ok
      = false ∧
    (WritePciSpc pmMsiDevice
      (DiscoverPciCapabilities sampleLayout pmMsiDevice 8 (sampleSession 0) 0 0).st 20
        0).st.calls
      = (DiscoverPciCapabilities sampleLayout pmMsiDevice 8 (sampleSession 0) 0 0).st.calls :=
  unrecorded_capability_access_fails sampleLayout pmMsiDevice pmMsiDevice 8 (sampleSession 0)
    0 0 20 0 (by decide) (by decide) (by decide) (by decide) (by decide)

theorem extended_id_bytes (buf : Nat) (bytes : Nat → Nat) :
    REGMASK (storeLE buf 4 bytes) 2 = bytes 0 % 256 + 256 * (bytes 1 % 256) := by
  simp only [REGMASK, storeLE, leValue]
  norm_num
  omega

/-- C8 as stated fails: on a device whose capability pointer reads 0 and
whose extended region starts with the header `0x00010001`, discovery started
from the all-unknown sample table records a capability and resolves
offsets. -/
theorem cap_pointer_zero_extended_found :
    (capPtrRead sampleLayout aerOnlyDevice (sampleSession 0) 0 0).ok = true ∧
    (capPtrRead sampleLayout aerOnlyDevice (sampleSession 0) 0 0).value = 0 ∧
    AllUnknown sampleLayout (sampleSession 0).mPciSpcMetrics ∧
    (DiscoverPciCapabilities sampleLayout aerOnlyDevice 8 (sampleSession 0) 0 0).st.mPciCap
      = [PCICAP_AERCAP] ∧
    ¬ ((DiscoverPciCapabilities sampleLayout aerOnlyDevice 8 (sampleSession 0) 0 0).st.mPciCap
        = [] ∧
       AllUnknown sampleLayout
        (DiscoverPciCapabilities sampleLayout aerOnlyDevice 8 (sampleSession 0) 0
          0).st.mPciSpcMetrics) := by
  decide

/-- C8, amended: if the capability-pointer register reads 0 whenever
discovery gets to read it, and the device never answers the read at 0x100 with
the 2-byte ID 0x0001 (the read fails or carries another ID), then discovery
started from a table whose capability-owned rows are all "unknown" records
zero capabilities and leaves the table as it was, so every capability-owned
offset is still "unknown". -/
theorem cap_pointer_zero_no_extended (L : RegLayout) (dev : Device) (fuel : Nat)
    (st : Registers) (work nextCap : Nat)
    (hzero : (capPtrRead L dev st work nextCap).ok = true →
      (capPtrRead L dev st work nextCap).value = 0)
    (hext : ∀ h, dev.rc h (hdrRequest 0x100) < 0 ∨
      dev.data h (hdrRequest 0x100) 0 % 256 + 256 * (dev.data h (hdrRequest 0x100) 1 % 256) ≠ 1)
    (hunk : AllUnknown L st.mPciSpcMetrics) :
    (DiscoverPciCapabilities L dev fuel st work nextCap).st.mPciCap = [] ∧
    (DiscoverPciCapabilities L dev fuel st work nextCap).st.mPciSpcMetrics
      = st.mPciSpcMetrics ∧
    AllUnknown L (DiscoverPciCapabilities L dev fuel st work nextCap).st.mPciSpcMetrics := by
  have f1 := ReadPciSpc_frame dev { st with mPciCap := [] } L.PCISPC_STS work
  have f2 := ReadPciSpc_frame dev
    (ReadPciSpc dev { st with mPciCap := [] } L.PCISPC_STS work).st L.PCISPC_CAP nextCap
  have key : (DiscoverPciCapabilities L dev fuel st work nextCap).st.mPciCap = [] ∧
      (DiscoverPciCapabilities L dev fuel st work nextCap).st.mPciSpcMetrics
        = st.mPciSpcMetrics := by
    unfold capPtrRead statusRead at hzero
    unfold DiscoverPciCapabilities
    simp only
    split
    · exact ⟨f1.2.2.1, f1.1⟩
    · split
      · exact ⟨f1.2.2.1, f1.1⟩
      · split
        · exact ⟨f2.2.2.1.trans f1.2.2.1, f2.1.trans f1.1⟩
        · rename_i hok
          have hv := hzero (by simpa using hok)
          rw [hv, capWalk_done L dev fuel _ _ (by decide)]
          have hnf := probeExtended_not_found L dev
            (ReadPciSpc dev (ReadPciSpc dev { st with mPciCap := [] } L.PCISPC_STS work).st
              L.PCISPC_CAP nextCap).st ((0 <<< 8) % 2 ^ 64)
            (by rw [extended_id_bytes]; exact hext _)
          rw [hnf.1]
          exact ⟨f2.2.2.1.trans f1.2.2.1, f2.1.trans f1.1⟩
  refine ⟨key.1, key.2, ?_⟩
  rw [key.2]
  exact hunk

/-- Witness of the amended C8: capability pointer 0 and nothing at 0x100. -/
theorem cap_pointer_zero_no_extended_witness :
    (capPtrRead sampleLayout bareDevice (sampleSession 0) 0 0).ok = true ∧
    (capPtrRead sampleLayout bareDevice (sampleSession 0) 0 0).value = 0 ∧
    ((DiscoverPciCapabilities sampleLayout bareDevice 8 (sampleSession 0) 0 0).st.mPciCap = [] ∧
     (DiscoverPciCapabilities sampleLayout bareDevice 8 (sampleSession 0) 0 0).st.mPciSpcMetrics
       = (sampleSession 0).mPciSpcMetrics ∧
     AllUnknown sampleLayout
      (DiscoverPciCapabilities sampleLayout bareDevice 8 (sampleSession 0) 0
        0).st.mPciSpcMetrics) :=
  ⟨by decide, by decide,
   cap_pointer_zero_no_extended sampleLayout bareDevice 8 (sampleSession 0) 0 0
    (fun _ => by decide) (fun _ => Or.inr (show (0 : Nat) ≠ 1 by decide)) (by decide)⟩

/-- C6, the code at a failing input: the device reports capability pointer
0 and the extended header `0x14010001` at 0x100. Discovery records the
error-reporting capability, but the offset it stores for the anchor register
`AERID` (row 25) is 0x140, the header's next-capability field, not the probed
offset 0x100; the rows after it are chained from that value. -/
theorem extended_anchor_gets_next_pointer :
    (DiscoverPciCapabilities sampleLayout aerLinkedDevice 8 (sampleSession 0) 0 0).exit
      = DiscoverExit.completed ∧
    (DiscoverPciCapabilities sampleLayout aerLinkedDevice 8 (sampleSession 0) 0 0).st.mPciCap
      = [PCICAP_AERCAP] ∧
    ((DiscoverPciCapabilities sampleLayout aerLinkedDevice 8 (sampleSession 0) 0
      0).st.mPciSpcMetrics sampleLayout.PCISPC_AERID).offset = 0x140 ∧
    ((DiscoverPciCapabilities sampleLayout aerLinkedDevice 8 (sampleSession 0) 0
      0).st.mPciSpcMetrics sampleLayout.PCISPC_AERID).offset ≠ 0x100 ∧
    ((DiscoverPciCapabilities sampleLayout aerLinkedDevice 8 (sampleSession 0) 0
      0).st.mPciSpcMetrics sampleLayout.PCISPC_AERUCES).offset = 0x144 := by
  decide

/-! ### Discovery of a well-formed capability list -/

theorem Contiguous_of_caps (L : RegLayout) (t t2 : Nat → PciSpcType)
    (h : ∀ j, (t2 j).cap = (t j).cap) (hc : Contiguous L t) : Contiguous L t2 := by
  refine ⟨AnchorsOwned_of_caps L t t2 h hc.1, fun K hK i hi hcap hne => ?_⟩
  rw [h] at hcap
  rw [h]
  exact hc.2 K hK i hi hcap hne

theorem FitsConfigSpace_of_sizes (L : RegLayout) (t t2 : Nat → PciSpcType)
    (h : ∀ j, (t2 j).size = (t j).size) (hf : FitsConfigSpace L t) : FitsConfigSpace L t2 :=
  ⟨hf.1, fun i hi => by rw [h]; exact hf.2 i hi⟩

theorem recordCap_offset_bound (L : RegLayout) (st : Registers) (K : PciCapabilities) (o : Nat)
    (hc : Contiguous L st.mPciSpcMetrics) (hf : FitsConfigSpace L st.mPciSpcMetrics)
    (hK : K ∈ capKinds) (ho : o < 256) :
    ∀ d i, i = anchorOf L K + d → i < L.PCISPC_FENCE → (st.mPciSpcMetrics i).cap = K →
      ((recordCap L st K (anchorOf L K) o).mPciSpcMetrics i).offset ≤ 255 + d * 4096 := by
  intro d
  induction d with
  | zero =>
    intro i hi _ _
    have : i = anchorOf L K := by omega
    rw [this, recordCap_anchor_offset]
    omega
  | succ d ih =>
    intro i hi hlt hcap
    obtain ⟨hai, hprev⟩ := hc.2 K hK i hlt hcap (by omega)
    have hb := ih (i - 1) (by omega) (by omega) hprev
    have hsz := hf.2 (i - 1) (by omega)
    rw [recordCap_row_offset L st K (anchorOf L K) o i hai hlt hcap]
    unfold nextOffset
    rw [(recordCap_row_fields L st K (anchorOf L K) o (i - 1)).2.1]
    have := Nat.mod_le
      (((recordCap L st K (anchorOf L K) o).mPciSpcMetrics (i - 1)).offset
        + (st.mPciSpcMetrics (i - 1)).size) (2 ^ 32)
    omega

theorem recordCap_resolves (L : RegLayout) (st : Registers) (K : PciCapabilities) (o : Nat)
    (hc : Contiguous L st.mPciSpcMetrics) (hf : FitsConfigSpace L st.mPciSpcMetrics)
    (hK : K ∈ capKinds) (ho : o < 256) :
    ResolvedAt L (recordCap L st K (anchorOf L K) o).mPciSpcMetrics K o := by
  refine ⟨recordCap_anchor_offset L st K (anchorOf L K) o, fun i hi hcap hne => ?_⟩
  rw [(recordCap_row_fields L st K (anchorOf L K) o i).1] at hcap
  obtain ⟨hai, hprev⟩ := hc.2 K hK i hi hcap hne
  have hb := recordCap_offset_bound L st K o hc hf hK ho (i - 1 - anchorOf L K) (i - 1)
    (by omega) (by omega) hprev
  have hsz := hf.2 (i - 1) (by omega)
  have hfence := hf.1
  rw [recordCap_row_offset L st K (anchorOf L K) o i hai hi hcap]
  unfold nextOffset
  rw [(recordCap_row_fields L st K (anchorOf L K) o (i - 1)).2.1] at *
  apply Nat.mod_eq_of_lt
  omega

theorem capOfId_of_decode (L : RegLayout) (id : Nat) (kind : PciCapabilities) (capIdx : Nat)
    (h : decodeCapId L id = some (kind, capIdx)) : capOfId L id = kind := by
  simp [capOfId, h]

theorem recordChain_resolved (L : RegLayout) (hdrs : List (Nat × Nat)) :
    ∀ st : Registers, Contiguous L st.mPciSpcMetrics → FitsConfigSpace L st.mPciSpcMetrics →
      (∀ h ∈ hdrs, h.1 < 256) →
      (∀ h ∈ hdrs, (decodeCapId L h.2).isSome = true) →
      (hdrs.map (fun h => capOfId L h.2)).Nodup →
      (∀ j, ((recordChain L st hdrs).mPciSpcMetrics j).cap = (st.mPciSpcMetrics j).cap ∧
        ((recordChain L st hdrs).mPciSpcMetrics j).size = (st.mPciSpcMetrics j).size) ∧
      (∀ j, j < L.PCISPC_FENCE →
        (st.mPciSpcMetrics j).cap ∉ hdrs.map (fun h => capOfId L h.2) →
        (recordChain L st hdrs).mPciSpcMetrics j = st.mPciSpcMetrics j) ∧
      (∀ h ∈ hdrs, ResolvedAt L (recordChain L st hdrs).mPciSpcMetrics (capOfId L h.2) h.1) := by
  induction hdrs with
  | nil =>
    intro st _ _ _ _ _
    simp [recordChain]
  | cons hd rest ih =>
    obtain ⟨o, id⟩ := hd
    intro st hc hf hlt hrec hnd
    obtain ⟨⟨kind, capIdx⟩, hdec⟩ :=
      Option.isSome_iff_exists.mp (hrec (o, id) (List.mem_cons_self _ _))
    have hdec2 : decodeCapId L id = some (kind, capIdx) := hdec
    obtain ⟨ha, hK, _⟩ := decodeCapId_anchor L id kind capIdx hdec2
    have hkind := capOfId_of_decode L id kind capIdx hdec2
    subst ha
    have ho : o < 256 := hlt (o, id) (List.mem_cons_self _ _)
    have hfld := recordCap_row_fields L { st with calls := st.calls ++ [hdrRequest o] } kind
      (anchorOf L kind) o
    have hc1 : Contiguous L (recordCap L { st with calls := st.calls ++ [hdrRequest o] } kind
        (anchorOf L kind) o).mPciSpcMetrics :=
      Contiguous_of_caps L _ _ (fun j => (hfld j).1) hc
    have hf1 : FitsConfigSpace L (recordCap L { st with calls := st.calls ++ [hdrRequest o] }
        kind (anchorOf L kind) o).mPciSpcMetrics :=
      FitsConfigSpace_of_sizes L _ _ (fun j => (hfld j).2.1) hf
    simp only [List.map_cons, List.nodup_cons, hkind] at hnd
    obtain ⟨g1, g2, g3⟩ := ih _ hc1 hf1 (fun h hh => hlt h (List.mem_cons_of_mem _ hh))
      (fun h hh => hrec h (List.mem_cons_of_mem _ hh)) hnd.2
    have hres := recordCap_resolves L { st with calls := st.calls ++ [hdrRequest o] } kind o
      hc hf hK ho
    have hanchor := hc.1.1 kind hK
    simp only [recordChain, hdec2]
    refine ⟨fun j => ⟨(g1 j).1.trans (hfld j).1, (g1 j).2.trans (hfld j).2.1⟩,
      fun j hj hnot => ?_, fun h hh => ?_⟩
    · simp only [List.map_cons, List.mem_cons, hkind, not_or] at hnot
      rw [g2 j hj (by rw [(hfld j).1]; exact hnot.2)]
      apply recordCap_row_other L _ kind (anchorOf L kind) o j hnot.1
      intro e
      apply hnot.1
      rw [e]
      exact hanchor.2
    · rcases List.mem_cons.mp hh with e | hin
      · subst e
        simp only [hkind]
        have keep : ∀ j, j < L.PCISPC_FENCE → (st.mPciSpcMetrics j).cap = kind →
            (recordChain L (recordCap L { st with calls := st.calls ++ [hdrRequest o] } kind
              (anchorOf L kind) o) rest).mPciSpcMetrics j
            = (recordCap L { st with calls := st.calls ++ [hdrRequest o] } kind
              (anchorOf L kind) o).mPciSpcMetrics j := by
          intro j hj hcap
          apply g2 j hj
          rw [(hfld j).1, hcap]
          exact hnd.1
        refine ⟨?_, fun i hi hcap hne => ?_⟩
        · rw [keep _ hanchor.1 hanchor.2]
          exact hres.1
        · have hcap0 : (st.mPciSpcMetrics i).cap = kind := by
            rw [← (hfld i).1, ← (g1 i).1]; exact hcap
          obtain ⟨_, hprev⟩ := hc.2 kind hK i hi hcap0 hne
          rw [keep i hi hcap0, keep (i - 1) (by omega) hprev]
          exact hres.2 i hi (by rw [(hfld i).1]; exact hcap0) hne
      · exact g3 h hin

theorem CapChain_offsets (dev : Device) (q : Nat) (hdrs : List (Nat × Nat))
    (hch : CapChain dev hdrs q) : ∀ h ∈ hdrs, h.1 < 256 := by
  induction hdrs with
  | nil => intro h hh; cases hh
  | cons hd rest ih =>
    obtain ⟨o, id⟩ := hd
    intro h hh
    rcases List.mem_cons.mp hh with e | hin
    · subst e; exact hch.2.1
    · exact ih hch.2.2.2 h hin

theorem ResolvedAt_of_rows (L : RegLayout) (t t2 : Nat → PciSpcType) (K : PciCapabilities)
    (o : Nat) (hc : Contiguous L t) (hK : K ∈ capKinds)
    (hcaps : ∀ j, (t2 j).cap = (t j).cap)
    (hrows : ∀ j, j < L.PCISPC_FENCE → (t j).cap = K → t2 j = t j)
    (hres : ResolvedAt L t K o) : ResolvedAt L t2 K o := by
  have hanchor := hc.1.1 K hK
  refine ⟨?_, fun i hi hcap hne => ?_⟩
  · rw [hrows _ hanchor.1 hanchor.2]; exact hres.1
  · rw [hcaps] at hcap
    obtain ⟨_, hprev⟩ := hc.2 K hK i hi hcap hne
    rw [hrows i hi hcap, hrows (i - 1) (by omega) hprev]
    exact hres.2 i hi hcap hne

theorem probeExtended_exit (L : RegLayout) (dev : Device) (st : Registers) (nextCap : Nat) :
    (probeExtended L dev st nextCap).exit = DiscoverExit.completed ∨
    (probeExtended L dev st nextCap).exit = DiscoverExit.extReadFailed ∨
    (probeExtended L dev st nextCap).exit = DiscoverExit.unknownExtCapId := by
  by_cases h : dev.rc st.calls (hdrRequest 0x100) < 0 ∨
      REGMASK (storeLE nextCap 4 (dev.data st.calls (hdrRequest 0x100))) 2 ≠ 1
  · exact Or.inr (probeExtended_not_found L dev st nextCap h).2
  · have hrc : 0 ≤ dev.rc st.calls (hdrRequest 0x100) := by omega
    have hid : REGMASK (storeLE nextCap 4 (dev.data st.calls (hdrRequest 0x100))) 2 = 1 := by
      by_contra hne; exact h (Or.inr hne)
    exact Or.inl (probeExtended_found L dev st nextCap hrc hid).1

/-- C5: the status register is read with the capabilities-list bit set, the
capability pointer reads the offset of the first header, and the device holds
the headers `hdrs` (recognised IDs, pairwise distinct kinds) as a linked list
ending in next pointer 0. For a table whose kinds are contiguous (and fit a
4 KiB configuration space) discovery gets to the extended probe, the kinds of
`hdrs` are the first `hdrs.length` entries of the capability list in chain
order, and for each header the anchor register of its kind has the header's
offset while every other register of that kind has the offset of the row
before it plus the size of the row before it. -/
theorem chain_discovery_resolves (L : RegLayout) (dev : Device) (fuel : Nat) (st : Registers)
    (work nextCap : Nat) (hdrs : List (Nat × Nat))
    (hcont : Contiguous L st.mPciSpcMetrics) (hfit : FitsConfigSpace L st.mPciSpcMetrics)
    (hsts : (statusRead L dev st work).ok = true)
    (hbit : (statusRead L dev st work).value &&& L.STS_CL ≠ 0)
    (hcap : (capPtrRead L dev st work nextCap).ok = true)
    (hptr : (capPtrRead L dev st work nextCap).value = firstPtr hdrs 0)
    (hchain : CapChain dev hdrs 0)
    (hrec : ∀ h ∈ hdrs, (decodeCapId L h.2).isSome = true)
    (hdist : (hdrs.map (fun h => capOfId L h.2)).Nodup)
    (hfuel : hdrs.length ≤ fuel) :
    ((DiscoverPciCapabilities L dev fuel st work nextCap).exit = DiscoverExit.completed ∨
     (DiscoverPciCapabilities L dev fuel st work nextCap).exit = DiscoverExit.extReadFailed ∨
     (DiscoverPciCapabilities L dev fuel st work nextCap).exit
       = DiscoverExit.unknownExtCapId) ∧
    (DiscoverPciCapabilities L dev fuel st work nextCap).st.mPciCap.take hdrs.length
      = hdrs.map (fun h => capOfId L h.2) ∧
    ∀ h ∈ hdrs,
      ResolvedAt L (DiscoverPciCapabilities L dev fuel st work nextCap).st.mPciSpcMetrics
        (capOfId L h.2) h.1 := by
  obtain ⟨t1, _, t3, _, _⟩ := capPtrRead_state L dev st work nextCap hsts hcap
  obtain ⟨fuel2, hf2⟩ : ∃ f, fuel = f + hdrs.length := ⟨fuel - hdrs.length, by omega⟩
  have hlt := firstPtr_lt dev hdrs 0 hchain (by decide)
  obtain ⟨nc2, hq2, hwalk⟩ := capWalk_chain L dev 0 hdrs fuel2
    (capPtrRead L dev st work nextCap).st
    (((capPtrRead L dev st work nextCap).value <<< 8) % 2 ^ 64) hchain hrec
    (by rw [hptr]; exact shifted_pointer _ hlt)
  obtain ⟨l1, _, _, _⟩ := recordChain_lists L hdrs (capPtrRead L dev st work nextCap).st hrec
  obtain ⟨g1, _, g3⟩ := recordChain_resolved L hdrs (capPtrRead L dev st work nextCap).st
    (by rw [t1]; exact hcont) (by rw [t1]; exact hfit) (CapChain_offsets dev 0 hdrs hchain)
    hrec hdist
  have hcS : Contiguous L
      (recordChain L (capPtrRead L dev st work nextCap).st hdrs).mPciSpcMetrics :=
    Contiguous_of_caps L _ _ (fun j => (g1 j).1) (by rw [t1]; exact hcont)
  obtain ⟨_, _, _, p4, p5⟩ := probeExtended_frame L dev
    (recordChain L (capPtrRead L dev st work nextCap).st hdrs) nc2
  rw [discover_walk L dev fuel st work nextCap hsts hbit hcap, hf2, hwalk,
    capWalk_done L dev fuel2 _ nc2 hq2]
  refine ⟨probeExtended_exit L dev _ nc2, ?_, fun h hh => ?_⟩
  · rcases p4 with e | e <;> rw [e, l1, t3] <;> simp
  · obtain ⟨⟨kind, capIdx⟩, hdec⟩ := Option.isSome_iff_exists.mp (hrec h hh)
    obtain ⟨_, hK, hnaer⟩ := decodeCapId_anchor L h.2 kind capIdx hdec
    rw [capOfId_of_decode L h.2 kind capIdx hdec]
    have hres := g3 h hh
    rw [capOfId_of_decode L h.2 kind capIdx hdec] at hres
    exact ResolvedAt_of_rows L _ _ kind h.1 hcS hK (fun j => (p5 j).1)
      (fun j hj hcapj => probeExtended_row_other L dev _ nc2 hcS.1 j hj
        (by rw [hcapj]; exact hnaer)) hres

set_option maxRecDepth 8192 in
/-- Witness of C5: the device with PMCAP at 0x40, MSICAP at 0x50 and the
terminating next pointer 0, over the sample table. -/
theorem chain_discovery_resolves_witness :
    ((DiscoverPciCapabilities sampleLayout pmMsiDevice 8 (sampleSession 0) 0 0).exit
        = DiscoverExit.completed ∨
     (DiscoverPciCapabilities sampleLayout pmMsiDevice 8 (sampleSession 0) 0 0).exit
        = DiscoverExit.extReadFailed ∨
     (DiscoverPciCapabilities sampleLayout pmMsiDevice 8 (sampleSession 0) 0 0).exit
        = DiscoverExit.unknownExtCapId) ∧
    (DiscoverPciCapabilities sampleLayout pmMsiDevice 8 (sampleSession 0) 0
        0).st.mPciCap.take [(0x40, 0x01), (0x50, 0x05)].length
      = [(0x40, 0x01), (0x50, 0x05)].map (fun h => capOfId sampleLayout h.2) ∧
    ∀ h ∈ [(0x40, 0x01), (0x50, 0x05)],
      ResolvedAt sampleLayout
        (DiscoverPciCapabilities sampleLayout pmMsiDevice 8 (sampleSession 0) 0
          0).st.mPciSpcMetrics (capOfId sampleLayout h.2) h.1 :=
  chain_discovery_resolves sampleLayout pmMsiDevice 8 (sampleSession 0) 0 0
    [(0x40, 0x01), (0x50, 0x05)] (by decide) (by decide) (by decide) (by decide) (by decide)
    (by decide)
    ⟨by decide, by decide, fun _ => ⟨le_refl _, rfl, rfl⟩, by decide, by decide,
      fun _ => ⟨le_refl _, rfl, rfl⟩, trivial⟩
    (by decide) (by decide) (by decide)

/-! ### One device call per access -/

/-- C14: with an offset other than the sentinel and a size of at most 8
bytes, the offset/size `Read` and `Write` each append exactly one request to
the log of device calls, carrying the given space selector, offset and byte
count, and return success exactly when that call returns a non-negative
status; a failing call leaves just that one request in the log. -/
theorem typed_access_one_call (dev : Device) (st : Registers) (regSpc : nvme_io_space)
    (rsize roffset value : Nat) (rdesc : String)
    (hoff : roffset ≠ INT_MAX) (hsz : rsize ≤ 8) :
    (Read dev st regSpc rsize roffset value rdesc).st.calls = st.calls ++
      [{ isWrite := false, type := regSpc, offset := roffset, nBytes := rsize, data := [] }] ∧
    ((Read dev st regSpc rsize roffset value rdesc).ok = true ↔
      0 ≤ dev.rc st.calls
        { isWrite := false, type := regSpc, offset := roffset, nBytes := rsize, data := [] }) ∧
    (Write dev st regSpc rsize roffset value rdesc).st.calls = st.calls ++
      [{ isWrite := true, type := regSpc, offset := roffset, nBytes := rsize,
         data := bytesLE value rsize }] ∧
    ((Write dev st regSpc rsize roffset value rdesc).ok = true ↔
      0 ≤ dev.rc st.calls
        { isWrite := true, type := regSpc, offset := roffset, nBytes := rsize,
          data := bytesLE value rsize }) := by
  have hs : ¬ rsize > MAX_SUPPORTED_REG_SIZE := by unfold MAX_SUPPORTED_REG_SIZE; omega
  refine ⟨?_, ?_, ?_, ?_⟩
  · by_cases h3 : dev.rc st.calls
        { isWrite := false, type := regSpc, offset := roffset, nBytes := rsize, data := [] } < 0
    · simp [Read, ioctlRead, hoff, hs, h3]
    · simp [Read, ioctlRead, hoff, hs, h3]
  · by_cases h3 : dev.rc st.calls
        { isWrite := false, type := regSpc, offset := roffset, nBytes := rsize, data := [] } < 0
    · simp [Read, ioctlRead, hoff, hs, h3]
    · simp [Read, ioctlRead, hoff, hs, h3]; omega
  · by_cases h3 : dev.rc st.calls
        { isWrite := true, type := regSpc, offset := roffset, nBytes := rsize,
          data := bytesLE value rsize } < 0
    · simp [Write, ioctlWrite, hoff, hs, h3]
    · simp [Write, ioctlWrite, hoff, hs, h3]
  · by_cases h3 : dev.rc st.calls
        { isWrite := true, type := regSpc, offset := roffset, nBytes := rsize,
          data := bytesLE value rsize } < 0
    · simp [Write, ioctlWrite, hoff, hs, h3]
    · simp [Write, ioctlWrite, hoff, hs, h3]; omega

/-- Witness of C14: a 4-byte access at offset 0x14 of the control space on
a device that fails every request. -/
theorem typed_access_one_call_witness :
    ((0x14 : Nat) ≠ INT_MAX ∧ 4 ≤ 8) ∧
    ((Read deadDevice (sampleSession 0) NVMEIO_BAR01 4 0x14 7 "CC").st.calls
        = (sampleSession 0).calls ++
          [{ isWrite := false, type := NVMEIO_BAR01, offset := 0x14, nBytes := 4, data := [] }] ∧
     ((Read deadDevice (sampleSession 0) NVMEIO_BAR01 4 0x14 7 "CC").ok = true ↔
        0 ≤ deadDevice.rc (sampleSession 0).calls
          { isWrite := false, type := NVMEIO_BAR01, offset := 0x14, nBytes := 4, data := [] }) ∧
     (Write deadDevice (sampleSession 0) NVMEIO_BAR01 4 0x14 7 "CC").st.calls
        = (sampleSession 0).calls ++
          [{ isWrite := true, type := NVMEIO_BAR01, offset := 0x14, nBytes := 4,
             data := bytesLE 7 4 }] ∧
     ((Write deadDevice (sampleSession 0) NVMEIO_BAR01 4 0x14 7 "CC").ok = true ↔
        0 ≤ deadDevice.rc (sampleSession 0).calls
          { isWrite := true, type := NVMEIO_BAR01, offset := 0x14, nBytes := 4,
            data := bytesLE 7 4 })) :=
  ⟨by decide, typed_access_one_call deadDevice (sampleSession 0) NVMEIO_BAR01 4 0x14 7 "CC"
    (by decide) (by decide)⟩

/-! ### The extended probe with another ID -/

/-- C15: the list walk has ended (next pointer 0), the read at 0x100
succeeds and the 2-byte ID it delivers is not 0x0001. Then discovery returns
at line 376: the capability list, the configuration-space table and the
control-space table are what they were when the walk ended, and the only call
added is the probe itself. -/
theorem extended_probe_other_id_changes_nothing (L : RegLayout) (dev : Device) (fuel : Nat)
    (st : Registers) (nextCap : Nat)
    (hend : REGMASK (nextCap >>> 8) 1 = 0)
    (hrc : 0 ≤ dev.rc st.calls (hdrRequest 0x100))
    (hid : REGMASK (ioctlRead dev st (hdrRequest 0x100) nextCap).buf 2 ≠ 0x0001) :
    (capWalk L dev fuel st nextCap).exit = DiscoverExit.unknownExtCapId ∧
    (capWalk L dev fuel st nextCap).st.mPciCap = st.mPciCap ∧
    (capWalk L dev fuel st nextCap).st.mPciSpcMetrics = st.mPciSpcMetrics ∧
    (capWalk L dev fuel st nextCap).st.mCtlSpcMetrics = st.mCtlSpcMetrics ∧
    (capWalk L dev fuel st nextCap).st.calls = st.calls ++ [hdrRequest 0x100] := by
  have hrc2 : ¬ dev.rc st.calls (hdrRequest 0x100) < 0 := by omega
  rw [capWalk_done L dev fuel st nextCap hend]
  simp only [ioctlRead, hrc2, if_false] at hid
  simp [probeExtended, ioctlRead, hrc2, hid]

/-- Witness of C15: the walk ends at once (pointer 0) on a device that has
nothing at 0x100. -/
theorem extended_probe_other_id_changes_nothing_witness :
    (capWalk sampleLayout bareDevice 8 (sampleSession 0) 0).exit
      = DiscoverExit.unknownExtCapId ∧
    (capWalk sampleLayout bareDevice 8 (sampleSession 0) 0).st.mPciCap
      = (sampleSession 0).mPciCap ∧
    (capWalk sampleLayout bareDevice 8 (sampleSession 0) 0).st.mPciSpcMetrics
      = (sampleSession 0).mPciSpcMetrics ∧
    (capWalk sampleLayout bareDevice 8 (sampleSession 0) 0).st.mCtlSpcMetrics
      = (sampleSession 0).mCtlSpcMetrics ∧
    (capWalk sampleLayout bareDevice 8 (sampleSession 0) 0).st.calls
      = (sampleSession 0).calls ++ [hdrRequest 0x100] :=
  extended_probe_other_id_changes_nothing sampleLayout bareDevice 8 (sampleSession 0) 0
    (by decide) (by decide) (by decide)

/-! ### Symbolic access against the offset/size form -/

/-- C17, the code at a failing input: in a session of revision 1 the
control-space register `VS` (index 1) carries revision 1, its own table says
so, while row 1 of the configuration-space table carries revision 0. The
offset/size `Read` and `Write` called with the space, size, offset and
description of `VS` each issue one device call and succeed; the symbolic
`Read` and `Write` of `VS` fail and issue none. -/
theorem ctlSpc_symbolic_differs_from_offset_form :
    ((sampleSession 1).mCtlSpcMetrics 1).specRev = (sampleSession 1).mSpecRev ∧
    (Read (configDevice (memOf [])) (sampleSession 1) NVMEIO_BAR01
      ((sampleSession 1).mCtlSpcMetrics 1).size ((sampleSession 1).mCtlSpcMetrics 1).offset 0
      ((sampleSession 1).mCtlSpcMetrics 1).desc).ok = true ∧
    (Read (configDevice (memOf [])) (sampleSession 1) NVMEIO_BAR01
      ((sampleSession 1).mCtlSpcMetrics 1).size ((sampleSession 1).mCtlSpcMetrics 1).offset 0
      ((sampleSession 1).mCtlSpcMetrics 1).desc).st.calls.length = 1 ∧
    (ReadCtlSpc (configDevice (memOf [])) (sampleSession 1) 1 0).ok = false ∧
    (ReadCtlSpc (configDevice (memOf [])) (sampleSession 1) 1 0).st.calls = [] ∧
    (Write (configDevice (memOf [])) (sampleSession 1) NVMEIO_BAR01
      ((sampleSession 1).mCtlSpcMetrics 1).size ((sampleSession 1).mCtlSpcMetrics 1).offset 0
      ((sampleSession 1).mCtlSpcMetrics 1).desc).ok = true ∧
    (WriteCtlSpc (configDevice (memOf [])) (sampleSession 1) 1 0).ok = false ∧
    (WriteCtlSpc (configDevice (memOf [])) (sampleSession 1) 1 0).st.calls = [] := by
  decide

/-! ### What discovery leaves alone -/

theorem capWalk_caps (L : RegLayout) (dev : Device) :
    ∀ (fuel : Nat) (st : Registers) (nextCap : Nat),
      ∀ k ∈ (capWalk L dev fuel st nextCap).st.mPciCap, k ∈ st.mPciCap ∨ k ∈ capKinds := by
  intro fuel
  induction fuel with
  | zero =>
    intro st nextCap k hk
    by_cases hptr : REGMASK (nextCap >>> 8) 1 = 0
    · rw [capWalk_done L dev 0 st nextCap hptr] at hk
      rcases (probeExtended_frame L dev st nextCap).2.2.2.1 with e | e
      · rw [e] at hk; exact Or.inl hk
      · rw [e] at hk
        rcases List.mem_append.mp hk with h | h
        · exact Or.inl h
        · right; simp at h; subst h; simp [capKinds]
    · rw [capWalk_out_of_fuel L dev st nextCap hptr] at hk
      exact Or.inl hk
  | succ fuel ih =>
    intro st nextCap k hk
    by_cases hptr : REGMASK (nextCap >>> 8) 1 = 0
    · rw [capWalk_done L dev (fuel + 1) st nextCap hptr] at hk
      rcases (probeExtended_frame L dev st nextCap).2.2.2.1 with e | e
      · rw [e] at hk; exact Or.inl hk
      · rw [e] at hk
        rcases List.mem_append.mp hk with h | h
        · exact Or.inl h
        · right; simp at h; subst h; simp [capKinds]
    · by_cases hrc : dev.rc st.calls (hdrRequest (REGMASK (nextCap >>> 8) 1)) < 0
      · rw [capWalk_read_failed L dev fuel st nextCap hptr hrc] at hk
        exact Or.inl hk
      · cases hdec : decodeCapId L
            (dev.data st.calls (hdrRequest (REGMASK (nextCap >>> 8) 1)) 0 % 256) with
        | none =>
          rw [capWalk_unknown_id L dev fuel st nextCap hptr (by omega) hdec] at hk
          exact Or.inl hk
        | some p =>
          obtain ⟨kind, capIdx⟩ := p
          rw [capWalk_header L dev fuel st nextCap kind capIdx hptr (by omega) hdec] at hk
          obtain ⟨_, hK, _⟩ := decodeCapId_anchor L _ kind capIdx hdec
          rcases ih _ _ k hk with h | h
          · have h2 : k ∈ st.mPciCap ++ [kind] := h
            rcases List.mem_append.mp h2 with h3 | h3
            · exact Or.inl h3
            · right; simp at h3; subst h3; exact hK
          · exact Or.inr h

theorem discover_caps (L : RegLayout) (dev : Device) (fuel : Nat) (st : Registers)
    (work nextCap : Nat) :
    ∀ k ∈ (DiscoverPciCapabilities L dev fuel st work nextCap).st.mPciCap, k ∈ capKinds := by
  have f1 := ReadPciSpc_frame dev { st with mPciCap := [] } L.PCISPC_STS work
  have f2 := ReadPciSpc_frame dev
    (ReadPciSpc dev { st with mPciCap := [] } L.PCISPC_STS work).st L.PCISPC_CAP nextCap
  have e1 : (ReadPciSpc dev { st with mPciCap := [] } L.PCISPC_STS work).st.mPciCap = [] :=
    f1.2.2.1
  have e2 : (ReadPciSpc dev (ReadPciSpc dev { st with mPciCap := [] } L.PCISPC_STS work).st
      L.PCISPC_CAP nextCap).st.mPciCap = [] := f2.2.2.1.trans f1.2.2.1
  intro k hk
  unfold DiscoverPciCapabilities at hk
  simp only at hk
  split at hk
  · rw [e1] at hk; cases hk
  · split at hk
    · rw [e1] at hk; cases hk
    · split at hk
      · rw [e2] at hk; cases hk
      · rcases capWalk_caps L dev fuel _ _ k hk with h | h
        · rw [e2] at h; cases h
        · exact h

/-- C19: for every device, every bound on the walk and every starting
table (whose anchor rows and `AERUCES .. AERTLP` rows are owned by their
kinds), discovery leaves the control-space table alone, keeps owning
capability, size, revision and description of every configuration-space row,
and keeps the offset of every always-present register and of every register
owned by a capability that the run did not record. -/
theorem discovery_changes_only_recorded_offsets (L : RegLayout) (dev : Device) (fuel : Nat)
    (st : Registers) (work nextCap : Nat) (hown : AnchorsOwned L st.mPciSpcMetrics) :
    (DiscoverPciCapabilities L dev fuel st work nextCap).st.mCtlSpcMetrics
      = st.mCtlSpcMetrics ∧
    (∀ j, ((DiscoverPciCapabilities L dev fuel st work nextCap).st.mPciSpcMetrics j).cap
        = (st.mPciSpcMetrics j).cap ∧
      ((DiscoverPciCapabilities L dev fuel st work nextCap).st.mPciSpcMetrics j).size
        = (st.mPciSpcMetrics j).size ∧
      ((DiscoverPciCapabilities L dev fuel st work nextCap).st.mPciSpcMetrics j).specRev
        = (st.mPciSpcMetrics j).specRev ∧
      ((DiscoverPciCapabilities L dev fuel st work nextCap).st.mPciSpcMetrics j).desc
        = (st.mPciSpcMetrics j).desc) ∧
    (∀ j, j < L.PCISPC_FENCE → (st.mPciSpcMetrics j).cap = PCICAP_FENCE →
      ((DiscoverPciCapabilities L dev fuel st work nextCap).st.mPciSpcMetrics j).offset
        = (st.mPciSpcMetrics j).offset) ∧
    (∀ j, j < L.PCISPC_FENCE →
      (st.mPciSpcMetrics j).cap
        ∉ (DiscoverPciCapabilities L dev fuel st work nextCap).st.mPciCap →
      ((DiscoverPciCapabilities L dev fuel st work nextCap).st.mPciSpcMetrics j).offset
        = (st.mPciSpcMetrics j).offset) := by
  obtain ⟨h1, _, h3, h4⟩ := discover_frame L dev fuel st work nextCap hown
  refine ⟨h1, h3, fun j hj hc => ?_, fun j hj hc => by rw [h4 j hj hc]⟩
  rw [h4 j hj]
  intro hin
  have := discover_caps L dev fuel st work nextCap _ hin
  rw [hc] at this
  simp [capKinds] at this

/-- Witness of C19: the sample table and the PMCAP → MSICAP device. -/
theorem discovery_changes_only_recorded_offsets_witness :
    AnchorsOwned sampleLayout (sampleSession 0).mPciSpcMetrics ∧
    ((DiscoverPciCapabilities sampleLayout pmMsiDevice 8 (sampleSession 0) 0
        0).st.mCtlSpcMetrics = (sampleSession 0).mCtlSpcMetrics ∧
     (∀ j, ((DiscoverPciCapabilities sampleLayout pmMsiDevice 8 (sampleSession 0) 0
          0).st.mPciSpcMetrics j).cap = ((sampleSession 0).mPciSpcMetrics j).cap ∧
       ((DiscoverPciCapabilities sampleLayout pmMsiDevice 8 (sampleSession 0) 0
          0).st.mPciSpcMetrics j).size = ((sampleSession 0).mPciSpcMetrics j).size ∧
       ((DiscoverPciCapabilities sampleLayout pmMsiDevice 8 (sampleSession 0) 0
          0).st.mPciSpcMetrics j).specRev = ((sampleSession 0).mPciSpcMetrics j).specRev ∧
       ((DiscoverPciCapabilities sampleLayout pmMsiDevice 8 (sampleSession 0) 0
          0).st.mPciSpcMetrics j).desc = ((sampleSession 0).mPciSpcMetrics j).desc) ∧
     (∀ j, j < sampleLayout.PCISPC_FENCE →
       ((sampleSession 0).mPciSpcMetrics j).cap = PCICAP_FENCE →
       ((DiscoverPciCapabilities sampleLayout pmMsiDevice 8 (sampleSession 0) 0
          0).st.mPciSpcMetrics j).offset = ((sampleSession 0).mPciSpcMetrics j).offset) ∧
     (∀ j, j < sampleLayout.PCISPC_FENCE →
       ((sampleSession 0).mPciSpcMetrics j).cap
         ∉ (DiscoverPciCapabilities sampleLayout pmMsiDevice 8 (sampleSession 0) 0
            0).st.mPciCap →
       ((DiscoverPciCapabilities sampleLayout pmMsiDevice 8 (sampleSession 0) 0
          0).st.mPciSpcMetrics j).offset = ((sampleSession 0).mPciSpcMetrics j).offset)) :=
  ⟨by decide,
   discovery_changes_only_recorded_offsets sampleLayout pmMsiDevice 8 (sampleSession 0) 0 0
    (by decide)⟩

/-! ### The reads of a discovery run -/

/-- C20 as stated fails: the device holds a one-header list (PMCAP at 0x40,
next pointer 0) behind its pointer register, but its status register reads
with the capabilities-list bit clear; discovery issues one read, not
1 + 3. -/
theorem chain_reads_need_status_bit :
    CapChain quietListDevice [(0x40, 0x01)] 0 ∧
    (ReadPciSpc quietListDevice (sampleSession 0) sampleLayout.PCISPC_CAP 0).value
      = firstPtr [(0x40, 0x01)] 0 ∧
    (∀ h ∈ [((0x40 : Nat), (0x01 : Nat))], (decodeCapId sampleLayout h.2).isSome = true) ∧
    (DiscoverPciCapabilities sampleLayout quietListDevice 8 (sampleSession 0) 0 0).st.calls
      = [pciReadRequest (sampleSession 0) sampleLayout.PCISPC_STS] ∧
    (DiscoverPciCapabilities sampleLayout quietListDevice 8 (sampleSession 0) 0
      0).st.calls.length ≠ (sampleSession 0).calls.length + ([(0x40, 0x01)].length + 3) :=
  ⟨⟨by decide, by decide, fun _ => ⟨le_refl _, rfl, rfl⟩, trivial⟩, by decide, by decide,
    by decide, by decide⟩

/-- C20, amended: the status register is read with the capabilities-list
bit set, the pointer register is read and holds the offset of the first
header, and the device holds `n` headers with recognised IDs as a linked list
ending in next pointer 0. Then for every bound of at least `n` iterations
discovery ends in the extended probe, and the calls it issued are, in this
order, the status read, the pointer read, one 4-byte read per header at that
header's offset and one 4-byte read at 0x100: `n + 3` calls, none a write. -/
theorem chain_discovery_reads (L : RegLayout) (dev : Device) (fuel : Nat) (st : Registers)
    (work nextCap : Nat) (hdrs : List (Nat × Nat))
    (hsts : (statusRead L dev st work).ok = true)
    (hbit : (statusRead L dev st work).value &&& L.STS_CL ≠ 0)
    (hcap : (capPtrRead L dev st work nextCap).ok = true)
    (hptr : (capPtrRead L dev st work nextCap).value = firstPtr hdrs 0)
    (hchain : CapChain dev hdrs 0)
    (hrec : ∀ h ∈ hdrs, (decodeCapId L h.2).isSome = true)
    (hfuel : hdrs.length ≤ fuel) :
    ((DiscoverPciCapabilities L dev fuel st work nextCap).exit = DiscoverExit.completed ∨
     (DiscoverPciCapabilities L dev fuel st work nextCap).exit = DiscoverExit.extReadFailed ∨
     (DiscoverPciCapabilities L dev fuel st work nextCap).exit
       = DiscoverExit.unknownExtCapId) ∧
    (DiscoverPciCapabilities L dev fuel st work nextCap).st.calls
      = st.calls ++ ([pciReadRequest st L.PCISPC_STS, pciReadRequest st L.PCISPC_CAP]
          ++ hdrs.map (fun h => hdrRequest h.1) ++ [hdrRequest 0x100]) ∧
    (DiscoverPciCapabilities L dev fuel st work nextCap).st.calls.length
      = st.calls.length + (hdrs.length + 3) ∧
    ∀ c ∈ [pciReadRequest st L.PCISPC_STS, pciReadRequest st L.PCISPC_CAP]
        ++ hdrs.map (fun h => hdrRequest h.1) ++ [hdrRequest 0x100], c.isWrite = false := by
  obtain ⟨_, _, _, _, t5⟩ := capPtrRead_state L dev st work nextCap hsts hcap
  obtain ⟨fuel2, hf2⟩ : ∃ f, fuel = f + hdrs.length := ⟨fuel - hdrs.length, by omega⟩
  have hlt := firstPtr_lt dev hdrs 0 hchain (by decide)
  obtain ⟨nc2, hq2, hwalk⟩ := capWalk_chain L dev 0 hdrs fuel2
    (capPtrRead L dev st work nextCap).st
    (((capPtrRead L dev st work nextCap).value <<< 8) % 2 ^ 64) hchain hrec
    (by rw [hptr]; exact shifted_pointer _ hlt)
  obtain ⟨_, l2, _, _⟩ := recordChain_lists L hdrs (capPtrRead L dev st work nextCap).st hrec
  have hcalls : (DiscoverPciCapabilities L dev fuel st work nextCap).st.calls
      = st.calls ++ ([pciReadRequest st L.PCISPC_STS, pciReadRequest st L.PCISPC_CAP]
          ++ hdrs.map (fun h => hdrRequest h.1) ++ [hdrRequest 0x100]) := by
    rw [discover_walk L dev fuel st work nextCap hsts hbit hcap, hf2, hwalk,
      capWalk_done L dev fuel2 _ nc2 hq2, (probeExtended_frame L dev _ nc2).1, l2, t5]
    simp
  refine ⟨?_, hcalls, ?_, ?_⟩
  · rw [discover_walk L dev fuel st work nextCap hsts hbit hcap, hf2, hwalk,
      capWalk_done L dev fuel2 _ nc2 hq2]
    exact probeExtended_exit L dev _ nc2
  · rw [hcalls]
    simp
  · intro c hc
    simp only [List.mem_append, List.mem_cons, List.mem_map, List.mem_singleton,
      List.not_mem_nil, or_false] at hc
    rcases hc with ((h | h) | ⟨a, _, h⟩) | h
    · rw [h]; rfl
    · rw [h]; rfl
    · rw [← h]; rfl
    · rw [h]; rfl

/-- Witness of the amended C20: PMCAP at 0x40, MSICAP at 0x50, terminator;
five reads. -/
theorem chain_discovery_reads_witness :
    (DiscoverPciCapabilities sampleLayout pmMsiDevice 8 (sampleSession 0) 0 0).st.calls.length
      = (sampleSession 0).calls.length + ([(0x40, 0x01), (0x50, 0x05)].length + 3) :=
  (chain_discovery_reads sampleLayout pmMsiDevice 8 (sampleSession 0) 0 0
    [(0x40, 0x01), (0x50, 0x05)] (by decide) (by decide) (by decide) (by decide)
    ⟨by decide, by decide, fun _ => ⟨le_refl _, rfl, rfl⟩, by decide, by decide,
      fun _ => ⟨le_refl _, rfl, rfl⟩, trivial⟩
    (by decide) (by decide)).2.2.1

/-! ### The raw-buffer overloads -/

/-- C18: for every space, byte count and offset (counts above 8 and the
sentinel offset included) the raw-buffer `Read` and `Write` append exactly one
request with those parameters to the log of device calls, return success
exactly when that call returns a non-negative status, and hand back the buffer
as the driver call left it: after a successful read the first `rsize` bytes
are the bytes delivered, unmasked, and a write leaves the buffer as it was. -/
theorem raw_access_is_one_unchecked_call (dev : Device) (st : Registers)
    (regSpc : nvme_io_space) (rsize roffset : Nat) (value : List Nat) :
    (ReadRaw dev st regSpc rsize roffset value).st.calls = st.calls ++
      [{ isWrite := false, type := regSpc, offset := roffset, nBytes := rsize, data := [] }] ∧
    ((ReadRaw dev st regSpc rsize roffset value).ok = true ↔
      0 ≤ dev.rc st.calls
        { isWrite := false, type := regSpc, offset := roffset, nBytes := rsize, data := [] }) ∧
    (ReadRaw dev st regSpc rsize roffset value).buf
      = (ioctlReadBytes dev st
          { isWrite := false, type := regSpc, offset := roffset, nBytes := rsize, data := [] }
          value).buf ∧
    ((ReadRaw dev st regSpc rsize roffset value).ok = true →
      (ReadRaw dev st regSpc rsize roffset value).buf
        = (List.range rsize).map (fun i => dev.data st.calls
            { isWrite := false, type := regSpc, offset := roffset, nBytes := rsize, data := [] }
            i % 256) ++ value.drop rsize) ∧
    (WriteRaw dev st regSpc rsize roffset value).st.calls = st.calls ++
      [{ isWrite := true, type := regSpc, offset := roffset, nBytes := rsize,
         data := value.take rsize }] ∧
    ((WriteRaw dev st regSpc rsize roffset value).ok = true ↔
      0 ≤ dev.rc st.calls
        { isWrite := true, type := regSpc, offset := roffset, nBytes := rsize,
          data := value.take rsize }) ∧
    (WriteRaw dev st regSpc rsize roffset value).buf = value := by
  refine ⟨?_, ?_, ?_, ?_, ?_, ?_, ?_⟩
  · by_cases h : dev.rc st.calls
        { isWrite := false, type := regSpc, offset := roffset, nBytes := rsize, data := [] } < 0
    · simp [ReadRaw, ioctlReadBytes, h]
    · simp [ReadRaw, ioctlReadBytes, h]
  · by_cases h : dev.rc st.calls
        { isWrite := false, type := regSpc, offset := roffset, nBytes := rsize, data := [] } < 0
    · simp [ReadRaw, ioctlReadBytes, h]
    · simp [ReadRaw, ioctlReadBytes, h]; omega
  · by_cases h : dev.rc st.calls
        { isWrite := false, type := regSpc, offset := roffset, nBytes := rsize, data := [] } < 0
    · simp [ReadRaw, ioctlReadBytes, h]
    · simp [ReadRaw, ioctlReadBytes, h]
  · by_cases h : dev.rc st.calls
        { isWrite := false, type := regSpc, offset := roffset, nBytes := rsize, data := [] } < 0
    · simp [ReadRaw, ioctlReadBytes, h]
    · simp [ReadRaw, ioctlReadBytes, h]
  · by_cases h : dev.rc st.calls
        { isWrite := true, type := regSpc, offset := roffset, nBytes := rsize,
          data := value.take rsize } < 0
    · simp [WriteRaw, ioctlWriteBytes, h]
    · simp [WriteRaw, ioctlWriteBytes, h]
  · by_cases h : dev.rc st.calls
        { isWrite := true, type := regSpc, offset := roffset, nBytes := rsize,
          data := value.take rsize } < 0
    · simp [WriteRaw, ioctlWriteBytes, h]
    · simp [WriteRaw, ioctlWriteBytes, h]; omega
  · by_cases h : dev.rc st.calls
        { isWrite := true, type := regSpc, offset := roffset, nBytes := rsize,
          data := value.take rsize } < 0
    · simp [WriteRaw, ioctlWriteBytes, h]
    · simp [WriteRaw, ioctlWriteBytes, h]

/-! ### Two discovery runs against the same device contents -/

theorem row_ext (r s : PciSpcType) (h1 : r.cap = s.cap) (h2 : r.specRev = s.specRev)
    (h3 : r.offset = s.offset) (h4 : r.size = s.size) (h5 : r.desc = s.desc) : r = s := by
  cases r
  cases s
  simp_all

theorem SameShape_symm_trans (t t2 t3 : Nat → PciSpcType) (h1 : SameShape t t2)
    (h2 : SameShape t t3) : SameShape t2 t3 := by
  intro j
  obtain ⟨a1, a2, a3, a4⟩ := h1 j
  obtain ⟨b1, b2, b3, b4⟩ := h2 j
  exact ⟨b1.trans a1.symm, b2.trans a2.symm, b3.trans a3.symm, b4.trans a4.symm⟩

theorem recordCap_shape (L : RegLayout) (st : Registers) (kind : PciCapabilities)
    (capIdx capOffset : Nat) :
    SameShape st.mPciSpcMetrics (recordCap L st kind capIdx capOffset).mPciSpcMetrics := by
  intro j
  have h := recordCap_row_fields L st kind capIdx capOffset j
  exact ⟨h.1, h.2.1, h.2.2.1, h.2.2.2⟩

theorem recordCap_unwritten (L : RegLayout) (st : Registers) (kind : PciCapabilities)
    (capIdx capOffset j : Nat) (hj : j ≠ capIdx)
    (hw : ¬ (capIdx < j ∧ j < L.PCISPC_FENCE ∧ (st.mPciSpcMetrics j).cap = kind)) :
    (recordCap L st kind capIdx capOffset).mPciSpcMetrics j = st.mPciSpcMetrics j := by
  by_cases hc : (st.mPciSpcMetrics j).cap = kind
  · have hr : ¬ (capIdx < j ∧ j < L.PCISPC_FENCE) := fun h => hw ⟨h.1, h.2, hc⟩
    show fixupFrom kind _ _ (setOffset st.mPciSpcMetrics capIdx capOffset) j = _
    rw [fixupFrom_outside _ _ _ _ _ (by omega), setOffset_ne _ _ _ _ hj]
  · exact recordCap_row_other L st kind capIdx capOffset j hc hj

theorem recordCap_written_congr (L : RegLayout) (stA stB : Registers) (K : PciCapabilities)
    (o : Nat) (hsh : SameShape stA.mPciSpcMetrics stB.mPciSpcMetrics)
    (hc : Contiguous L stA.mPciSpcMetrics) (hK : K ∈ capKinds) :
    ∀ d, anchorOf L K + d < L.PCISPC_FENCE →
      (stA.mPciSpcMetrics (anchorOf L K + d)).cap = K →
      (recordCap L stA K (anchorOf L K) o).mPciSpcMetrics (anchorOf L K + d)
        = (recordCap L stB K (anchorOf L K) o).mPciSpcMetrics (anchorOf L K + d) := by
  intro d
  induction d with
  | zero =>
    intro _ _
    have fA := recordCap_row_fields L stA K (anchorOf L K) o (anchorOf L K)
    have fB := recordCap_row_fields L stB K (anchorOf L K) o (anchorOf L K)
    have s := hsh (anchorOf L K)
    rw [Nat.add_zero]
    apply row_ext
    · rw [fA.1, fB.1, s.1]
    · rw [fA.2.2.1, fB.2.2.1, s.2.2.1]
    · rw [recordCap_anchor_offset, recordCap_anchor_offset]
    · rw [fA.2.1, fB.2.1, s.2.1]
    · rw [fA.2.2.2, fB.2.2.2, s.2.2.2]
  | succ d ih =>
    intro hlt hcap
    obtain ⟨hai, hprev⟩ := hc.2 K hK (anchorOf L K + (d + 1)) hlt hcap (by omega)
    have hpe : anchorOf L K + (d + 1) - 1 = anchorOf L K + d := by omega
    rw [hpe] at hprev
    have ihd := ih (by omega) hprev
    have fA := recordCap_row_fields L stA K (anchorOf L K) o (anchorOf L K + (d + 1))
    have fB := recordCap_row_fields L stB K (anchorOf L K) o (anchorOf L K + (d + 1))
    have s := hsh (anchorOf L K + (d + 1))
    apply row_ext
    · rw [fA.1, fB.1, s.1]
    · rw [fA.2.2.1, fB.2.2.1, s.2.2.1]
    · rw [recordCap_row_offset L stA K (anchorOf L K) o _ hai hlt hcap,
        recordCap_row_offset L stB K (anchorOf L K) o _ hai hlt (by rw [s.1]; exact hcap)]
      unfold nextOffset
      rw [hpe, ihd]
    · rw [fA.2.1, fB.2.1, s.2.1]
    · rw [fA.2.2.2, fB.2.2.2, s.2.2.2]

theorem recordCap_rows_agree (L : RegLayout) (stA stB : Registers) (tA tB : Nat → PciSpcType)
    (K : PciCapabilities) (o : Nat)
    (hsh : SameShape stA.mPciSpcMetrics stB.mPciSpcMetrics)
    (hc : Contiguous L stA.mPciSpcMetrics) (hK : K ∈ capKinds)
    (hrows : RowsAgree tA tB stA.mPciSpcMetrics stB.mPciSpcMetrics) :
    RowsAgree tA tB (recordCap L stA K (anchorOf L K) o).mPciSpcMetrics
      (recordCap L stB K (anchorOf L K) o).mPciSpcMetrics := by
  intro j
  by_cases hw : j = anchorOf L K ∨
      (anchorOf L K < j ∧ j < L.PCISPC_FENCE ∧ (stA.mPciSpcMetrics j).cap = K)
  · left
    have hanchor := hc.1.1 K hK
    obtain ⟨d, hd⟩ : ∃ d, j = anchorOf L K + d := by
      rcases hw with h | h
      · exact ⟨0, by omega⟩
      · exact ⟨j - anchorOf L K, by omega⟩
    subst hd
    apply recordCap_written_congr L stA stB K o hsh hc hK d
    · rcases hw with h | h
      · omega
      · exact h.2.1
    · rcases hw with h | h
      · rw [h]; exact hanchor.2
      · exact h.2.2
  · have h1 : j ≠ anchorOf L K := fun e => hw (Or.inl e)
    have h2 : ¬ (anchorOf L K < j ∧ j < L.PCISPC_FENCE ∧ (stA.mPciSpcMetrics j).cap = K) :=
      fun e => hw (Or.inr e)
    have h3 : ¬ (anchorOf L K < j ∧ j < L.PCISPC_FENCE ∧ (stB.mPciSpcMetrics j).cap = K) := by
      rw [(hsh j).1]; exact h2
    rw [recordCap_unwritten L stA K (anchorOf L K) o j h1 h2,
      recordCap_unwritten L stB K (anchorOf L K) o j h1 h3]
    exact hrows j

theorem chainFrom_shape (n i : Nat) (t : Nat → PciSpcType) (a off : Nat) :
    SameShape t (chainFrom n i (setOffset t a off)) := by
  intro j
  have h1 := chainFrom_fields n i (setOffset t a off) j
  have h2 := setOffset_fields t a off j
  exact ⟨h1.1.trans h2.1, h1.2.1.trans h2.2.1, h1.2.2.1.trans h2.2.2.1, h1.2.2.2.trans h2.2.2.2⟩

theorem chainFrom_written_congr (n a off : Nat) (tA tB : Nat → PciSpcType)
    (hsh : SameShape tA tB) :
    ∀ d, a + d < a + 1 + n →
      chainFrom n (a + 1) (setOffset tA a off) (a + d)
        = chainFrom n (a + 1) (setOffset tB a off) (a + d) := by
  intro d
  induction d with
  | zero =>
    intro _
    simp only [Nat.add_zero]
    rw [chainFrom_outside _ _ _ _ (by omega), chainFrom_outside _ _ _ _ (by omega),
      setOffset_same, setOffset_same]
    have s := hsh a
    exact row_ext _ _ s.1.symm s.2.2.1.symm rfl s.2.1.symm s.2.2.2.symm
  | succ d ih =>
    intro hlt
    have ihd := ih (by omega)
    have sA := chainFrom_shape n (a + 1) tA a off (a + (d + 1))
    have sB := chainFrom_shape n (a + 1) tB a off (a + (d + 1))
    have s := hsh (a + (d + 1))
    have hpe : a + (d + 1) - 1 = a + d := by omega
    apply row_ext
    · rw [sA.1, sB.1, s.1]
    · rw [sA.2.2.1, sB.2.2.1, s.2.2.1]
    · rw [chainFrom_offset n (a + 1) _ _ (by omega) (by omega) (by omega),
        chainFrom_offset n (a + 1) _ _ (by omega) (by omega) (by omega)]
      unfold nextOffset
      rw [hpe, ihd]
    · rw [sA.2.1, sB.2.1, s.2.1]
    · rw [sA.2.2.2, sB.2.2.2, s.2.2.2]

theorem chainFrom_rows_agree (n a off : Nat) (tA tB sA sB : Nat → PciSpcType)
    (hsh : SameShape sA sB) (hrows : RowsAgree tA tB sA sB) :
    RowsAgree tA tB (chainFrom n (a + 1) (setOffset sA a off))
      (chainFrom n (a + 1) (setOffset sB a off)) := by
  intro j
  by_cases hw : a ≤ j ∧ j < a + 1 + n
  · left
    obtain ⟨d, hd⟩ : ∃ d, j = a + d := ⟨j - a, by omega⟩
    subst hd
    exact chainFrom_written_congr n a off sA sB hsh d hw.2
  · rw [chainFrom_outside _ _ _ _ (by omega), chainFrom_outside _ _ _ _ (by omega),
      setOffset_ne _ _ _ _ (by omega), setOffset_ne _ _ _ _ (by omega)]
    exact hrows j

theorem probeExtended_sim (L : RegLayout) (dev : Device) (stA stB : Registers)
    (tA tB : Nat → PciSpcType) (nextCap : Nat) (hstat : StaticDevice dev)
    (haer : L.PCISPC_AERUCES = L.PCISPC_AERID + 1)
    (hsh : SameShape stA.mPciSpcMetrics stB.mPciSpcMetrics)
    (hcaps : stA.mPciCap = stB.mPciCap)
    (hrows : RowsAgree tA tB stA.mPciSpcMetrics stB.mPciSpcMetrics) :
    (probeExtended L dev stA nextCap).exit = (probeExtended L dev stB nextCap).exit ∧
    (probeExtended L dev stA nextCap).st.mPciCap
      = (probeExtended L dev stB nextCap).st.mPciCap ∧
    RowsAgree tA tB (probeExtended L dev stA nextCap).st.mPciSpcMetrics
      (probeExtended L dev stB nextCap).st.mPciSpcMetrics := by
  obtain ⟨hrc, hdata⟩ := hstat stA.calls stB.calls (hdrRequest 0x100)
  by_cases hrcneg : dev.rc stA.calls (hdrRequest 0x100) < 0
  · have hrcB : dev.rc stB.calls (hdrRequest 0x100) < 0 := by rw [← hrc]; exact hrcneg
    simp only [probeExtended, ioctlRead, hrcneg, hrcB, if_true]
    exact ⟨trivial, hcaps, hrows⟩
  · have hrcB : ¬ dev.rc stB.calls (hdrRequest 0x100) < 0 := by rw [← hrc]; exact hrcneg
    have hn : (hdrRequest 0x100).nBytes = 4 := rfl
    by_cases hid : REGMASK (storeLE nextCap 4 (dev.data stA.calls (hdrRequest 0x100))) 2 = 1
    · have hidB : REGMASK (storeLE nextCap 4 (dev.data stB.calls (hdrRequest 0x100))) 2 = 1 := by
        rw [← hdata]; exact hid
      simp only [probeExtended, ioctlRead, hrcneg, hrcB, if_false, hn, hid, hidB, if_true]
      refine ⟨trivial, by rw [hcaps], ?_⟩
      rw [← hdata, haer]
      exact chainFrom_rows_agree _ L.PCISPC_AERID _ tA tB _ _ hsh hrows
    · have hidB : ¬ REGMASK (storeLE nextCap 4 (dev.data stB.calls (hdrRequest 0x100))) 2 = 1 := by
        rw [← hdata]; exact hid
      simp only [probeExtended, ioctlRead, hrcneg, hrcB, if_false, hn, hid, hidB]
      exact ⟨trivial, hcaps, hrows⟩

theorem capWalk_sim (L : RegLayout) (dev : Device) (tA tB : Nat → PciSpcType)
    (hstat : StaticDevice dev) (haer : L.PCISPC_AERUCES = L.PCISPC_AERID + 1) :
    ∀ (fuel : Nat) (stA stB : Registers) (nextCap : Nat),
      SameShape stA.mPciSpcMetrics stB.mPciSpcMetrics →
      Contiguous L stA.mPciSpcMetrics →
      stA.mPciCap = stB.mPciCap →
      RowsAgree tA tB stA.mPciSpcMetrics stB.mPciSpcMetrics →
      (capWalk L dev fuel stA nextCap).exit = (capWalk L dev fuel stB nextCap).exit ∧
      (capWalk L dev fuel stA nextCap).st.mPciCap
        = (capWalk L dev fuel stB nextCap).st.mPciCap ∧
      RowsAgree tA tB (capWalk L dev fuel stA nextCap).st.mPciSpcMetrics
        (capWalk L dev fuel stB nextCap).st.mPciSpcMetrics := by
  intro fuel
  induction fuel with
  | zero =>
    intro stA stB nextCap hsh hc hcaps hrows
    by_cases hptr : REGMASK (nextCap >>> 8) 1 = 0
    · rw [capWalk_done L dev 0 stA nextCap hptr, capWalk_done L dev 0 stB nextCap hptr]
      exact probeExtended_sim L dev stA stB tA tB nextCap hstat haer hsh hcaps hrows
    · rw [capWalk_out_of_fuel L dev stA nextCap hptr, capWalk_out_of_fuel L dev stB nextCap hptr]
      exact ⟨rfl, hcaps, hrows⟩
  | succ fuel ih =>
    intro stA stB nextCap hsh hc hcaps hrows
    by_cases hptr : REGMASK (nextCap >>> 8) 1 = 0
    · rw [capWalk_done L dev (fuel + 1) stA nextCap hptr,
        capWalk_done L dev (fuel + 1) stB nextCap hptr]
      exact probeExtended_sim L dev stA stB tA tB nextCap hstat haer hsh hcaps hrows
    · obtain ⟨hrc, hdata⟩ := hstat stA.calls stB.calls (hdrRequest (REGMASK (nextCap >>> 8) 1))
      by_cases hrcneg : dev.rc stA.calls (hdrRequest (REGMASK (nextCap >>> 8) 1)) < 0
      · rw [capWalk_read_failed L dev fuel stA nextCap hptr hrcneg,
          capWalk_read_failed L dev fuel stB nextCap hptr (by rw [← hrc]; exact hrcneg)]
        exact ⟨rfl, hcaps, hrows⟩
      · cases hdec : decodeCapId L
            (dev.data stA.calls (hdrRequest (REGMASK (nextCap >>> 8) 1)) 0 % 256) with
        | none =>
          rw [capWalk_unknown_id L dev fuel stA nextCap hptr (by omega) hdec,
            capWalk_unknown_id L dev fuel stB nextCap hptr (by rw [← hrc]; omega)
              (by rw [← hdata]; exact hdec)]
          exact ⟨rfl, hcaps, hrows⟩
        | some p =>
          obtain ⟨kind, capIdx⟩ := p
          rw [capWalk_header L dev fuel stA nextCap kind capIdx hptr (by omega) hdec,
            capWalk_header L dev fuel stB nextCap kind capIdx hptr (by rw [← hrc]; omega)
              (by rw [← hdata]; exact hdec)]
          obtain ⟨ha, hK, _⟩ := decodeCapId_anchor L _ kind capIdx hdec
          subst ha
          rw [← hdata]
          have shA := recordCap_shape L
            { stA with calls := stA.calls ++ [hdrRequest (REGMASK (nextCap >>> 8) 1)] } kind
            (anchorOf L kind) (REGMASK (nextCap >>> 8) 1)
          have shB := recordCap_shape L
            { stB with calls := stB.calls ++ [hdrRequest (REGMASK (nextCap >>> 8) 1)] } kind
            (anchorOf L kind) (REGMASK (nextCap >>> 8) 1)
          apply ih
          · exact SameShape_symm_trans _ _ _ shA (fun j => by
              obtain ⟨a1, a2, a3, a4⟩ := shB j
              obtain ⟨b1, b2, b3, b4⟩ := hsh j
              exact ⟨a1.trans b1, a2.trans b2, a3.trans b3, a4.trans b4⟩)
          · exact Contiguous_of_caps L _ _ (fun j => (shA j).1) hc
          · show stA.mPciCap ++ [kind] = stB.mPciCap ++ [kind]
            rw [hcaps]
          · exact recordCap_rows_agree L
              { stA with calls := stA.calls ++ [hdrRequest (REGMASK (nextCap >>> 8) 1)] }
              { stB with calls := stB.calls ++ [hdrRequest (REGMASK (nextCap >>> 8) 1)] }
              tA tB kind (REGMASK (nextCap >>> 8) 1) hsh hc hK hrows

theorem ReadPciSpc_static (dev : Device) (hstat : StaticDevice dev) (sA sB : Registers)
    (reg vA vB : Nat) (hrow : sA.mPciSpcMetrics reg = sB.mPciSpcMetrics reg)
    (hrev : sA.mSpecRev = sB.mSpecRev) :
    (ReadPciSpc dev sA reg vA).ok = (ReadPciSpc dev sB reg vB).ok ∧
    ((ReadPciSpc dev sA reg vA).ok = true →
      (ReadPciSpc dev sA reg vA).value = (ReadPciSpc dev sB reg vB).value) := by
  obtain ⟨hrc, hdata⟩ := hstat sA.calls sB.calls
    { isWrite := false, type := NVMEIO_PCI_HDR, offset := (sB.mPciSpcMetrics reg).offset,
      nBytes := (sB.mPciSpcMetrics reg).size, data := [] }
  unfold ReadPciSpc
  rw [hrow, hrev]
  by_cases h0 : (sB.mPciSpcMetrics reg).specRev ≠ sB.mSpecRev
  · simp [h0]
  · rw [if_neg h0, if_neg h0]
    by_cases h1 : (sB.mPciSpcMetrics reg).offset = INT_MAX
    · simp [Read, h1]
    · by_cases h2 : (sB.mPciSpcMetrics reg).size > MAX_SUPPORTED_REG_SIZE
      · simp [Read, h1, h2]
      · by_cases h3 : dev.rc sA.calls
            { isWrite := false, type := NVMEIO_PCI_HDR,
              offset := (sB.mPciSpcMetrics reg).offset,
              nBytes := (sB.mPciSpcMetrics reg).size, data := [] } < 0
        · have h3B := h3
          rw [hrc] at h3B
          simp [Read, ioctlRead, h1, h2, h3, h3B]
        · have h3B := h3
          rw [hrc] at h3B
          simp only [Read, ioctlRead, h1, h2, h3, h3B, if_false, REGMASK_storeLE, hdata]
          exact ⟨trivial, fun _ => trivial⟩

theorem discover_sts_failed (L : RegLayout) (dev : Device) (fuel : Nat) (st : Registers)
    (work nextCap : Nat) (h : (statusRead L dev st work).ok = false) :
    DiscoverPciCapabilities L dev fuel st work nextCap
      = { st := (statusRead L dev st work).st, exit := DiscoverExit.stsReadFailed } := by
  unfold statusRead at *
  simp only [DiscoverPciCapabilities, h, if_true]

theorem discover_no_list (L : RegLayout) (dev : Device) (fuel : Nat) (st : Registers)
    (work nextCap : Nat) (h : (statusRead L dev st work).ok = true)
    (hbit : (statusRead L dev st work).value &&& L.STS_CL = 0) :
    DiscoverPciCapabilities L dev fuel st work nextCap
      = { st := (statusRead L dev st work).st, exit := DiscoverExit.noCapList } := by
  unfold statusRead at *
  simp only [DiscoverPciCapabilities, h, hbit, if_true, Bool.true_eq_false, if_false]

theorem discover_cap_failed (L : RegLayout) (dev : Device) (fuel : Nat) (st : Registers)
    (work nextCap : Nat) (h : (statusRead L dev st work).ok = true)
    (hbit : (statusRead L dev st work).value &&& L.STS_CL ≠ 0)
    (hcap : (capPtrRead L dev st work nextCap).ok = false) :
    DiscoverPciCapabilities L dev fuel st work nextCap
      = { st := (capPtrRead L dev st work nextCap).st, exit := DiscoverExit.capReadFailed } := by
  unfold capPtrRead statusRead at *
  simp only [DiscoverPciCapabilities, h, hbit, hcap, if_true, Bool.true_eq_false, if_false]

theorem discover_sim (L : RegLayout) (dev : Device) (fuel : Nat) (sA sB : Registers)
    (wA nA wB nB : Nat) (hstat : StaticDevice dev)
    (haer : L.PCISPC_AERUCES = L.PCISPC_AERID + 1)
    (hsh : SameShape sA.mPciSpcMetrics sB.mPciSpcMetrics)
    (hc : Contiguous L sA.mPciSpcMetrics) (hrev : sA.mSpecRev = sB.mSpecRev)
    (hsts : sA.mPciSpcMetrics L.PCISPC_STS = sB.mPciSpcMetrics L.PCISPC_STS)
    (hcap : sA.mPciSpcMetrics L.PCISPC_CAP = sB.mPciSpcMetrics L.PCISPC_CAP) :
    (DiscoverPciCapabilities L dev fuel sA wA nA).exit
      = (DiscoverPciCapabilities L dev fuel sB wB nB).exit ∧
    (DiscoverPciCapabilities L dev fuel sA wA nA).st.mPciCap
      = (DiscoverPciCapabilities L dev fuel sB wB nB).st.mPciCap ∧
    RowsAgree sA.mPciSpcMetrics sB.mPciSpcMetrics
      (DiscoverPciCapabilities L dev fuel sA wA nA).st.mPciSpcMetrics
      (DiscoverPciCapabilities L dev fuel sB wB nB).st.mPciSpcMetrics := by
  have fA := ReadPciSpc_frame dev { sA with mPciCap := [] } L.PCISPC_STS wA
  have fB := ReadPciSpc_frame dev { sB with mPciCap := [] } L.PCISPC_STS wB
  have gA := ReadPciSpc_frame dev (statusRead L dev sA wA).st L.PCISPC_CAP nA
  have gB := ReadPciSpc_frame dev (statusRead L dev sB wB).st L.PCISPC_CAP nB
  have tA1 : (statusRead L dev sA wA).st.mPciSpcMetrics = sA.mPciSpcMetrics := fA.1
  have tB1 : (statusRead L dev sB wB).st.mPciSpcMetrics = sB.mPciSpcMetrics := fB.1
  have cA1 : (statusRead L dev sA wA).st.mPciCap = [] := fA.2.2.1
  have cB1 : (statusRead L dev sB wB).st.mPciCap = [] := fB.2.2.1
  have rA1 : (statusRead L dev sA wA).st.mSpecRev = sA.mSpecRev := fA.2.2.2
  have rB1 : (statusRead L dev sB wB).st.mSpecRev = sB.mSpecRev := fB.2.2.2
  have tA2 : (capPtrRead L dev sA wA nA).st.mPciSpcMetrics = sA.mPciSpcMetrics :=
    gA.1.trans tA1
  have tB2 : (capPtrRead L dev sB wB nB).st.mPciSpcMetrics = sB.mPciSpcMetrics :=
    gB.1.trans tB1
  have cA2 : (capPtrRead L dev sA wA nA).st.mPciCap = [] := gA.2.2.1.trans cA1
  have cB2 : (capPtrRead L dev sB wB nB).st.mPciCap = [] := gB.2.2.1.trans cB1
  have hkeep : RowsAgree sA.mPciSpcMetrics sB.mPciSpcMetrics sA.mPciSpcMetrics
      sB.mPciSpcMetrics := fun j => Or.inr ⟨rfl, rfl⟩
  obtain ⟨ok1, val1⟩ : (statusRead L dev sA wA).ok = (statusRead L dev sB wB).ok ∧
      ((statusRead L dev sA wA).ok = true →
        (statusRead L dev sA wA).value = (statusRead L dev sB wB).value) :=
    ReadPciSpc_static dev hstat { sA with mPciCap := [] } { sB with mPciCap := [] }
      L.PCISPC_STS wA wB hsts hrev
  obtain ⟨ok2, val2⟩ : (capPtrRead L dev sA wA nA).ok = (capPtrRead L dev sB wB nB).ok ∧
      ((capPtrRead L dev sA wA nA).ok = true →
        (capPtrRead L dev sA wA nA).value = (capPtrRead L dev sB wB nB).value) :=
    ReadPciSpc_static dev hstat (statusRead L dev sA wA).st (statusRead L dev sB wB).st
      L.PCISPC_CAP nA nB (by rw [tA1, tB1]; exact hcap) (by rw [rA1, rB1]; exact hrev)
  by_cases h1 : (statusRead L dev sA wA).ok = true
  · have h1B : (statusRead L dev sB wB).ok = true := by rw [← ok1]; exact h1
    have hv1 := val1 h1
    by_cases hbit : (statusRead L dev sA wA).value &&& L.STS_CL = 0
    · rw [discover_no_list L dev fuel sA wA nA h1 hbit,
        discover_no_list L dev fuel sB wB nB h1B (by rw [← hv1]; exact hbit)]
      refine ⟨rfl, by rw [cA1, cB1], ?_⟩
      show RowsAgree _ _ (statusRead L dev sA wA).st.mPciSpcMetrics
        (statusRead L dev sB wB).st.mPciSpcMetrics
      rw [tA1, tB1]
      exact hkeep
    · have hbitB : (statusRead L dev sB wB).value &&& L.STS_CL ≠ 0 := by
        rw [← hv1]; exact hbit
      by_cases h2 : (capPtrRead L dev sA wA nA).ok = true
      · have h2B : (capPtrRead L dev sB wB nB).ok = true := by rw [← ok2]; exact h2
        rw [discover_walk L dev fuel sA wA nA h1 hbit h2,
          discover_walk L dev fuel sB wB nB h1B hbitB h2B, ← val2 h2]
        have := capWalk_sim L dev sA.mPciSpcMetrics sB.mPciSpcMetrics hstat haer fuel
          (capPtrRead L dev sA wA nA).st (capPtrRead L dev sB wB nB).st
          (((capPtrRead L dev sA wA nA).value <<< 8) % 2 ^ 64)
          (by rw [tA2, tB2]; exact hsh) (by rw [tA2]; exact hc) (by rw [cA2, cB2])
          (by rw [tA2, tB2]; exact hkeep)
        exact this
      · have h2f : (capPtrRead L dev sA wA nA).ok = false := by
          simpa using h2
        have h2B : (capPtrRead L dev sB wB nB).ok = false := by rw [← ok2]; exact h2f
        rw [discover_cap_failed L dev fuel sA wA nA h1 hbit h2f,
          discover_cap_failed L dev fuel sB wB nB h1B hbitB h2B]
        refine ⟨rfl, by rw [cA2, cB2], ?_⟩
        show RowsAgree _ _ (capPtrRead L dev sA wA nA).st.mPciSpcMetrics
          (capPtrRead L dev sB wB nB).st.mPciSpcMetrics
        rw [tA2, tB2]
        exact hkeep
  · have h1f : (statusRead L dev sA wA).ok = false := by simpa using h1
    have h1B : (statusRead L dev sB wB).ok = false := by rw [← ok1]; exact h1f
    rw [discover_sts_failed L dev fuel sA wA nA h1f, discover_sts_failed L dev fuel sB wB nB h1B]
    refine ⟨rfl, by rw [cA1, cB1], ?_⟩
    show RowsAgree _ _ (statusRead L dev sA wA).st.mPciSpcMetrics
      (statusRead L dev sB wB).st.mPciSpcMetrics
    rw [tA1, tB1]
    exact hkeep

/-- C21: against a device with fixed contents, and for a table in which the
registers of each capability are contiguous (the status and pointer registers
being always-present rows and `AERUCES` the row after `AERID`), a second
discovery run started from the state the first run left ends with the same
exit, the same capability list and the same configuration-space table as the
first run, whatever the bound on the walk and the first content of the
locals. -/
theorem discovery_idempotent (L : RegLayout) (dev : Device) (fuel : Nat) (st : Registers)
    (work nextCap work2 nextCap2 : Nat) (hstat : StaticDevice dev)
    (hcont : Contiguous L st.mPciSpcMetrics)
    (haer : L.PCISPC_AERUCES = L.PCISPC_AERID + 1)
    (hsts : L.PCISPC_STS < L.PCISPC_FENCE ∧
      (st.mPciSpcMetrics L.PCISPC_STS).cap = PCICAP_FENCE)
    (hcap : L.PCISPC_CAP < L.PCISPC_FENCE ∧
      (st.mPciSpcMetrics L.PCISPC_CAP).cap = PCICAP_FENCE) :
    (DiscoverPciCapabilities L dev fuel
        (DiscoverPciCapabilities L dev fuel st work nextCap).st work2 nextCap2).exit
      = (DiscoverPciCapabilities L dev fuel st work nextCap).exit ∧
    (DiscoverPciCapabilities L dev fuel
        (DiscoverPciCapabilities L dev fuel st work nextCap).st work2 nextCap2).st.mPciCap
      = (DiscoverPciCapabilities L dev fuel st work nextCap).st.mPciCap ∧
    (DiscoverPciCapabilities L dev fuel
        (DiscoverPciCapabilities L dev fuel st work nextCap).st work2 nextCap2).st.mPciSpcMetrics
      = (DiscoverPciCapabilities L dev fuel st work nextCap).st.mPciSpcMetrics := by
  obtain ⟨_, f2, f3, f4⟩ := discover_frame L dev fuel st work nextCap hcont.1
  have hfence : ∀ j, j < L.PCISPC_FENCE → (st.mPciSpcMetrics j).cap = PCICAP_FENCE →
      (DiscoverPciCapabilities L dev fuel st work nextCap).st.mPciSpcMetrics j
        = st.mPciSpcMetrics j := by
    intro j hj hc
    apply f4 j hj
    intro hin
    have := discover_caps L dev fuel st work nextCap _ hin
    rw [hc] at this
    simp [capKinds] at this
  obtain ⟨s1, s2, s3⟩ := discover_sim L dev fuel st
    (DiscoverPciCapabilities L dev fuel st work nextCap).st work nextCap work2 nextCap2 hstat
    haer (fun j => ⟨(f3 j).1, (f3 j).2.1, (f3 j).2.2.1, (f3 j).2.2.2⟩) hcont f2.symm
    (hfence _ hsts.1 hsts.2).symm (hfence _ hcap.1 hcap.2).symm
  refine ⟨s1.symm, s2.symm, ?_⟩
  funext j
  rcases s3 j with h | h
  · exact h.symm
  · exact h.2

set_option maxRecDepth 8192 in
/-- Witness of C21: the sample table against the PMCAP → MSICAP device. -/
theorem discovery_idempotent_witness :
    (DiscoverPciCapabilities sampleLayout pmMsiDevice 8
        (DiscoverPciCapabilities sampleLayout pmMsiDevice 8 (sampleSession 0) 0 0).st 5 9).exit
      = (DiscoverPciCapabilities sampleLayout pmMsiDevice 8 (sampleSession 0) 0 0).exit ∧
    (DiscoverPciCapabilities sampleLayout pmMsiDevice 8
        (DiscoverPciCapabilities sampleLayout pmMsiDevice 8 (sampleSession 0) 0 0).st 5
          9).st.mPciCap
      = (DiscoverPciCapabilities sampleLayout pmMsiDevice 8 (sampleSession 0) 0 0).st.mPciCap ∧
    (DiscoverPciCapabilities sampleLayout pmMsiDevice 8
        (DiscoverPciCapabilities sampleLayout pmMsiDevice 8 (sampleSession 0) 0 0).st 5
          9).st.mPciSpcMetrics
      = (DiscoverPciCapabilities sampleLayout pmMsiDevice 8 (sampleSession 0) 0
          0).st.mPciSpcMetrics :=
  discovery_idempotent sampleLayout pmMsiDevice 8 (sampleSession 0) 0 0 5 9
    (fun _ _ _ => ⟨rfl, rfl⟩) (by decide) (by decide) (by decide) (by decide)

/-! ### Waiting with a timeout -/

theorem wait_times_out (clock count : Nat → Nat) (ms numTil initial K : Nat)
    (hnever : ∀ k, count k < numTil) (hK : ms ≤ clock K - initial) :
    ∀ fuel k, k ≤ K → K < k + fuel →
      ∃ r, ReapInquiryWaitSpecify clock count ms numTil initial fuel k = some r ∧
        r.available = false ∧ ms ≤ r.elapsed := by
  intro fuel
  induction fuel with
  | zero => intro k h1 h2; omega
  | succ fuel ih =>
    intro k h1 h2
    have hc : ¬ numTil ≤ count k := by have := hnever k; omega
    by_cases ht : CalcTimeout ms initial (clock k) = true
    · refine ⟨{ available := false, numCE := count k, elapsed := clock k - initial }, ?_, rfl, ?_⟩
      · simp [ReapInquiryWaitSpecify, hc, ht]
      · simpa [CalcTimeout] using ht
    · have hne : k ≠ K := by
        intro e
        apply ht
        rw [e]
        simpa [CalcTimeout] using hK
      obtain ⟨r, hr, h3, h4⟩ := ih (k + 1) (by omega) (by omega)
      refine ⟨r, ?_, h3, h4⟩
      simp only [ReapInquiryWaitSpecify, hc, ht, if_false]
      exact hr

/-- C16: against a producer whose count stays below `numTil` at every poll,
and with a clock that reaches `initial + ms` at some poll `K`, the wait
returns (given more than `K` polls), returns `false`, and the time elapsed at
the return is at least `ms`; and `CalcTimeout` is true exactly when the
elapsed time is at least `ms`. -/
theorem wait_specify_times_out (clock count : Nat → Nat) (ms numTil initial K fuel : Nat)
    (hnever : ∀ k, count k < numTil) (hK : ms ≤ clock K - initial) (hfuel : K < fuel) :
    (∃ r, ReapInquiryWaitSpecify clock count ms numTil initial fuel 0 = some r ∧
      r.available = false ∧ ms ≤ r.elapsed) ∧
    (∀ r fuel2, ReapInquiryWaitSpecify clock count ms numTil initial fuel2 0 = some r →
      r.available = false ∧ ms ≤ r.elapsed) ∧
    ∀ now, CalcTimeout ms initial now = true ↔ ms ≤ now - initial := by
  refine ⟨wait_times_out clock count ms numTil initial K hnever hK fuel 0 (by omega) (by omega),
    ?_, fun now => by simp [CalcTimeout]⟩
  intro r fuel2
  have gen : ∀ f k r, ReapInquiryWaitSpecify clock count ms numTil initial f k = some r →
      r.available = false ∧ ms ≤ r.elapsed := by
    intro f
    induction f with
    | zero => intro k r h; simp [ReapInquiryWaitSpecify] at h
    | succ f ih =>
      intro k r h
      have hc : ¬ numTil ≤ count k := by have := hnever k; omega
      by_cases ht : CalcTimeout ms initial (clock k) = true
      · simp only [ReapInquiryWaitSpecify, hc, ht, if_false, if_true, Option.some.injEq] at h
        subst h
        exact ⟨rfl, by simpa [CalcTimeout] using ht⟩
      · simp only [ReapInquiryWaitSpecify, hc, ht, if_false] at h
        exact ih (k + 1) r h
  exact gen fuel2 0 r

/-- Witness of C16: a producer stuck at 2 of 3 entries, a clock that
advances 10 ms per poll, a timeout of 100 ms. -/
theorem wait_specify_times_out_witness :
    (∃ r, ReapInquiryWaitSpecify (fun k => 10 * k) (fun _ => 2) 100 3 0 20 0 = some r ∧
      r.available = false ∧ 100 ≤ r.elapsed) ∧
    (∀ r fuel2, ReapInquiryWaitSpecify (fun k => 10 * k) (fun _ => 2) 100 3 0 fuel2 0 = some r →
      r.available = false ∧ 100 ≤ r.elapsed) ∧
    ∀ now, CalcTimeout 100 0 now = true ↔ 100 ≤ now - 0 :=
  wait_specify_times_out (fun k => 10 * k) (fun _ => 2) 100 3 0 10 20
    (fun _ => show (2 : Nat) < 3 by decide) (by decide) (by decide)

/-! ### Hexadecimal digits -/

theorem fixedDigits_zero (w : Nat) : fixedDigits w 0 = List.replicate w 0 := by
  induction w with
  | zero => rfl
  | succ w ih => simp [fixedDigits, ih, List.replicate_succ']

theorem fixedDigits_length (w v : Nat) : (fixedDigits w v).length = w := by
  induction w generalizing v with
  | zero => rfl
  | succ w ih => simp [fixedDigits, ih]

theorem fixedDigits_lt (w v : Nat) : ∀ d ∈ fixedDigits w v, d < 16 := by
  induction w generalizing v with
  | zero => intro d hd; simp [fixedDigits] at hd
  | succ w ih =>
    intro d hd
    simp only [fixedDigits, List.mem_append, List.mem_singleton] at hd
    rcases hd with h | h
    · exact ih _ d h
    · omega

theorem hexDigits_pad (w : Nat) :
    ∀ f v, w ≤ f → v < 16 ^ w →
      (hexDigits f v).length ≤ w ∧
      List.replicate (w - (hexDigits f v).length) 0 ++ hexDigits f v = fixedDigits w v := by
  induction w with
  | zero =>
    intro f v _ hv
    have hv0 : v = 0 := by simpa using hv
    subst hv0
    cases f <;> simp [hexDigits, fixedDigits]
  | succ w ih =>
    intro f v hf hv
    cases f with
    | zero => omega
    | succ f =>
      by_cases hv0 : v = 0
      · subst hv0
        simp [hexDigits, fixedDigits_zero]
      · have hdiv : v / 16 < 16 ^ w := by
          rw [pow_succ] at hv
          exact Nat.div_lt_of_lt_mul (by omega)
        obtain ⟨h1, h2⟩ := ih f (v / 16) (by omega) hdiv
        simp only [hexDigits, hv0, if_false, List.length_append, List.length_singleton,
          fixedDigits]
        refine ⟨by omega, ?_⟩
        rw [← h2, List.append_assoc]
        congr 2
        omega

theorem hexDigits_nil (f v : Nat) (h : hexDigits (f + 1) v = []) : v = 0 := by
  by_contra hv
  simp [hexDigits, hv] at h

theorem printfHex_fixed (w v : Nat) (h1 : 1 ≤ w) (h2 : w ≤ 16) (hv : v < 16 ^ w) :
    printfHex w v = fixedHex w v := by
  unfold printfHex fixedHex
  by_cases hnil : hexDigits 16 v = []
  · have hv0 := hexDigits_nil 15 v hnil
    subst hv0
    simp only [hnil, if_true, List.length_singleton, fixedDigits_zero]
    congr 1
    obtain ⟨k, hk⟩ : ∃ k, w = k + 1 := ⟨w - 1, by omega⟩
    subst hk
    simp [List.replicate_succ']
  · obtain ⟨_, h⟩ := hexDigits_pad w 16 v h2 hv
    simp only [hnil, if_false]
    rw [h]

theorem indexOf_hexChar (d : Nat) (hd : d < 16) : upperHexDigits.indexOf (hexChar d) = d := by
  interval_cases d <;> decide

theorem hexChar_mem (d : Nat) (hd : d < 16) : hexChar d ∈ upperHexDigits := by
  interval_cases d <;> decide

theorem hexChar_ne_paren (d : Nat) (hd : d < 16) : hexChar d ≠ Char.ofNat 41 := by
  interval_cases d <;> decide

theorem fixedHex_length (w v : Nat) : (fixedHex w v).length = w := by
  simp [fixedHex, fixedDigits_length]

theorem fixedHex_mem (w v : Nat) : ∀ c ∈ fixedHex w v, c ∈ upperHexDigits := by
  intro c hc
  simp only [fixedHex, List.mem_map] at hc
  obtain ⟨d, hd, rfl⟩ := hc
  exact hexChar_mem d (fixedDigits_lt w v d hd)

theorem hexValue_fixedHex (w v : Nat) : hexValue (fixedHex w v) = v % 16 ^ w := by
  induction w generalizing v with
  | zero => simp [fixedHex, fixedDigits, hexValue, Nat.mod_one]
  | succ w ih =>
    have h := ih (v / 16)
    unfold hexValue fixedHex at h ⊢
    simp only [fixedDigits, List.map_append, List.map_cons, List.map_nil, List.foldl_append,
      List.foldl_cons, List.foldl_nil]
    rw [h, indexOf_hexChar _ (Nat.mod_lt _ (by decide)), pow_succ', Nat.mod_mul]
    omega

theorem sixteen_pow_two_mul (s : Nat) : 16 ^ (2 * s) = 2 ^ (8 * s) := by
  rw [pow_mul, pow_mul]
  norm_num

/-! ### The scalar `FormatRegister` -/

theorem prefix_length : " = 0x".toList.length = 5 := by
  decide

theorem regFmt_fits (s : Nat) (name : List Char) (v : Nat) (h1 : 1 ≤ s) (h8 : s ≤ 8) :
    regFmt s name (REGMASK v s) = name ++ " = 0x".toList ++ fixedHex (2 * s) (v % 2 ^ (8 * s)) := by
  have hs0 : s ≠ 0 := by omega
  have hlt : REGMASK v s < 16 ^ (2 * s) := by
    rw [sixteen_pow_two_mul]; exact REGMASK_lt v s
  simp only [regFmt, hs0, if_false]
  rw [printfHex_fixed (2 * s) (REGMASK v s) (by omega) (by omega) hlt]
  rfl

theorem FormatRegister_fits (s : Nat) (name : List Char) (v : Nat)
    (h1 : 1 ≤ s) (h8 : s ≤ 8) (hfit : name.length + 5 + 2 * s ≤ 79) :
    FormatRegister s name v
      = name ++ " = 0x".toList ++ fixedHex (2 * s) (v % 2 ^ (8 * s)) := by
  have hs : ¬ s > MAX_SUPPORTED_REG_SIZE := by unfold MAX_SUPPORTED_REG_SIZE; omega
  simp only [FormatRegister, hs, if_false, decide_False, snprintf80, Bool.false_eq_true]
  rw [regFmt_fits s name v h1 h8]
  apply List.take_of_length_le
  simp only [List.length_append, fixedHex_length, prefix_length]
  omega

/-- C11 as stated fails: with a description of 80 characters the result is
cut at 79 characters and is not the description followed by `" = 0x"` and two
digits. -/
theorem format_register_long_name_cut :
    1 ≤ 1 ∧ 1 ≤ 8 ∧
    (FormatRegister 1 longDesc 0).length = 79 ∧
    FormatRegister 1 longDesc 0 ≠ longDesc ++ " = 0x".toList ++ fixedHex (2 * 1) (0 % 2 ^ (8 * 1)) := by
  decide

/-- C11, amended: for every size `s` with `1 ≤ s ≤ 8`, every value and
every description that leaves room in the 80-byte buffer (its length plus 5
plus `2 * s` is at most 79), `FormatRegister` returns the description followed
by `" = 0x"` and exactly `2 * s` upper-case hexadecimal digits, which denote
the value reduced modulo `2 ^ (8 * s)`. -/
theorem format_register_scalar (s : Nat) (name : List Char) (v : Nat)
    (h1 : 1 ≤ s) (h8 : s ≤ 8) (hfit : name.length + 5 + 2 * s ≤ 79) :
    FormatRegister s name v = name ++ " = 0x".toList ++ fixedHex (2 * s) (v % 2 ^ (8 * s)) ∧
    (fixedHex (2 * s) (v % 2 ^ (8 * s))).length = 2 * s ∧
    (∀ c ∈ fixedHex (2 * s) (v % 2 ^ (8 * s)), c ∈ upperHexDigits) ∧
    hexValue (fixedHex (2 * s) (v % 2 ^ (8 * s))) = v % 2 ^ (8 * s) := by
  refine ⟨FormatRegister_fits s name v h1 h8 hfit, fixedHex_length _ _, fixedHex_mem _ _, ?_⟩
  rw [hexValue_fixedHex, sixteen_pow_two_mul]
  exact Nat.mod_mod _ _

/-- Witness of the amended C11: a 4-byte register named `CC`. -/
theorem format_register_scalar_witness :
    (1 ≤ 4 ∧ 4 ≤ 8 ∧ "CC".toList.length + 5 + 2 * 4 ≤ 79) ∧
    (FormatRegister 4 "CC".toList 0x1234ABCD
        = "CC".toList ++ " = 0x".toList ++ fixedHex (2 * 4) (0x1234ABCD % 2 ^ (8 * 4)) ∧
     (fixedHex (2 * 4) (0x1234ABCD % 2 ^ (8 * 4))).length = 2 * 4 ∧
     (∀ c ∈ fixedHex (2 * 4) (0x1234ABCD % 2 ^ (8 * 4)), c ∈ upperHexDigits) ∧
     hexValue (fixedHex (2 * 4) (0x1234ABCD % 2 ^ (8 * 4))) = 0x1234ABCD % 2 ^ (8 * 4)) :=
  ⟨by decide, format_register_scalar 4 "CC".toList 0x1234ABCD (by decide) (by decide)
    (by decide)⟩

theorem marker_not_suffix (X : List Char) (c : Char) (hc : c ≠ Char.ofNat 41) :
    ¬ truncatedMarker <:+ X ++ [c] := by
  rintro ⟨t, ht⟩
  have hm : truncatedMarker = "(TRUNCATED VALUE".toList ++ [Char.ofNat 41] := by decide
  rw [hm, ← List.append_assoc] at ht
  have := (List.append_inj' ht rfl).2
  simp at this
  exact hc this.symm

/-- C12: for every size above 8 the result is the result for size 8 with
the marker `"(TRUNCATED VALUE)"` appended, and is not empty; for every size up
to 8 the result is the formatted buffer with nothing appended, and when the
line fits the buffer the result does not end with the marker. -/
theorem format_register_truncation (s : Nat) (name : List Char) (v : Nat) :
    (8 < s → FormatRegister s name v = FormatRegister 8 name v ++ truncatedMarker) ∧
    (8 < s → FormatRegister s name v ≠ []) ∧
    (s ≤ 8 → FormatRegister s name v = snprintf80 (regFmt s name (REGMASK v s))) ∧
    (s ≤ 8 → name.length + 5 + 2 * s ≤ 79 → ¬ truncatedMarker <:+ FormatRegister s name v) := by
  refine ⟨fun h => ?_, fun h => ?_, fun h => ?_, fun h hfit => ?_⟩
  · have hs : s > MAX_SUPPORTED_REG_SIZE := by unfold MAX_SUPPORTED_REG_SIZE; omega
    have h8 : ¬ 8 > MAX_SUPPORTED_REG_SIZE := by unfold MAX_SUPPORTED_REG_SIZE; omega
    simp [FormatRegister, h, MAX_SUPPORTED_REG_SIZE]
  · have hs : s > MAX_SUPPORTED_REG_SIZE := by unfold MAX_SUPPORTED_REG_SIZE; omega
    simp only [FormatRegister, hs, if_true, decide_True]
    intro hnil
    have := congrArg List.length hnil
    simp [truncatedMarker] at this
  · have hs : ¬ s > MAX_SUPPORTED_REG_SIZE := by unfold MAX_SUPPORTED_REG_SIZE; omega
    simp [FormatRegister, hs]
  · by_cases h0 : s = 0
    · subst h0
      have hs : ¬ 0 > MAX_SUPPORTED_REG_SIZE := by unfold MAX_SUPPORTED_REG_SIZE; omega
      have hp : " = 0x".toList = " = 0".toList ++ [Char.ofNat 120] := by decide
      have hout : FormatRegister 0 name v = (name ++ " = 0".toList) ++ [Char.ofNat 120] := by
        simp only [FormatRegister, hs, if_false, decide_False, snprintf80, regFmt, if_true,
          Bool.false_eq_true]
        rw [List.take_of_length_le (by simp only [List.length_append, prefix_length]; omega), hp,
          List.append_assoc]
      rw [hout]
      exact marker_not_suffix _ _ (by decide)
    · have hout := FormatRegister_fits s name v (by omega) h hfit
      obtain ⟨k, hk⟩ : ∃ k, 2 * s = k + 1 := ⟨2 * s - 1, by omega⟩
      rw [hout, hk]
      simp only [fixedHex, fixedDigits, List.map_append, List.map_cons, List.map_nil]
      rw [← List.append_assoc]
      exact marker_not_suffix _ _ (hexChar_ne_paren _ (Nat.mod_lt _ (by decide)))

/-- Witness of C12: size 9 against size 8, and size 4 for a short name. -/
theorem format_register_truncation_witness :
    FormatRegister 9 "CC".toList 0x1234ABCD = FormatRegister 8 "CC".toList 0x1234ABCD
      ++ truncatedMarker ∧
    FormatRegister 9 "CC".toList 0x1234ABCD ≠ [] ∧
    FormatRegister 4 "CC".toList 0x1234ABCD
      = snprintf80 (regFmt 4 "CC".toList (REGMASK 0x1234ABCD 4)) ∧
    ¬ truncatedMarker <:+ FormatRegister 4 "CC".toList 0x1234ABCD :=
  ⟨(format_register_truncation 9 "CC".toList 0x1234ABCD).1 (by decide),
   (format_register_truncation 9 "CC".toList 0x1234ABCD).2.1 (by decide),
   (format_register_truncation 4 "CC".toList 0x1234ABCD).2.2.1 (by decide),
   (format_register_truncation 4 "CC".toList 0x1234ABCD).2.2.2 (by decide) (by decide)⟩

/-! ### The raw-buffer `FormatRegister` -/

theorem byte_text (b : Nat) :
    snprintf80 (printfHex 2 (b % 256) ++ " ".toList) = fixedHex 2 (b % 256) ++ " ".toList := by
  have hlt : b % 256 < 16 ^ 2 := Nat.mod_lt _ (by decide)
  rw [printfHex_fixed 2 (b % 256) (by decide) (by decide) hlt]
  apply List.take_of_length_le
  simp only [List.length_append, fixedHex_length]
  decide

theorem header_text (x : Nat) :
    snprintf80 ("\n    0x".toList ++ printfHex 8 (x % 2 ^ 32) ++ ": 0x".toList)
      = "\n    0x".toList ++ fixedHex 8 (x % 2 ^ 32) ++ ": 0x".toList := by
  have hlt : x % 2 ^ 32 < 16 ^ 8 := Nat.mod_lt _ (by decide)
  rw [printfHex_fixed 8 (x % 2 ^ 32) (by decide) (by decide) hlt]
  apply List.take_of_length_le
  simp only [List.length_append, fixedHex_length]
  decide

theorem dumpLoop_within_line (roffset : Nat) (value : Nat → Nat) (rem : Nat) :
    ∀ m i j res, 1 ≤ i → i ≤ 15 → i + m ≤ 16 →
      dumpLoop roffset value (m + rem) i j res
        = dumpLoop roffset value rem ((i + m) % 16) (j + m) (res ++ dumpBytes value m j) := by
  intro m
  induction m with
  | zero =>
    intro i j res _ h2 _
    have : i % 16 = i := by omega
    simp [dumpBytes, this]
  | succ m ih =>
    intro i j res h1 h2 h3
    have hi0 : i ≠ 0 := by omega
    have hstep : m + 1 + rem = (m + rem) + 1 := by omega
    rw [hstep, dumpLoop]
    simp only [hi0, if_false, byte_text]
    by_cases h15 : i ≥ 15
    · have hm : m = 0 := by omega
      subst hm
      have hi : i = 15 := by omega
      subst hi
      simp [dumpBytes, dumpLoop]
    · simp only [h15, if_false]
      rw [ih (i + 1) (j + 1) _ (by omega) (by omega) (by omega)]
      have e1 : (i + 1 + m) % 16 = (i + (m + 1)) % 16 := by congr 1; omega
      have e2 : j + 1 + m = j + (m + 1) := by omega
      rw [e1, e2]
      simp [dumpBytes, List.append_assoc]

theorem dumpLoop_line (roffset : Nat) (value : Nat → Nat) (rem c j : Nat) (res : List Char)
    (h1 : 1 ≤ c) (h2 : c ≤ 16) :
    dumpLoop roffset value (c + rem) 0 j res
      = dumpLoop roffset value rem (c % 16) (j + c)
          (res ++ ("\n    0x".toList ++ fixedHex 8 ((roffset + j) % 2 ^ 32) ++ ": 0x".toList
            ++ dumpBytes value c j)) := by
  obtain ⟨m, hm⟩ : ∃ m, c = m + 1 := ⟨c - 1, by omega⟩
  subst hm
  have hstep : m + 1 + rem = (m + rem) + 1 := by omega
  rw [hstep, dumpLoop]
  simp only [if_true, header_text, byte_text]
  have h0 : ¬ (0 : Nat) ≥ 15 := by omega
  simp only [h0, if_false]
  rw [dumpLoop_within_line roffset value rem m (0 + 1) (j + 1) _ (by omega) (by omega)
    (by omega)]
  have e1 : (0 + 1 + m) % 16 = (m + 1) % 16 := by congr 1; omega
  have e2 : j + 1 + m = j + (m + 1) := by omega
  rw [e1, e2]
  simp [dumpBytes, List.append_assoc]

theorem dumpLoop_lines (roffset : Nat) (value : Nat → Nat) (n : Nat) :
    ∀ r k res, (n - 16 * k + 15) / 16 = r → 16 * k ≤ n →
      dumpLoop roffset value (n - 16 * k) 0 (16 * k) res
        = res ++ (List.range' k r).flatMap (dumpLine roffset value n) := by
  intro r
  induction r with
  | zero =>
    intro k res hr _
    have h0 : n - 16 * k = 0 := by omega
    simp [h0, dumpLoop]
  | succ r ih =>
    intro k res hr hk
    have hpos : 1 ≤ min 16 (n - 16 * k) := by omega
    have hsplit : n - 16 * k = min 16 (n - 16 * k) + (n - 16 * (k + 1)) := by omega
    rw [List.range'_succ, List.flatMap_cons, ← List.append_assoc]
    by_cases hfull : 16 ≤ n - 16 * k
    · have hmin : min 16 (n - 16 * k) = 16 := by omega
      have hline := dumpLoop_line roffset value (n - 16 * (k + 1)) 16 (16 * k) res
        (by decide) (by decide)
      have e : 16 + (n - 16 * (k + 1)) = n - 16 * k := by omega
      have e2 : 16 * k + 16 = 16 * (k + 1) := by omega
      rw [e, e2] at hline
      rw [hline]
      have := ih (k + 1)
        (res ++ ("\n    0x".toList ++ fixedHex 8 ((roffset + 16 * k) % 2 ^ 32) ++ ": 0x".toList
          ++ dumpBytes value 16 (16 * k))) (by omega) (by omega)
      simp only [Nat.reduceMod] at this ⊢
      rw [this]
      simp only [dumpLine, hmin]
    · have hrem : n - 16 * (k + 1) = 0 := by omega
      have hmin : min 16 (n - 16 * k) = n - 16 * k := by omega
      have hr0 : r = 0 := by omega
      have hline := dumpLoop_line roffset value 0 (n - 16 * k) (16 * k) res (by omega)
        (by omega)
      rw [Nat.add_zero] at hline
      rw [hline, hr0]
      simp [dumpLoop, dumpLine, hmin]

theorem spaceLabel_text :
    spaceLabel NVMEIO_PCI_HDR = "PCI space register...".toList ∧
    spaceLabel NVMEIO_BAR01 = "ctrl\x27r space register...".toList ∧
    spaceLabel NVMEIO_FENCE = "unknown space register".toList := by
  decide

set_option maxRecDepth 8192 in
theorem raw_dump_two_lines :
    FormatRegisterRaw NVMEIO_BAR01 18 0xF8 (fun j => j)
      = ("ctrl\x27r space register..."
          ++ "\n    0x000000F8: 0x00 01 02 03 04 05 06 07 08 09 0A 0B 0C 0D 0E 0F "
          ++ "\n    0x00000108: 0x10 11 ").toList := by
  decide

set_option maxRecDepth 8192 in
theorem raw_dump_upper_case :
    FormatRegisterRaw NVMEIO_PCI_HDR 3 0x10 (fun j => 0xAB + 0x29 * j)
      = "PCI space register...\n    0x00000010: 0xAB D4 FD ".toList := by
  decide

/-- C13: for every space selector, start offset and buffer of `n` bytes
the raw-buffer `FormatRegister` returns the space label (`"PCI space
register..."`, `"ctrl'r space register..."` or `"unknown space register"`)
followed by `(n + 15) / 16` dump lines, line `k` being a line break, the
offset of byte `16 k` (start offset plus `16 k`, in 32-bit arithmetic) as
eight hexadecimal digits, and then the bytes `16 k .. min (16 k + 15) (n - 1)`
in order, each as two upper-case hexadecimal digits and one space; every line
holds between 1 and 16 bytes, and for `n = 0` the result is the label alone.
The digits are those of `"0123456789ABCDEF"` and denote the number printed;
two dumps are given in full. -/
theorem format_register_raw_dump (regSpc : nvme_io_space) (n roffset : Nat)
    (value : Nat → Nat) :
    FormatRegisterRaw regSpc n roffset value
      = spaceLabel regSpc ++ (List.range ((n + 15) / 16)).flatMap (dumpLine roffset value n) ∧
    (spaceLabel NVMEIO_PCI_HDR = "PCI space register...".toList ∧
     spaceLabel NVMEIO_BAR01 = "ctrl\x27r space register...".toList ∧
     spaceLabel NVMEIO_FENCE = "unknown space register".toList) ∧
    (∀ k, dumpLine roffset value n k
      = "\n    0x".toList ++ fixedHex 8 ((roffset + 16 * k) % 2 ^ 32) ++ ": 0x".toList
          ++ dumpBytes value (min 16 (n - 16 * k)) (16 * k)) ∧
    (∀ j, dumpBytes value 0 j = []) ∧
    (∀ c j, dumpBytes value (c + 1) j
      = fixedHex 2 (value j % 256) ++ " ".toList ++ dumpBytes value c (j + 1)) ∧
    (∀ x, (fixedHex 8 (x % 2 ^ 32)).length = 8 ∧
      (∀ c ∈ fixedHex 8 (x % 2 ^ 32), c ∈ "0123456789ABCDEF".toList) ∧
      hexValue (fixedHex 8 (x % 2 ^ 32)) = x % 2 ^ 32) ∧
    (∀ b, (fixedHex 2 (b % 256)).length = 2 ∧
      (∀ c ∈ fixedHex 2 (b % 256), c ∈ "0123456789ABCDEF".toList) ∧
      hexValue (fixedHex 2 (b % 256)) = b % 256) ∧
    (∀ k, k < (n + 15) / 16 → 1 ≤ min 16 (n - 16 * k) ∧ min 16 (n - 16 * k) ≤ 16) ∧
    FormatRegisterRaw regSpc 0 roffset value = spaceLabel regSpc ∧
    FormatRegisterRaw NVMEIO_BAR01 18 0xF8 (fun j => j)
      = ("ctrl\x27r space register..."
          ++ "\n    0x000000F8: 0x00 01 02 03 04 05 06 07 08 09 0A 0B 0C 0D 0E 0F "
          ++ "\n    0x00000108: 0x10 11 ").toList ∧
    FormatRegisterRaw NVMEIO_PCI_HDR 3 0x10 (fun j => 0xAB + 0x29 * j)
      = "PCI space register...\n    0x00000010: 0xAB D4 FD ".toList := by
  refine ⟨?_, spaceLabel_text, fun k => rfl, fun j => rfl, fun c j => rfl, fun x => ?_,
    fun b => ?_, fun k hk => by omega, rfl, raw_dump_two_lines, raw_dump_upper_case⟩
  · have h := dumpLoop_lines roffset value n ((n + 15) / 16) 0 (spaceLabel regSpc) (by simp)
      (by omega)
    simp only [Nat.mul_zero, Nat.sub_zero] at h
    rw [List.range_eq_range']
    exact h
  · refine ⟨fixedHex_length _ _, fixedHex_mem _ _, ?_⟩
    rw [hexValue_fixedHex]
    exact Nat.mod_mod _ _
  · refine ⟨fixedHex_length _ _, fixedHex_mem _ _, ?_⟩
    rw [hexValue_fixedHex]
    exact Nat.mod_mod _ _

/-- Witness of C13: the second line of an 18-byte dump holds two bytes. -/
theorem format_register_raw_dump_witness :
    1 ≤ min 16 (18 - 16 * 1) ∧ min 16 (18 - 16 * 1) ≤ 16 :=
  (format_register_raw_dump NVMEIO_BAR01 18 0xF8 (fun j => j)).2.2.2.2.2.2.2.1 1 (by decide)

end Tnvme
